import Mathlib

/-!
# LED-Cube firmware: main loop and command dispatcher (CubeFirmware/main.c)

A shallow embedding of `main.c`.  The file-scope variables of `main.c` are the
record `Globals`, the local variables of `main` are the record `Locals`.
Every function that `main.c` calls but does not define (display driver, store,
audio, serial transport, timer, libc `rand`/`malloc`) is an external
collaborator: each call is appended to `State.trace`, and each value such a
call returns is taken from the answer stream for that function in `Env`.
A theorem quantified over all `Env` therefore holds for every behaviour of the
collaborators.  Collaborators are taken not to write the variables of
`main.c`, which the core owns exclusively.

Machine integers are `Nat` reduced modulo `2 ^ w`; `char` values are `Int`.
Loops that need not terminate take a fuel argument; `Outcome.outOfFuel` means
the loop was still running when the fuel ran out.
-/

namespace LEDCube

/-! ## Constants of main.c -/

/-- Acknowledge and handshake byte, `#define OK 0x42`. -/
def OK : Nat := 0x42
/-- Error byte, `#define ERROR 0x23`. -/
def ERROR : Nat := 0x23
/-- Self-test result without any error bit. -/
def NOERROR : Nat := 0
/-- Audio does not answer. -/
def AUDIOERROR : Nat := 1
/-- Memory does not answer. -/
def MEMORYERROR : Nat := 2
/-- Memory not writeable. -/
def MEMORYWRITEERROR : Nat := 4
/-- Length of an idle animation frame in ticks. -/
def IDLELENGTH : Nat := 48
/-- Size of the text buffer, `char buffer[11]`. -/
def BUFFERSIZE : Nat := 11

/-- What the build supplies and `main.c` only uses: the signedness of plain
`char` (implementation-defined in C; signed is the avr-gcc default, the option
`-funsigned-char` makes it unsigned), the results of the constant functions
`numberOfVisualizations()` and `numOfAnimations()`, and from
`builtInFrames.c` the macro `IDLEANIMATIONCOUNT` and the initial contents of
the array `defaultImageA`. -/
structure Platform where
  charSigned : Bool
  numberOfVisualizations : Nat
  numOfAnimations : Nat
  IDLEANIMATIONCOUNT : Nat
  defaultImageA : List Nat
  deriving DecidableEq, Repr

/-! ## External calls and their answers -/

/-- Image argument of `setImage`. -/
inductive Img where
  | defaultImageCube
  | idleAnimation (idx : Nat)
  | ram (bytes : List Nat)
  | null
  deriving DecidableEq, Repr

/-- Text argument of `serialWriteString`: an entry of the string table
(`getString(n)`) or a zero-terminated string given by its bytes. -/
inductive Str where
  | getString (n : Nat)
  | text (bytes : List Nat)
  deriving DecidableEq, Repr

/-- Memory block handed to `free`. -/
inductive Ptr where
  | audioData
  | memBytes
  | frame (idx : Nat)
  | randomBuffer
  | null
  deriving DecidableEq, Repr

/-- One call from `main.c` to an external collaborator, with its arguments. -/
inductive Event where
  | wdt_reset
  | setImage (img : Img)
  | fillBuffer (v : Nat)
  | isFinished
  | getAudioData
  | runVisualization (data : List Nat) (id : Nat)
  | executeAnimation (idx : Nat)
  | getAnimationCount
  | setAnimationCount (n : Nat)
  | getFrame (idx : Nat)
  | clearMem
  | memGetBytes (addr len : Nat)
  | setGeneralPurposeByte (addr v : Nat)
  | getGeneralPurposeByte (addr : Nat)
  | malloc (n : Nat)
  | free (p : Ptr)
  | rand
  | serialHasChar
  | serialGet
  | serialWrite (b : Nat)
  | serialWriteString (s : Str)
  | transmitAnimations
  | recieveAnimations
  | sendAudioData
  | getSystemTime
  | getTriggerCount
  | readPINB
  deriving DecidableEq, Repr

/-- Answer streams of the external collaborators: the n-th call of a function
returns the n-th element of its list, and a fixed default once the list is
exhausted. -/
structure Env where
  isFinished : List Nat
  getAudioData : List (Option (List Nat))
  getAnimationCount : List Nat
  getFrame : List (Option (List Nat))
  memGetBytes : List Bool
  getGeneralPurposeByte : List Nat
  malloc : List Bool
  rand : List Nat
  serialHasChar : List Bool
  serialGet : List Nat
  getSystemTime : List Nat
  getTriggerCount : List Nat
  PINB : List Nat
  deriving DecidableEq, Repr

/-- The environment in which every answer is the default: no serial input,
display never finished, empty store, time 0, button released. -/
def Env.quiet : Env :=
  { isFinished := [], getAudioData := [], getAnimationCount := [], getFrame := [],
    memGetBytes := [], getGeneralPurposeByte := [], malloc := [], rand := [],
    serialHasChar := [], serialGet := [], getSystemTime := [], getTriggerCount := [],
    PINB := [] }

/-- File-scope variables of `main.c`, with `defaultImageA` of
`builtInFrames.c`, which the sweep diagnostic overwrites.  The field `overrun`
is not a variable of the program: it records that a text of more than
`BUFFERSIZE - 1` characters was written into `buffer`, so that a byte went
past the end of the array.  From then on the behaviour of the C program is
undefined and the values below no longer describe it. -/
structure Globals where
  shouldRestart : Nat
  refreshAnimationCount : Nat
  lastButtonState : Nat
  maxButtonState : Nat
  buffer : List Nat
  DebugDone : Nat
  defaultImageA : List Nat
  overrun : Bool := false
  deriving DecidableEq, Repr

/-- Local variables of `main` that live across loop iterations. -/
structure Locals where
  i : Nat
  length : Nat
  count : Nat
  lastChecked : Nat
  idleCounter : Nat
  deriving DecidableEq, Repr

/-- Program state: variables, remaining answers, and the calls made so far. -/
structure State where
  g : Globals
  m : Locals
  env : Env
  trace : List Event
  deriving DecidableEq, Repr

/-- Result of running a piece of code. -/
inductive Outcome (α : Type) where
  | ok (a : α)
  | outOfFuel
  | nullDeref
  deriving DecidableEq, Repr

/-- Record a call. -/
def State.emit (s : State) (e : Event) : State :=
  { s with trace := s.trace ++ [e] }

/-- Call `uint8_t isFinished(void)`. -/
def isFinished (s : State) : Nat × State :=
  (s.env.isFinished.headD 0 % 256,
   { s with env := { s.env with isFinished := s.env.isFinished.tail },
            trace := s.trace ++ [Event.isFinished] })

/-- Call `uint8_t *getAudioData(void)`; `none` is `NULL`. -/
def getAudioData (s : State) : Option (List Nat) × State :=
  (s.env.getAudioData.headD none,
   { s with env := { s.env with getAudioData := s.env.getAudioData.tail },
            trace := s.trace ++ [Event.getAudioData] })

/-- Call `uint16_t getAnimationCount(void)`. -/
def getAnimationCount (s : State) : Nat × State :=
  (s.env.getAnimationCount.headD 0 % 65536,
   { s with env := { s.env with getAnimationCount := s.env.getAnimationCount.tail },
            trace := s.trace ++ [Event.getAnimationCount] })

/-- Call `uint8_t *getFrame(uint16_t)`; `none` is `NULL`. -/
def getFrame (idx : Nat) (s : State) : Option (List Nat) × State :=
  (s.env.getFrame.headD none,
   { s with env := { s.env with getFrame := s.env.getFrame.tail },
            trace := s.trace ++ [Event.getFrame idx] })

/-- Call `memGetBytes(addr, len)`; the result says whether a block came back. -/
def memGetBytes (addr len : Nat) (s : State) : Bool × State :=
  (s.env.memGetBytes.headD false,
   { s with env := { s.env with memGetBytes := s.env.memGetBytes.tail },
            trace := s.trace ++ [Event.memGetBytes addr len] })

/-- Call `uint8_t getGeneralPurposeByte(addr)`. -/
def getGeneralPurposeByte (addr : Nat) (s : State) : Nat × State :=
  (s.env.getGeneralPurposeByte.headD 0 % 256,
   { s with env := { s.env with getGeneralPurposeByte := s.env.getGeneralPurposeByte.tail },
            trace := s.trace ++ [Event.getGeneralPurposeByte addr] })

/-- Call `malloc(n)`; the result says whether a block came back. -/
def malloc (n : Nat) (s : State) : Bool × State :=
  (s.env.malloc.headD false,
   { s with env := { s.env with malloc := s.env.malloc.tail },
            trace := s.trace ++ [Event.malloc n] })

/-- Call `rand()`, with `RAND_MAX = 0x7FFF`. -/
def rand (s : State) : Nat × State :=
  (s.env.rand.headD 0 % 32768,
   { s with env := { s.env with rand := s.env.rand.tail },
            trace := s.trace ++ [Event.rand] })

/-- Call `serialHasChar()`. -/
def serialHasChar (s : State) : Bool × State :=
  (s.env.serialHasChar.headD false,
   { s with env := { s.env with serialHasChar := s.env.serialHasChar.tail },
            trace := s.trace ++ [Event.serialHasChar] })

/-- Call `serialGet()`, which takes one byte out of the serial input. -/
def serialGet (s : State) : Nat × State :=
  (s.env.serialGet.headD 0 % 256,
   { s with env := { s.env with serialGet := s.env.serialGet.tail },
            trace := s.trace ++ [Event.serialGet] })

/-- Call `uint64_t getSystemTime(void)`. -/
def getSystemTime (s : State) : Nat × State :=
  (s.env.getSystemTime.headD 0 % 2 ^ 64,
   { s with env := { s.env with getSystemTime := s.env.getSystemTime.tail },
            trace := s.trace ++ [Event.getSystemTime] })

/-- Call `uint32_t getTriggerCount(void)`. -/
def getTriggerCount (s : State) : Nat × State :=
  (s.env.getTriggerCount.headD 0 % 2 ^ 32,
   { s with env := { s.env with getTriggerCount := s.env.getTriggerCount.tail },
            trace := s.trace ++ [Event.getTriggerCount] })

/-- Read the input register `PINB` (all pins high once the list is exhausted:
the button is low active). -/
def readPINB (s : State) : Nat × State :=
  (s.env.PINB.headD 255 % 256,
   { s with env := { s.env with PINB := s.env.PINB.tail },
            trace := s.trace ++ [Event.readPINB] })

/-! ## Integer conversions and libc text conversion -/

/-- Conversion of a byte to plain `char`. -/
def toChar (P : Platform) (b : Nat) : Int :=
  if P.charSigned && decide (128 ≤ b % 256) then (b % 256 : Int) - 256 else (b % 256 : Int)

/-- Conversion to the 16-bit `int` of the target. -/
def toInt16 (v : Int) : Int :=
  if (v % 65536).toNat < 32768 then ((v % 65536).toNat : Int)
  else ((v % 65536).toNat : Int) - 65536

/-- Conversion to the 32-bit `long` of the target. -/
def toInt32 (v : Int) : Int :=
  if (v % 4294967296).toNat < 2147483648 then ((v % 4294967296).toNat : Int)
  else ((v % 4294967296).toNat : Int) - 4294967296

/-- Character for one digit. -/
def digitChar (d : Nat) : Nat := if d < 10 then 48 + d else 87 + d

/-- Digits of `n` in the given radix, most significant first, in front of `acc`. -/
def toDigits (radix : Nat) : Nat → Nat → List Nat → List Nat
  | 0, _, acc => acc
  | fuel + 1, n, acc =>
    if n / radix = 0 then digitChar (n % radix) :: acc
    else toDigits radix fuel (n / radix) (digitChar (n % radix) :: acc)

/-- Text that `itoa(value, buf, radix)` produces, without the final zero
byte: a minus sign only for radix 10, any other radix prints the 16-bit
unsigned value. -/
def itoa (v : Int) (radix : Nat) : List Nat :=
  let w := toInt16 v
  if radix = 10 ∧ w < 0 then 45 :: toDigits radix 16 (-w).toNat []
  else toDigits radix 16 (w % 65536).toNat []

/-- Text that `ltoa(value, buf, radix)` produces, for the 32-bit `long`. -/
def ltoa (v : Int) (radix : Nat) : List Nat :=
  let w := toInt32 v
  if radix = 10 ∧ w < 0 then 45 :: toDigits radix 32 (-w).toNat []
  else toDigits radix 32 (w % 4294967296).toNat []

/-- Store a zero-terminated text at the start of `buffer`: the bytes behind
it keep their old contents, and the array keeps its `BUFFERSIZE` bytes (what
does not fit is written past the array, see `overruns`). -/
def writeBuf (txt : List Nat) (old : List Nat) : List Nat :=
  (txt ++ 0 :: old.drop (txt.length + 1)).take BUFFERSIZE

/-- The text with its final zero byte does not fit into `buffer`: writing it
stores a byte past the end of the array. -/
def overruns (txt : List Nat) : Bool := decide (BUFFERSIZE < txt.length + 1)

/-- The zero-terminated string that starts a buffer. -/
def cstr (buf : List Nat) : List Nat := buf.takeWhile (fun b => b != 0)

/-- Write of `itoa(v, buffer, radix)` into the global `buffer`. -/
def itoaBuffer (v : Int) (radix : Nat) (s : State) : State :=
  { s with g := { s.g with buffer := writeBuf (itoa v radix) s.g.buffer,
                           overrun := s.g.overrun || overruns (itoa v radix) } }

/-- Write of `ltoa(v, buffer, radix)` into the global `buffer`. -/
def ltoaBuffer (v : Int) (radix : Nat) (s : State) : State :=
  { s with g := { s.g with buffer := writeBuf (ltoa v radix) s.g.buffer,
                           overrun := s.g.overrun || overruns (ltoa v radix) } }

/-- Call `serialWriteString(buffer)`. -/
def writeBufferString (s : State) : State :=
  s.emit (Event.serialWriteString (Str.text (cstr s.g.buffer)))

/-! ## audioModeSelected, selfTest, printErrors -/

/-- Embedding of `audioModeSelected`: pushbutton on PB0, low active. -/
def audioModeSelected (s : State) : Nat × State :=
  let (pinb, s) := readPINB s
  let s :=
    if pinb % 2 = 0 then
      -- Button pushed
      if (s.g.lastButtonState : Int) < (s.g.maxButtonState : Int) - 1 then
        { s with g := { s.g with lastButtonState := (s.g.lastButtonState + 1) % 256 } }
      else
        { s with g := { s.g with lastButtonState := 0 } }
    else s
  (s.g.lastButtonState, s)

/-- Embedding of `selfTest`. -/
def selfTest (s : State) : Nat × State :=
  let result := NOERROR
  let (data, s) := getAudioData s
  let (result, s) :=
    match data with
    | none => (result ||| AUDIOERROR, s)
    | some _ => (result, s.emit (Event.free Ptr.audioData))
  let (present, s) := memGetBytes 0 1 s
  let (result, s) :=
    if present then (result, s.emit (Event.free Ptr.memBytes))
    else (result ||| MEMORYERROR, s)
  let s := s.emit (Event.setGeneralPurposeByte 0 0x23)
  let (v, s) := getGeneralPurposeByte 0 s
  let result := if v ≠ 0x23 then result ||| MEMORYWRITEERROR else result
  (result, s)

/-- Embedding of `printErrors`, with `ISERROR(x, e) = x & e`. -/
def printErrors (e : Nat) (s : State) : State :=
  let s := if e &&& AUDIOERROR ≠ 0 then s.emit (Event.serialWriteString (Str.getString 3)) else s
  let s := if e &&& MEMORYERROR ≠ 0 then s.emit (Event.serialWriteString (Str.getString 4)) else s
  let s := if e &&& MEMORYWRITEERROR ≠ 0 then s.emit (Event.serialWriteString (Str.getString 5)) else s
  s

/-! ## printTime -/

/-- The statement `if (getSystemTime() > 60000) { ... }` of `printTime`;
the texts are `" ("` and `" min)"`. -/
def printTimeMinutes (s : State) : State :=
  let (t, s) := getSystemTime s
  if t > 60000 then
    let s := s.emit (Event.serialWriteString (Str.text [32, 40]))
    let (t, s) := getSystemTime s
    let s := writeBufferString (itoaBuffer (t / 60000 : Nat) 10 s)
    s.emit (Event.serialWriteString (Str.text [32, 109, 105, 110, 41]))
  else s

/-- The four `if` statements of `printTime` that print the fraction from the
text left in `buffer`: `'.'`, `'0'`, `'0'` and the text itself. -/
def printTimeFraction (s : State) : State :=
  let s := if s.g.buffer.getD 0 0 ≠ 0 then s.emit (Event.serialWrite 46) else s
  let s := if s.g.buffer.getD 2 0 = 0 then s.emit (Event.serialWrite 48) else s
  let s := if s.g.buffer.getD 1 0 = 0 then s.emit (Event.serialWrite 48) else s
  if s.g.buffer.getD 0 0 ≠ 0 then writeBufferString s else s

/-- The statement `if (getSystemTime() > 1000) { ... } else { ... }` of
`printTime`; the texts are `" ("` and `"s)\n"`. -/
def printTimeSeconds (s : State) : State :=
  let (t, s) := getSystemTime s
  if t > 1000 then
    let s := s.emit (Event.serialWriteString (Str.text [32, 40]))
    let (t, s) := getSystemTime s
    let s := writeBufferString (itoaBuffer (t / 1000 : Nat) 10 s)
    let (t, s) := getSystemTime s
    let s := itoaBuffer (t % 1000 : Nat) 10 s
    let s := printTimeFraction s
    s.emit (Event.serialWriteString (Str.text [115, 41, 10]))
  else
    s.emit (Event.serialWrite 10)

/-- Embedding of `printTime`: the uptime in milliseconds followed by `"ms"`,
then the minutes and the seconds. -/
def printTime (s : State) : State :=
  let s := s.emit (Event.serialWriteString (Str.getString 14))
  let (t, s) := getSystemTime s
  let s := writeBufferString (ltoaBuffer t 10 s)
  let s := s.emit (Event.serialWriteString (Str.text [109, 115]))
  printTimeSeconds (printTimeMinutes s)

/-! ## The command dispatcher -/

/-- The `case` labels of the `switch` in `serialHandler`, one constructor
for each group of labels that shares a body. -/
inductive Cmd where
  | handshake
  | help
  | clearStorage
  | sendAnimations
  | receiveAnimations
  | version
  | toggleMode
  | requestRestart
  | randomAnimation
  | printTime
  | sendAudioSample
  | countAnimations
  | setAnimationCount
  | resetAnimationCount
  | selfTest
  | snake
  | fillLow
  | fillHigh
  | showDefault
  | sweepDiagnostic
  | triggerCount
  | unrecognized
  deriving DecidableEq, Repr

/-- The `switch (c)` of `serialHandler`: which body a character selects. -/
def decode (c : Int) : Cmd :=
  if c = 0x42 then Cmd.handshake                                    -- OK
  else if c = 104 ∨ c = 72 ∨ c = 63 then Cmd.help                   -- h H ?
  else if c = 100 ∨ c = 68 then Cmd.clearStorage                    -- d D
  else if c = 103 ∨ c = 71 then Cmd.sendAnimations                  -- g G
  else if c = 115 ∨ c = 83 then Cmd.receiveAnimations               -- s S
  else if c = 118 ∨ c = 86 then Cmd.version                         -- v V
  else if c = 109 ∨ c = 77 then Cmd.toggleMode                      -- m M
  else if c = 113 ∨ c = 81 then Cmd.requestRestart                  -- q Q
  else if c = 114 ∨ c = 82 then Cmd.randomAnimation                 -- r R
  else if c = 116 ∨ c = 84 then Cmd.printTime                       -- t T
  else if c = 97 ∨ c = 65 then Cmd.sendAudioSample                  -- a A
  else if c = 99 ∨ c = 67 then Cmd.countAnimations                  -- c C
  else if c = 120 ∨ c = 88 then Cmd.setAnimationCount               -- x X
  else if c = 121 ∨ c = 89 then Cmd.resetAnimationCount             -- y Y
  else if c = 101 ∨ c = 69 then Cmd.selfTest                        -- e E
  else if c = 110 ∨ c = 78 then Cmd.snake                           -- n N
  else if c = 48 then Cmd.fillLow                                   -- 0
  else if c = 49 then Cmd.fillHigh                                  -- 1
  else if c = 51 then Cmd.showDefault                               -- 3
  else if c = 50 then Cmd.sweepDiagnostic                           -- 2
  else if c = 73 ∨ c = 105 then Cmd.triggerCount                    -- I i
  else Cmd.unrecognized

/-- The busy wait `while (isFinished() == 0);` of `randomAnimation`. -/
def randomWait : Nat → State → Outcome State
  | 0, _ => Outcome.outOfFuel
  | fuel + 1, s =>
    let (t, s) := isFinished s
    if t = 0 then randomWait fuel s else Outcome.ok s

/-- The buffer update of one cycle of `randomAnimation`, from the three
results of `rand()`: `x = rand() / 4096; y = rand() / 4096; z = rand() / 4096;
b[x + (8 * y)] ^= (1 << z);` on a buffer of bytes. -/
def randomToggle (b : List Nat) (r1 r2 r3 : Nat) : List Nat :=
  let x := r1 / 4096
  let y := r2 / 4096
  let z := r3 / 4096
  b.set (x + 8 * y) ((b.getD (x + 8 * y) 0 ^^^ (1 <<< z)) % 256)

/-- The `while(1)` loop of `randomAnimation` on the buffer `b`; `handler`
is `serialHandler`, which the loop calls on the byte that interrupts it. -/
def randomLoop (P : Platform) (handler : Int → State → Outcome State) :
    Nat → List Nat → State → Outcome State
  | 0, _, _ => Outcome.outOfFuel
  | fuel + 1, b, s =>
    let s := s.emit (Event.setImage (Img.ram b))
    match randomWait fuel s with
    | Outcome.ok s =>
      let (r1, s) := rand s
      let (r2, s) := rand s
      let (r3, s) := rand s
      let b := randomToggle b r1 r2 r3
      let (has, s) := serialHasChar s
      if has then
        let s := s.emit (Event.serialWriteString (Str.getString 25))
        let s := s.emit (Event.free Ptr.randomBuffer)
        let (byte, s) := serialGet s
        handler (toChar P byte) s
      else randomLoop P handler fuel b s
    | Outcome.outOfFuel => Outcome.outOfFuel
    | Outcome.nullDeref => Outcome.nullDeref

/-- Embedding of `randomAnimation`; `handler` is `serialHandler`. -/
def randomAnimation (P : Platform) (handler : Int → State → Outcome State)
    (fuel : Nat) (s : State) : Outcome State :=
  let (b, s) := malloc 64 s
  if !b then
    Outcome.ok (s.emit (Event.serialWriteString (Str.getString 24)))
  else
    randomLoop P handler fuel (List.replicate 64 0) s

/-- Assignment `defaultImageA[idx] = v`. -/
def setDefaultImageA (idx v : Nat) (s : State) : State :=
  { s with g := { s.g with defaultImageA := s.g.defaultImageA.set idx v } }

/-- The busy wait of the sweep diagnostic,
`while (isFinished() == 0) { wdt_reset(); if (serialHasChar()) goto killMeForIt; }`;
the flag of the result is true when the jump is taken. -/
def sweepWait : Nat → State → Outcome (Bool × State)
  | 0, _ => Outcome.outOfFuel
  | fuel + 1, s =>
    let (t, s) := isFinished s
    if t = 0 then
      let s := s.emit Event.wdt_reset
      let (has, s) := serialHasChar s
      if has then Outcome.ok (true, s) else sweepWait fuel s
    else Outcome.ok (false, s)

/-- The nested loops of the sweep diagnostic from the start of the body of
the `for (z ...)` loop at position `i`, `y`, `z`; it returns when the jump to
`killMeForIt` is taken. -/
def sweep : Nat → Nat → Nat → Nat → State → Outcome State
  | 0, _, _, _, _ => Outcome.outOfFuel
  | fuel + 1, i, y, z, s =>
    let s := setDefaultImageA (y + i * 8)
      ((s.g.defaultImageA.getD (y + i * 8) 0 ||| (1 <<< z)) % 256) s
    let s := s.emit (Event.setImage (Img.ram s.g.defaultImageA))
    match sweepWait fuel s with
    | Outcome.ok (true, s) => Outcome.ok s
    | Outcome.ok (false, s) =>
      if z + 1 < 8 then sweep fuel i y (z + 1) s
      else
        let s := setDefaultImageA (y + i * 8) 0 s
        if y + 1 < 8 then sweep fuel i (y + 1) 0 (setDefaultImageA (y + 1 + i * 8) 0 s)
        else if i + 1 < 8 then sweep fuel (i + 1) 0 0 (setDefaultImageA (0 + (i + 1) * 8) 0 s)
        else sweep fuel 0 0 0 (setDefaultImageA (0 + 0 * 8) 0 s)
    | Outcome.outOfFuel => Outcome.outOfFuel
    | Outcome.nullDeref => Outcome.nullDeref

/-- The wait `while (!serialHasChar());` of set-animation-count. -/
def waitChar : Nat → State → Outcome State
  | 0, _ => Outcome.outOfFuel
  | fuel + 1, s =>
    let (has, s) := serialHasChar s
    if has then Outcome.ok s else waitChar fuel s

/-- The bodies of the `switch` of `serialHandler`; `handler` is
`serialHandler` itself, which `randomAnimation` calls, and `fuel` bounds the
loops of the body. -/
def dispatch (P : Platform) (handler : Int → State → Outcome State) (fuel : Nat)
    (cmd : Cmd) (s : State) : Outcome State :=
    match cmd with
    | Cmd.handshake => Outcome.ok (s.emit (Event.serialWrite OK))
    | Cmd.help =>
      let s := s.emit (Event.serialWriteString (Str.getString 6))
      let s := s.emit (Event.serialWriteString (Str.getString 7))
      let s := s.emit (Event.serialWriteString (Str.getString 8))
      let s := s.emit (Event.serialWriteString (Str.getString 9))
      let s := s.emit (Event.serialWriteString (Str.getString 10))
      let s := s.emit (Event.serialWriteString (Str.getString 11))
      let s := s.emit (Event.serialWriteString (Str.getString 12))
      let s := s.emit (Event.serialWriteString (Str.getString 13))
      Outcome.ok (s.emit (Event.serialWriteString (Str.getString 26)))
    | Cmd.clearStorage =>
      let s := s.emit Event.clearMem
      Outcome.ok (s.emit (Event.serialWrite OK))
    | Cmd.sendAnimations => Outcome.ok (s.emit Event.transmitAnimations)
    | Cmd.receiveAnimations => Outcome.ok (s.emit Event.recieveAnimations)
    | Cmd.version => Outcome.ok (s.emit (Event.serialWriteString (Str.getString 0)))
    | Cmd.toggleMode =>
      let s := { s with g := { s.g with
        lastButtonState := if s.g.lastButtonState = 0 then 1 else 0 } }
      if s.g.lastButtonState ≠ 0 then
        Outcome.ok (s.emit (Event.serialWriteString (Str.getString 41)))
      else
        Outcome.ok (s.emit (Event.serialWriteString (Str.getString 40)))
    | Cmd.requestRestart =>
      let s := { s with g := { s.g with shouldRestart := 1 } }
      Outcome.ok (s.emit (Event.serialWriteString (Str.getString 30)))
    | Cmd.randomAnimation => randomAnimation P handler fuel s
    | Cmd.printTime => Outcome.ok (printTime s)
    | Cmd.sendAudioSample => Outcome.ok (s.emit Event.sendAudioData)
    | Cmd.countAnimations =>
      let (n, s) := getAnimationCount s
      let s := writeBufferString (itoaBuffer (n : Nat) 10 s)
      Outcome.ok (s.emit (Event.serialWriteString (Str.getString 15)))
    | Cmd.setAnimationCount =>
      -- Get byte, store as animation count
      let s := s.emit (Event.serialWriteString (Str.getString 16))
      match waitChar fuel s with
      | Outcome.ok s =>
        let (byte, s) := serialGet s
        let c := toChar P byte
        let s := s.emit (Event.setAnimationCount (c % 65536).toNat)
        let s := writeBufferString (itoaBuffer c 10 s)
        Outcome.ok (s.emit (Event.serialWriteString (Str.getString 17)))
      | Outcome.outOfFuel => Outcome.outOfFuel
      | Outcome.nullDeref => Outcome.nullDeref
    | Cmd.resetAnimationCount =>
      let s := s.emit (Event.setAnimationCount 0x2201)
      Outcome.ok (s.emit (Event.serialWriteString (Str.getString 18)))
    | Cmd.selfTest =>
      let (r, s) := selfTest s
      let c := toChar P r
      let s := s.emit (Event.serialWriteString (Str.getString 19))
      let s := writeBufferString (itoaBuffer c 2 s)
      let s := s.emit (Event.serialWrite 10)
      Outcome.ok (printErrors (c % 256).toNat s)
    | Cmd.snake =>
      -- snake();
      Outcome.ok s
    | Cmd.fillLow =>
      let s := s.emit (Event.fillBuffer 0)
      Outcome.ok { s with g := { s.g with DebugDone := s.g.DebugDone ||| 4 } }
    | Cmd.fillHigh =>
      let s := s.emit (Event.fillBuffer 0xFF)
      Outcome.ok { s with g := { s.g with DebugDone := s.g.DebugDone ||| 4 } }
    | Cmd.showDefault =>
      let s := s.emit (Event.setImage Img.defaultImageCube)
      Outcome.ok { s with g := { s.g with DebugDone := s.g.DebugDone ||| 4 } }
    | Cmd.sweepDiagnostic =>
      let s := { s with g := { s.g with DebugDone := s.g.DebugDone ||| 4 } }
      let s := s.emit (Event.fillBuffer 0)
      let s := (List.range 64).foldl (fun s i => setDefaultImageA i 0 s) s
      match sweep fuel 0 0 0 (setDefaultImageA (0 + 0 * 8) 0 s) with
      | Outcome.ok s =>
        -- killMeForIt:
        let (_, s) := serialGet s
        Outcome.ok (s.emit (Event.serialWriteString (Str.getString 25)))
      | Outcome.outOfFuel => Outcome.outOfFuel
      | Outcome.nullDeref => Outcome.nullDeref
    | Cmd.triggerCount =>
      let (n, s) := getTriggerCount s
      let s := writeBufferString (ltoaBuffer (n : Nat) 10 s)
      Outcome.ok (s.emit (Event.serialWrite 10))
    | Cmd.unrecognized => Outcome.ok (s.emit (Event.serialWrite ERROR))

/-- Embedding of `serialHandler`: the `switch` selects a body, and a nested
call from `randomAnimation` runs with the fuel that is left. -/
def serialHandler (P : Platform) : Nat → Int → State → Outcome State
  | 0, _, _ => Outcome.outOfFuel
  | fuel + 1, c, s => dispatch P (serialHandler P fuel) fuel (decode c) s

/-! ## main -/

/-- The audio branch of the main loop: "Get Audio Data and visualize it",
the visualization id is `lastButtonState - 1`. -/
def audioStep (s : State) : State :=
  let (t, s) := isFinished s
  if t ≠ 0 then
    let (audioData, s) := getAudioData s
    match audioData with
    | some d => s.emit (Event.runVisualization d ((s.g.lastButtonState - 1) % 256))
    | none => s
  else s

/-- The statement `if (refreshAnimationCount) { ... }`: get the animation
count from the store, if needed. -/
def refreshStep (s : State) : State :=
  if s.g.refreshAnimationCount ≠ 0 then
    let (n, s) := getAnimationCount s
    { s with g := { s.g with refreshAnimationCount := 0 },
             m := { s.m with count := n, i := 0 } }
  else s

/-- The stored-playback branch, `if (isFinished() > length) { ... }`: load
the next image.  `Outcome.nullDeref` is the read of `imageData[64]` through a
`NULL` pointer.  In `i < (count - 1)` the subtraction is 16-bit unsigned, so
it gives 65535 for `count = 0`. -/
def playbackStep (s : State) : Outcome State :=
  let (t, s) := isFinished s
  if t > s.m.length then
    let s :=
      if s.m.i < (if s.m.count = 0 then 65535 else s.m.count - 1) then
        { s with m := { s.m with i := (s.m.i + 1) % 256 } }
      else
        { s with m := { s.m with i := 0 } }
    let (imageData, s) := getFrame s.m.i s
    match imageData with
    | none => Outcome.nullDeref
    | some d =>
      let s := { s with m := { s.m with length := d.getD 64 0 % 256 } }
      let s := s.emit (Event.setImage (Img.ram d))
      Outcome.ok (s.emit (Event.free (Ptr.frame s.m.i)))
  else Outcome.ok s

/-- The idle branch ("No frames available"), `if (!(DebugDone & 4)) { ... }`:
bit 1 of `DebugDone` selects between the built-in animations and the idle
frames. -/
def idleStep (P : Platform) (s : State) : State :=
  if s.g.DebugDone &&& 4 = 0 then
    -- Idle animation allowed
    if s.g.DebugDone &&& 2 ≠ 0 then
      if s.m.idleCounter < P.numOfAnimations then
        let s := s.emit (Event.executeAnimation s.m.idleCounter)
        { s with m := { s.m with idleCounter := (s.m.idleCounter + 1) % 256 } }
      else
        { s with m := { s.m with idleCounter := 0 },
                 g := { s.g with DebugDone := s.g.DebugDone &&& 0xFD } }
    else
      -- Show idle frames
      let (t, s) := isFinished s
      if t ≥ IDLELENGTH then
        let s := s.emit (Event.setImage (Img.idleAnimation s.m.idleCounter))
        if s.m.idleCounter < P.IDLEANIMATIONCOUNT then
          { s with m := { s.m with idleCounter := (s.m.idleCounter + 1) % 256 } }
        else
          { s with m := { s.m with idleCounter := 0 },
                   g := { s.g with DebugDone := s.g.DebugDone ||| 2 } }
      else s
  else s

/-- The mode state machine of the main loop, the statement
`if (lastButtonState >= 1) { ... } else { ... }`. -/
def modeStep (P : Platform) (s : State) : Outcome State :=
  if s.g.lastButtonState ≥ 1 then
    Outcome.ok (audioStep s)
  else
    let s := refreshStep s
    if s.m.count > 0 then
      -- We have frames stored
      playbackStep s
    else
      -- No frames available
      Outcome.ok (idleStep P s)

/-- Start of an iteration: "Reset if requested". -/
def watchdogStep (s : State) : State :=
  if s.g.shouldRestart = 0 then s.emit Event.wdt_reset else s

/-- The serial poll of the main loop,
`if (serialHasChar()) serialHandler((char)(serialGet()));`. -/
def serialStep (P : Platform) (fuel : Nat) (s : State) : Outcome State :=
  let (has, s) := serialHasChar s
  if has then
    let (byte, s) := serialGet s
    serialHandler P fuel (toChar P byte) s
  else Outcome.ok s

/-- The one-time report of the main loop ("Print fps after one second"). -/
def heartbeatStep (s : State) : State :=
  let (t, s) := getSystemTime s
  if t ≥ 1000 ∧ s.g.DebugDone &&& 1 = 0 then
    let (temp, s) := getTriggerCount s
    let s := writeBufferString (ltoaBuffer (temp : Nat) 10 s)
    let s := s.emit (Event.serialWriteString (Str.getString 27))
    let s := writeBufferString (ltoaBuffer (temp / 8 : Nat) 10 s)
    let s := s.emit (Event.serialWriteString (Str.getString 28))
    { s with g := { s.g with DebugDone := s.g.DebugDone ||| 1 } }
  else s

/-- End of an iteration: "Check button state every 150ms", in 64-bit
unsigned arithmetic. -/
def buttonStep (s : State) : State :=
  let (t, s) := getSystemTime s
  if (t + 2 ^ 64 - s.m.lastChecked) % 2 ^ 64 > 150 then
    let (_, s) := audioModeSelected s
    let (t, s) := getSystemTime s
    { s with m := { s.m with lastChecked := t } }
  else s

/-- One iteration of the `while (1)` loop of `main`. -/
def mainLoopBody (P : Platform) (fuel : Nat) (s : State) : Outcome State :=
  match modeStep P (watchdogStep s) with
  | Outcome.ok s =>
    match serialStep P fuel s with
    | Outcome.ok s => Outcome.ok (buttonStep (heartbeatStep s))
    | Outcome.outOfFuel => Outcome.outOfFuel
    | Outcome.nullDeref => Outcome.nullDeref
  | Outcome.outOfFuel => Outcome.outOfFuel
  | Outcome.nullDeref => Outcome.nullDeref

/-- The first `k` iterations of the `while (1)` loop of `main`. -/
def mainLoop (P : Platform) (fuel : Nat) : Nat → State → Outcome State
  | 0, s => Outcome.ok s
  | k + 1, s =>
    match mainLoopBody P fuel s with
    | Outcome.ok s => mainLoop P fuel k s
    | Outcome.outOfFuel => Outcome.outOfFuel
    | Outcome.nullDeref => Outcome.nullDeref

/-- The values of the variables at program start. -/
def initialState (P : Platform) (env : Env) : State :=
  { g := { shouldRestart := 0, refreshAnimationCount := 1, lastButtonState := 0,
           maxButtonState := 0, buffer := List.replicate 11 0, DebugDone := 0,
           defaultImageA := P.defaultImageA },
    m := { i := 0, length := 0, count := 0, lastChecked := 0, idleCounter := 0 },
    env := env, trace := [] }

/-- The part of `main` in front of the loop, from `setImage(defaultImageCube)`
on (the port and peripheral set-up is left out). -/
def startup (P : Platform) (env : Env) : State :=
  let s := initialState P env
  let s := s.emit (Event.setImage Img.defaultImageCube)
  let s := s.emit (Event.serialWriteString (Str.getString 2))
  let (i, s) := selfTest s
  let s :=
    if i ≠ 0 then
      let s := s.emit (Event.serialWriteString (Str.getString 1))
      let s := writeBufferString (itoaBuffer (i : Nat) 2 s)
      let s := s.emit (Event.serialWrite 10)
      printErrors i s
    else s
  let s := s.emit (Event.serialWriteString (Str.getString 0))
  let s := { s with g := { s.g with maxButtonState := (P.numberOfVisualizations + 1) % 256 } }
  let (_, s) := audioModeSelected s
  let (t, s) := getSystemTime s
  let s := { s with m := { s.m with lastChecked := t } }
  let (n, s) := getAnimationCount s
  { s with m := { s.m with i := 0, count := n } }

/-! ## Observations on traces and runs -/

/-- The indices passed to `getFrame`, in the order of the calls. -/
def fetched : List Event → List Nat
  | [] => []
  | Event.getFrame idx :: es => idx :: fetched es
  | _ :: es => fetched es

/-- The next `k` playback ticks are all due and all find a frame: each
answer of `isFinished` is greater than the duration byte of the frame shown
before (`len` for the first tick), and each answer of `getFrame` is a frame. -/
def DueRun : Nat → Nat → List Nat → List (Option (List Nat)) → Prop
  | 0, _, _, _ => True
  | k + 1, len, t :: ts, some d :: fs => len < t % 256 ∧ DueRun k (d.getD 64 0 % 256) ts fs
  | _ + 1, _, _, _ => False

/-- A platform for the examples: signed plain `char` (the avr-gcc default),
seven visualizations, five procedural animations, three canned idle frames. -/
def examplePlatform : Platform :=
  { charSigned := true, numberOfVisualizations := 7, numOfAnimations := 5,
    IDLEANIMATIONCOUNT := 3, defaultImageA := List.replicate 64 0 }

/-- A stored frame of 64 dark bytes with the given duration byte. -/
def darkFrame (duration : Nat) : List Nat := List.replicate 64 0 ++ [duration]

/-- Environment of the playback example: a store of three frames with
duration 0, the display always finished, the self-test probes succeed, the
button is released and there is no serial input. -/
def playbackEnv : Env :=
  { Env.quiet with
    isFinished := [1, 1, 1, 1]
    getFrame := [some (darkFrame 0), some (darkFrame 0), some (darkFrame 0), some (darkFrame 0)]
    getAnimationCount := [3, 3]
    getAudioData := [some []]
    memGetBytes := [true]
    getGeneralPurposeByte := [0x23] }

/-- Trace of an outcome, empty when there is no final state. -/
def Outcome.trace : Outcome State → List Event
  | Outcome.ok s => s.trace
  | Outcome.outOfFuel => []
  | Outcome.nullDeref => []

/-- The playback index after one due tick, the `if (i < (count - 1))`
statement of the main loop. -/
def nextIndex (i count : Nat) : Nat :=
  if i < (if count = 0 then 65535 else count - 1) then (i + 1) % 256 else 0

/-- The indices of the next `k` due ticks of a playback of `n` frames that
stands at index `i`. -/
def playbackOrder (n : Nat) : Nat → Nat → List Nat
  | 0, _ => []
  | k + 1, i => nextIndex i n :: playbackOrder n k (nextIndex i n)

/-- The part of the state that stored playback reads and writes, with the
indices fetched so far. -/
structure PlaybackView where
  lastButtonState : Nat
  refreshAnimationCount : Nat
  i : Nat
  length : Nat
  count : Nat
  isFinished : List Nat
  getFrame : List (Option (List Nat))
  fetched : List Nat
  deriving DecidableEq, Repr

/-- The playback view of a state. -/
def playbackView (s : State) : PlaybackView :=
  { lastButtonState := s.g.lastButtonState, refreshAnimationCount := s.g.refreshAnimationCount,
    i := s.m.i, length := s.m.length, count := s.m.count,
    isFinished := s.env.isFinished, getFrame := s.env.getFrame, fetched := fetched s.trace }

/-- No serial input and no button press in the answers that remain. -/
def Undisturbed (s : State) : Prop :=
  (∀ b ∈ s.env.serialHasChar, b = false) ∧ (∀ p ∈ s.env.PINB, p % 2 = 1)

/-- State of the playback example right after the count was refreshed to 3:
index 0, last duration 0, button state 0. -/
def playbackState : State :=
  { g := { shouldRestart := 0, refreshAnimationCount := 0, lastButtonState := 0,
           maxButtonState := 8, buffer := List.replicate 11 0, DebugDone := 0,
           defaultImageA := List.replicate 64 0 },
    m := { i := 0, length := 0, count := 3, lastChecked := 0, idleCounter := 0 },
    env := playbackEnv, trace := [] }

/-- The writes that the command dispatcher makes to the variables of
`main.c`, closed under composition: the text buffer (with the record of a
write past its end, which is never taken back), `defaultImageA`, bit 2 of
`DebugDone`, `shouldRestart = 1`, and the toggle of `lastButtonState`. -/
inductive GStep : Globals → Globals → Prop where
  | refl (g : Globals) : GStep g g
  | trans {a b c : Globals} : GStep a b → GStep b c → GStep a c
  | buffer (g : Globals) (b : List Nat) (o : Bool) :
      GStep g { g with buffer := b, overrun := g.overrun || o }
  | defaultImageA (g : Globals) (a : List Nat) : GStep g { g with defaultImageA := a }
  | debugDone (g : Globals) : GStep g { g with DebugDone := g.DebugDone ||| 4 }
  | restart (g : Globals) : GStep g { g with shouldRestart := 1 }
  | toggle (g : Globals) :
      GStep g { g with lastButtonState := if g.lastButtonState = 0 then 1 else 0 }

/-- What a piece of dispatcher code does to the variables: writes as in
`GStep` to the globals, nothing to the locals of `main`. -/
def Frame (s s' : State) : Prop := GStep s.g s'.g ∧ s'.m = s.m

/-- States reachable from start-up by button samples, dispatched command
bytes and whole iterations of the main loop. -/
inductive Reachable (P : Platform) : State → Prop where
  | start (env : Env) : Reachable P (startup P env)
  | sample {s : State} : Reachable P s → Reachable P (audioModeSelected s).2
  | command {s s' : State} (fuel : Nat) (c : Int) :
      Reachable P s → serialHandler P fuel c s = Outcome.ok s' → Reachable P s'
  | iteration {s s' : State} (fuel : Nat) :
      Reachable P s → mainLoopBody P fuel s = Outcome.ok s' → Reachable P s'

/-- The button-state invariant for a given number of states `M`. -/
def ButtonInv (M : Nat) (g : Globals) : Prop :=
  g.maxButtonState = M ∧ g.lastButtonState < M

/-- A platform without visualizations. -/
def noVisualizationPlatform : Platform :=
  { examplePlatform with numberOfVisualizations := 0 }

/-- State of the audio example with frame advance suppressed: bit 2 of
`DebugDone` set, button state 1, display finished, audio data present. -/
def suppressedAudioState : State :=
  { playbackState with
    g := { playbackState.g with DebugDone := 4, lastButtonState := 1 }
    env := { Env.quiet with isFinished := [1], getAudioData := [some [1, 2, 3]] } }

/-- State of the playback example with frame advance suppressed: bit 2 of
`DebugDone` set, button state 0, three stored frames. -/
def suppressedPlaybackState : State :=
  { playbackState with g := { playbackState.g with DebugDone := 4 } }

/-- State of the idle example with frame advance suppressed: bit 2 of
`DebugDone` set, button state 0, no stored frames, no refresh pending. -/
def suppressedIdleState : State :=
  { playbackState with
    g := { playbackState.g with DebugDone := 4 }
    m := { playbackState.m with count := 0, idleCounter := 2 } }

/-- Environment of the restart example: the bytes 'q' and '2' arrive in two
successive iterations, a third byte is waiting while the sweep runs, and the
display reports 0 ticks. -/
def restartSweepEnv : Env :=
  { Env.quiet with
    isFinished := [0, 0, 0]
    serialHasChar := [true, true, true]
    serialGet := [113, 50, 7] }

/-- The commands of the table in section 4.3 of the specification, as
character codes: the handshake byte, '?', the letters h d g s v m q r t a c x
y e i in both cases and the digits 0 1 2 3. -/
def tableCommands : List Int :=
  [0x42, 63, 104, 72, 100, 68, 103, 71, 115, 83, 118, 86, 109, 77, 113, 81, 114, 82,
   116, 84, 97, 65, 99, 67, 120, 88, 121, 89, 101, 69, 105, 73, 48, 49, 50, 51]

/-- The error bitmask that belongs to the outcomes of the three probes of
the self-test: whether audio data came back, whether the memory byte came
back, and the byte read back from general-purpose location 0. -/
def errorMask (audioPresent memoryPresent : Bool) (readBack : Nat) : Nat :=
  (if audioPresent then 0 else AUDIOERROR) |||
  (if memoryPresent then 0 else MEMORYERROR) |||
  (if readBack = 0x23 then 0 else MEMORYWRITEERROR)

/-- The outcomes that the three probes of the next self-test will see. -/
def probeOutcomes (s : State) : Bool × Bool × Nat :=
  ((s.env.getAudioData.headD none).isSome, s.env.memGetBytes.headD false,
   s.env.getGeneralPurposeByte.headD 0 % 256)

/-- Environment of the self-test example: all three probes succeed, twice. -/
def healthyEnv : Env :=
  { Env.quiet with
    getAudioData := [some [], some []]
    memGetBytes := [true, true]
    getGeneralPurposeByte := [0x23, 0x23] }

/-- Environment of the set-animation-count example: the byte 200 arrives
at the second poll. -/
def setCountEnv : Env :=
  { Env.quiet with serialHasChar := [false, true], serialGet := [200] }

/-- Apply a function to the result of a run that returned. -/
def Outcome.map {α β : Type} (f : α → β) : Outcome α → Outcome β
  | Outcome.ok a => Outcome.ok (f a)
  | Outcome.outOfFuel => Outcome.outOfFuel
  | Outcome.nullDeref => Outcome.nullDeref

/-- The state with the bytes `q` as the serial input that `serialGet` will
deliver. -/
def withSerialGet (q : List Nat) (s : State) : State :=
  { s with env := { s.env with serialGet := q } }

/-- The state in which the sweep diagnostic enters its loops: bit 2 of
`DebugDone` set, the display buffer cleared, `defaultImageA` zeroed. -/
def sweepEntry (s : State) : State :=
  setDefaultImageA (0 + 0 * 8) 0
    ((List.range 64).foldl (fun s i => setDefaultImageA i 0 s)
      ({ s with g := { s.g with DebugDone := s.g.DebugDone ||| 4 } }.emit (Event.fillBuffer 0)))

/-- What the sweep diagnostic does after the jump to `killMeForIt`, on the
state `r` in which the loops were left: one byte is taken from the serial
input, which leaves `rest`, and "interrupted" (string 25) is reported. -/
def sweepCancelled (rest : List Nat) (r : State) : State :=
  (withSerialGet rest (r.emit Event.serialGet)).emit
    (Event.serialWriteString (Str.getString 25))

/-- What `randomAnimation` does between the poll that found a byte, in state
`s2`, and its call of `serialHandler`: it reports "interrupted" (string 25),
releases the buffer and takes one byte from the serial input. -/
def randomCancelled (s2 : State) : State :=
  (serialGet ((s2.emit (Event.serialWriteString (Str.getString 25))).emit
    (Event.free Ptr.randomBuffer))).2

/-- The state in which `randomAnimation` calls `serialHandler` when a byte is
queued on entry, `malloc` succeeds, and the display reports 0 ticks and then
finished: one cycle was run, `ts` are the answers of the display that
remain. -/
def randomFirstCycle (s : State) (ts : List Nat) : State :=
  { s with
    env := { s.env with
      malloc := s.env.malloc.tail, isFinished := ts, rand := s.env.rand.tail.tail.tail,
      serialHasChar := s.env.serialHasChar.tail, serialGet := s.env.serialGet.tail }
    trace := s.trace ++
      [Event.malloc 64, Event.setImage (Img.ram (List.replicate 64 0)), Event.isFinished,
       Event.isFinished, Event.rand, Event.rand, Event.rand, Event.serialHasChar,
       Event.serialWriteString (Str.getString 25), Event.free Ptr.randomBuffer,
       Event.serialGet] }

/-- Environment of the cancellation examples: `malloc` succeeds, the display
reports 0 ticks and then finished, and one byte `b` is queued, with no
further input. -/
def queuedByteEnv (b : Nat) : Env :=
  { Env.quiet with
    malloc := [true], isFinished := [0, 1], serialHasChar := [true], serialGet := [b] }

/-- The button is sampled as pushed: bit `PB0` of the next answer of `PINB`
is clear (low active). -/
def buttonPressed (s : State) : Prop := (readPINB s).1 % 2 = 0

/-- State of the absent-frame example: stored playback with three frames, the
display finished, and the store answering `NULL` to `getFrame`. -/
def nullFrameState : State :=
  { playbackState with env := { Env.quiet with isFinished := [1], getFrame := [none] } }

/-- The calls of the audio branch in state `s`: the display is asked, audio
data is requested only when the display reports the previous frame finished,
and variant `lastButtonState - 1` is rendered only when data came back. -/
def audioEvents (s : State) : List Event :=
  Event.isFinished ::
    (if s.env.isFinished.headD 0 % 256 ≠ 0 then
      Event.getAudioData ::
        (match s.env.getAudioData.headD none with
         | some d => [Event.runVisualization d (s.g.lastButtonState - 1)]
         | none => [])
    else [])

/-- Idle actions: a step of a built-in animation or the display of a canned
idle frame. -/
def isIdleAction : Event → Bool
  | Event.executeAnimation _ => true
  | Event.setImage (Img.idleAnimation _) => true
  | _ => false

/-- Environment in which every read of the uptime gives `t`. -/
def uptimeEnv (t : Nat) : Env :=
  { Env.quiet with getSystemTime := List.replicate 8 t }

/-- State of the canned-idle example: button state 0, no stored frames, no
refresh pending, `DebugDone = 0`, idle counter 0, and every tick due. -/
def idleCannedState : State :=
  { playbackState with
    m := { playbackState.m with count := 0 }
    env := { Env.quiet with isFinished := [48, 48, 48, 48, 48] } }

/-- Environment of the random-animation example: `malloc` succeeds, the
display reports 0 ticks three times before it reports finished, there is no
byte at the first poll of the serial input and one byte (7) at the second. -/
def slowDisplayEnv : Env :=
  { Env.quiet with
    malloc := [true], isFinished := [0, 0, 0, 1, 0, 1], serialHasChar := [false, true],
    rand := [4096, 8192, 12288, 0, 0, 0], serialGet := [7] }

/-- State of the wide-store example: stored playback of 257 frames just
refreshed, index 0, and 257 due ticks that each find a frame. -/
def wideStoreState : State :=
  { playbackState with
    m := { playbackState.m with count := 257 }
    env := { Env.quiet with
      isFinished := List.replicate 257 1
      getFrame := List.replicate 257 (some (darkFrame 0)) } }

/-- Number of set bits of a byte. -/
def byteBits (v : Nat) : Nat :=
  (List.range 8).countP (fun j => v.testBit j)

/-- Number of set bits of a buffer of bytes. -/
def setBits (b : List Nat) : Nat :=
  (b.map byteBits).sum

/-- The buffer of `randomAnimation` after the cycles whose three results of
`rand()` are listed. -/
def toggles (b : List Nat) : List (Nat × Nat × Nat) → List Nat
  | [] => b
  | c :: cs => toggles (randomToggle b c.1 c.2.1 c.2.2) cs

/-- The buffers that `randomAnimation` hands to `setImage` at the start of
each of the listed cycles. -/
def toggleSeq (b : List Nat) : List (Nat × Nat × Nat) → List (List Nat)
  | [] => []
  | c :: cs => b :: toggleSeq (randomToggle b c.1 c.2.1 c.2.2) cs

/-- The images in RAM that a trace hands to `setImage`, in order. -/
def shownBuffers : List Event → List (List Nat)
  | [] => []
  | Event.setImage (Img.ram b) :: es => b :: shownBuffers es
  | _ :: es => shownBuffers es

/-- The calls by which the mode state machine fetches or shows something:
audio data and its visualization, a stored frame, an image, a built-in
animation. -/
def isModeAction : Event → Bool
  | Event.getAudioData => true
  | Event.runVisualization _ _ => true
  | Event.getFrame _ => true
  | Event.setImage _ => true
  | Event.executeAnimation _ => true
  | _ => false

/-- The mode actions of a trace, in order. -/
def modeActions (tr : List Event) : List Event := tr.filter isModeAction

/-- The part of the state that the idle branch reads and writes: the
variables that select the branch, the idle counter, bit 1 (`selector`) and
bit 2 (`suppressed`) of `DebugDone`, the answers of `isFinished` that remain,
and the mode actions so far. -/
structure IdleView where
  lastButtonState : Nat
  refreshAnimationCount : Nat
  count : Nat
  idleCounter : Nat
  selector : Nat
  suppressed : Nat
  isFinished : List Nat
  actions : List Event
  deriving DecidableEq, Repr

/-- The idle view of a state. -/
def idleView (s : State) : IdleView :=
  { lastButtonState := s.g.lastButtonState, refreshAnimationCount := s.g.refreshAnimationCount,
    count := s.m.count, idleCounter := s.m.idleCounter, selector := s.g.DebugDone &&& 2,
    suppressed := s.g.DebugDone &&& 4, isFinished := s.env.isFinished,
    actions := modeActions s.trace }

/-- The idle view once a pending refresh of the count has answered 0. -/
def IdleView.settled (v : IdleView) : IdleView :=
  { v with refreshAnimationCount := 0, count := 0 }

/-- What `idleStep` does, read on the idle view. -/
def idleNext (P : Platform) (v : IdleView) : IdleView :=
  if v.suppressed = 0 then
    if v.selector ≠ 0 then
      if v.idleCounter < P.numOfAnimations then
        { v with idleCounter := (v.idleCounter + 1) % 256,
                 actions := v.actions ++ [Event.executeAnimation v.idleCounter] }
      else { v with idleCounter := 0, selector := 0 }
    else if v.isFinished.headD 0 % 256 ≥ IDLELENGTH then
      if v.idleCounter < P.IDLEANIMATIONCOUNT then
        { v with idleCounter := (v.idleCounter + 1) % 256, isFinished := v.isFinished.tail,
                 actions := v.actions ++ [Event.setImage (Img.idleAnimation v.idleCounter)] }
      else
        { v with idleCounter := 0, selector := 2, isFinished := v.isFinished.tail,
                 actions := v.actions ++ [Event.setImage (Img.idleAnimation v.idleCounter)] }
    else { v with isFinished := v.isFinished.tail }
  else v

/-- The next `k` answers of `isFinished` are all at least `IDLELENGTH`. -/
def AllDue : Nat → List Nat → Prop
  | 0, _ => True
  | k + 1, t :: ts => IDLELENGTH ≤ t % 256 ∧ AllDue k ts
  | _ + 1, [] => False

/-- State of the procedural-idle example: button state 0, no stored frames,
no refresh pending, bit 1 of `DebugDone` set, idle counter 0. -/
def idleProceduralState : State :=
  { playbackState with
    g := { playbackState.g with DebugDone := 2 }
    m := { playbackState.m with count := 0 }
    env := Env.quiet }

/-- State of the canned-idle example of the alternation: as
`idleProceduralState` with bit 1 clear, and four ticks that are due. -/
def idleCannedStart : State :=
  { playbackState with
    m := { playbackState.m with count := 0 }
    env := { Env.quiet with isFinished := [48, 200, 48, 255] } }

/-- The text that marks the heartbeat line, `serialWriteString(getString(27))`. -/
def isHeartbeat : Event → Bool
  | Event.serialWriteString (Str.getString 27) => true
  | _ => false

/-- Number of heartbeat lines in a trace. -/
def heartbeats (tr : List Event) : Nat := tr.countP isHeartbeat

/-- A piece of code that writes no heartbeat line. -/
def Silent (s s' : State) : Prop := heartbeats s'.trace = heartbeats s.trace

/-- The state in front of the heartbeat statement of the iteration that
starts in `s`: after the watchdog, the mode state machine and the serial
poll. -/
def preHeartbeat (P : Platform) (fuel : Nat) (s : State) : Outcome State :=
  match modeStep P (watchdogStep s) with
  | Outcome.ok s => serialStep P fuel s
  | Outcome.outOfFuel => Outcome.outOfFuel
  | Outcome.nullDeref => Outcome.nullDeref

/-- The uptimes that the heartbeat statement reads in the first `k`
iterations from `s`. -/
def uptimeReads (P : Platform) (fuel : Nat) : Nat → State → List Nat
  | 0, _ => []
  | k + 1, s =>
    match preHeartbeat P fuel s with
    | Outcome.ok s2 => (getSystemTime s2).1 :: uptimeReads P fuel k (buttonStep (heartbeatStep s2))
    | Outcome.outOfFuel => []
    | Outcome.nullDeref => []

/-- The calls of the heartbeat line for the trigger count `t`: the count as
`ltoa` prints it, `getString(27)`, the count divided by 8, `getString(28)`. -/
def heartbeatLine (t : Nat) : List Event :=
  [Event.getTriggerCount,
   Event.serialWriteString (Str.text (ltoa (t : Nat) 10)),
   Event.serialWriteString (Str.getString 27),
   Event.serialWriteString (Str.text (ltoa (t / 8 : Nat) 10)),
   Event.serialWriteString (Str.getString 28)]

/-- Environment of the heartbeat example: the uptime is 0 at start-up, 500
during the first iteration, 1200 during the second and 2000 afterwards, and
the trigger count is 4000. -/
def heartbeatEnv : Env :=
  { Env.quiet with
    getSystemTime := [0, 500, 500, 500, 1200, 1200, 1200, 2000, 2000, 2000]
    getTriggerCount := [4000] }

/-- The number that a text of decimal digits denotes. -/
def decimalValue (txt : List Nat) : Nat :=
  txt.foldl (fun a c => 10 * a + (c - 48)) 0

/-- A text of decimal digits, '0' to '9'. -/
def isDecimal (txt : List Nat) : Prop := ∀ c ∈ txt, 48 ≤ c ∧ c ≤ 57

/-- Environment of the example with a trigger count above the range of
`long`: the uptime is 0 at start-up and 1000 afterwards, the trigger count is
4294967295. -/
def wrapCountEnv : Env :=
  { Env.quiet with
    getSystemTime := [0, 1000, 1000, 1000]
    getTriggerCount := [4294967295] }

/-- A service of the watchdog, `wdt_reset()`. -/
def isWatchdog : Event → Bool
  | Event.wdt_reset => true
  | _ => false

/-- Number of watchdog services in a trace. -/
def services (tr : List Event) : Nat := tr.countP isWatchdog

/-- No byte that the serial input still holds selects the sweep diagnostic. -/
def NoSweepBytes (P : Platform) (s : State) : Prop :=
  ∀ b ∈ s.env.serialGet, decode (toChar P (b % 256)) ≠ Cmd.sweepDiagnostic

/-- A piece of code that does not service the watchdog, and that leaves the
serial input without a byte for the sweep diagnostic if it had none. -/
def Starved (P : Platform) (s s' : State) : Prop :=
  services s'.trace = services s.trace ∧ (NoSweepBytes P s → NoSweepBytes P s')

/-- State of the restart example: a restart was requested (`shouldRestart`
is 1), the byte 'v' is waiting in the serial input, and the display reports 0
ticks. -/
def restartedState : State :=
  { playbackState with
    g := { playbackState.g with shouldRestart := 1 }
    env := { Env.quiet with serialHasChar := [true], serialGet := [118] } }

/-! # Theorems -/

/-! ## Stored playback (C1) -/

theorem fetched_append (a b : List Event) : fetched (a ++ b) = fetched a ++ fetched b := by
  induction a with
  | nil => rfl
  | cons e es ih => cases e <;> simp [fetched, ih]

theorem watchdogStep_view (s : State) :
    playbackView (watchdogStep s) = playbackView s ∧ (watchdogStep s).env = s.env := by
  unfold watchdogStep
  split <;> simp [playbackView, State.emit, fetched_append, fetched]

theorem heartbeatStep_view (s : State) :
    playbackView (heartbeatStep s) = playbackView s ∧
    (heartbeatStep s).env.serialHasChar = s.env.serialHasChar ∧
    (heartbeatStep s).env.PINB = s.env.PINB := by
  unfold heartbeatStep
  simp only [getSystemTime, getTriggerCount, writeBufferString, ltoaBuffer, State.emit]
  split <;> simp [playbackView, fetched_append, fetched]

theorem buttonStep_view (s : State) (hb : ∀ p ∈ s.env.PINB, p % 2 = 1) :
    playbackView (buttonStep s) = playbackView s ∧
    (buttonStep s).env.serialHasChar = s.env.serialHasChar ∧
    (∀ p ∈ (buttonStep s).env.PINB, p % 2 = 1) := by
  unfold buttonStep
  have hodd : ¬ (s.env.PINB.headD 255 % 256) % 2 = 0 := by
    cases hP : s.env.PINB with
    | nil => decide
    | cons p ps =>
      have := hb p (by simp [hP])
      simp only [List.headD_cons]
      omega
  have htail : ∀ p ∈ s.env.PINB.tail, p % 2 = 1 := fun p hp => hb p (List.mem_of_mem_tail hp)
  simp only [getSystemTime, audioModeSelected, readPINB, hodd, if_false]
  split
  · simp only [playbackView, fetched_append, fetched, List.append_nil]
    exact ⟨trivial, trivial, htail⟩
  · simp only [playbackView, fetched_append, fetched, List.append_nil]
    exact ⟨trivial, trivial, hb⟩

theorem serialStep_quiet (P : Platform) (fuel : Nat) (s : State)
    (hq : ∀ b ∈ s.env.serialHasChar, b = false) :
    ∃ s', serialStep P fuel s = Outcome.ok s' ∧ playbackView s' = playbackView s ∧
      (∀ b ∈ s'.env.serialHasChar, b = false) ∧ s'.env.PINB = s.env.PINB := by
  have hhead : s.env.serialHasChar.headD false = false := by
    cases hS : s.env.serialHasChar with
    | nil => rfl
    | cons b bs => simpa using hq b (by simp [hS])
  have htail : ∀ b ∈ s.env.serialHasChar.tail, b = false :=
    fun b hb => hq b (List.mem_of_mem_tail hb)
  refine ⟨(serialHasChar s).2, ?_, ?_, htail, rfl⟩
  · unfold serialStep
    simp only [serialHasChar, hhead, Bool.false_eq_true, if_false]
  · simp [serialHasChar, playbackView, fetched_append, fetched]

theorem modeStep_playback (P : Platform) (s : State) (t : Nat) (ts : List Nat) (d : List Nat)
    (fs : List (Option (List Nat)))
    (hb : s.g.lastButtonState = 0) (hr : s.g.refreshAnimationCount = 0) (hc : 0 < s.m.count)
    (hT : s.env.isFinished = t :: ts) (hF : s.env.getFrame = some d :: fs)
    (hdue : s.m.length < t % 256) :
    ∃ s', modeStep P s = Outcome.ok s' ∧
      playbackView s' = { playbackView s with
        i := nextIndex s.m.i s.m.count, length := d.getD 64 0 % 256, isFinished := ts,
        getFrame := fs, fetched := fetched s.trace ++ [nextIndex s.m.i s.m.count] } ∧
      s'.env.serialHasChar = s.env.serialHasChar ∧ s'.env.PINB = s.env.PINB := by
  unfold modeStep refreshStep playbackStep
  have h1 : ¬ s.g.lastButtonState ≥ 1 := by omega
  simp only [h1, if_false, hr, ne_eq, not_true_eq_false, hc, if_true, isFinished, getFrame, hT, hF,
    List.headD_cons, gt_iff_lt, hdue, List.tail_cons, State.emit]
  by_cases hlt : s.m.i < (if s.m.count = 0 then 65535 else s.m.count - 1)
  · simp [hlt, nextIndex, fetched_append, fetched, playbackView, hb, hr]
  · simp [hlt, nextIndex, fetched_append, fetched, playbackView, hb, hr]

theorem mainLoopBody_playback (P : Platform) (fuel : Nat) (s : State) (t : Nat) (ts : List Nat)
    (d : List Nat) (fs : List (Option (List Nat)))
    (hb : s.g.lastButtonState = 0) (hr : s.g.refreshAnimationCount = 0) (hc : 0 < s.m.count)
    (hT : s.env.isFinished = t :: ts) (hF : s.env.getFrame = some d :: fs)
    (hdue : s.m.length < t % 256) (hu : Undisturbed s) :
    ∃ s', mainLoopBody P fuel s = Outcome.ok s' ∧
      playbackView s' = { playbackView s with
        i := nextIndex s.m.i s.m.count, length := d.getD 64 0 % 256, isFinished := ts,
        getFrame := fs, fetched := fetched s.trace ++ [nextIndex s.m.i s.m.count] } ∧
      Undisturbed s' := by
  obtain ⟨hw, hwe⟩ := watchdogStep_view s
  have hwv := congrArg PlaybackView.lastButtonState hw
  have hw2 := congrArg PlaybackView.refreshAnimationCount hw
  have hw3 := congrArg PlaybackView.count hw
  have hw4 := congrArg PlaybackView.length hw
  have hw5 := congrArg PlaybackView.i hw
  have hw6 := congrArg PlaybackView.fetched hw
  simp only [playbackView] at hwv hw2 hw3 hw4 hw5 hw6
  obtain ⟨s1, h1, v1, q1, p1⟩ := modeStep_playback P (watchdogStep s) t ts d fs
    (by rw [hwv]; exact hb) (by rw [hw2]; exact hr) (by rw [hw3]; exact hc)
    (by rw [hwe]; exact hT) (by rw [hwe]; exact hF) (by rw [hw4]; exact hdue)
  obtain ⟨s2, h2, v2, q2, p2⟩ := serialStep_quiet P fuel s1 (by rw [q1, hwe]; exact hu.1)
  obtain ⟨v3, q3, p3⟩ := heartbeatStep_view s2
  obtain ⟨v4, q4, p4⟩ := buttonStep_view (heartbeatStep s2) (by rw [p3, p2, p1, hwe]; exact hu.2)
  refine ⟨buttonStep (heartbeatStep s2), ?_, ?_, ?_, p4⟩
  · unfold mainLoopBody
    simp only [h1, h2]
  · rw [v4, v3, v2, v1, hw, hw3, hw5, hw6]
  · rw [q4, q3]; exact q2

theorem mainLoop_playback (P : Platform) (fuel : Nat) (k : Nat) : ∀ (s : State),
    s.g.lastButtonState = 0 → s.g.refreshAnimationCount = 0 → 0 < s.m.count →
    DueRun k s.m.length s.env.isFinished s.env.getFrame → Undisturbed s →
    ∃ s', mainLoop P fuel k s = Outcome.ok s' ∧
      fetched s'.trace = fetched s.trace ++ playbackOrder s.m.count k s.m.i := by
  induction k with
  | zero => intro s _ _ _ _ _; exact ⟨s, rfl, by simp [playbackOrder]⟩
  | succ k ih =>
    intro s hb hr hc hd hu
    cases hT : s.env.isFinished with
    | nil => rw [hT] at hd; simp [DueRun] at hd
    | cons t ts =>
      cases hF : s.env.getFrame with
      | nil => rw [hT, hF] at hd; simp [DueRun] at hd
      | cons f fs =>
        cases f with
        | none => rw [hT, hF] at hd; simp [DueRun] at hd
        | some d =>
          rw [hT, hF] at hd
          simp only [DueRun] at hd
          obtain ⟨s1, h1, v1, u1⟩ := mainLoopBody_playback P fuel s t ts d fs hb hr hc hT hF hd.1 hu
          have e1 := congrArg PlaybackView.lastButtonState v1
          have e2 := congrArg PlaybackView.refreshAnimationCount v1
          have e3 := congrArg PlaybackView.count v1
          have e4 := congrArg PlaybackView.length v1
          have e5 := congrArg PlaybackView.i v1
          have e6 := congrArg PlaybackView.isFinished v1
          have e7 := congrArg PlaybackView.getFrame v1
          have e8 := congrArg PlaybackView.fetched v1
          simp only [playbackView] at e1 e2 e3 e4 e5 e6 e7 e8
          obtain ⟨s2, h2, f2⟩ := ih s1 (by rw [e1]; exact hb) (by rw [e2]; exact hr)
            (by rw [e3]; exact hc) (by rw [e4, e6, e7]; exact hd.2) u1
          refine ⟨s2, ?_, ?_⟩
          · simp only [mainLoop, h1]; exact h2
          · rw [f2, e8, e3, e5]; simp [playbackOrder]

theorem playbackOrder_eq (n : Nat) (hn : 0 < n) (hle : n ≤ 256) (k : Nat) :
    ∀ i, i < n → playbackOrder n k i = (List.range k).map (fun j => (i + j + 1) % n) := by
  induction k with
  | zero => intro i _; rfl
  | succ k ih =>
    intro i hi
    have hnext : nextIndex i n = (i + 1) % n ∧ nextIndex i n < n := by
      unfold nextIndex
      have hn0 : ¬ n = 0 := by omega
      simp only [hn0, if_false]
      by_cases h : i < n - 1
      · have h1 : (i + 1) % 256 = i + 1 := Nat.mod_eq_of_lt (by omega)
        have h2 : (i + 1) % n = i + 1 := Nat.mod_eq_of_lt (by omega)
        simp only [h, if_true, h1, h2]
        exact ⟨trivial, by omega⟩
      · have h1 : i + 1 = n := by omega
        simp only [h, if_false, h1, Nat.mod_self]
        exact ⟨trivial, hn⟩
    rw [playbackOrder, ih _ hnext.2, List.range_succ_eq_map, List.map_cons, List.map_map, hnext.1]
    congr 1
    apply List.map_congr_left
    intro j _
    simp only [Function.comp, Nat.add_zero]
    rw [Nat.add_assoc, Nat.add_assoc, Nat.mod_add_mod]
    congr 1
    omega

/-- C1, as amended: with ButtonState 0, a count of `n` frames (0 < n ≤ 256)
just refreshed, the playback index at 0, every tick due and no serial input or
button press, `k` consecutive main-loop iterations all complete and request
the indices 1, 2, ..., n-1, 0, 1, ... from the store: the j-th request (from 0)
is for index `(j + 1) % n`. -/
theorem stored_playback_order (P : Platform) (fuel k n : Nat) (s : State)
    (hb : s.g.lastButtonState = 0) (hr : s.g.refreshAnimationCount = 0)
    (hn : s.m.count = n) (hpos : 0 < n) (hle : n ≤ 256) (hi : s.m.i = 0)
    (hd : DueRun k s.m.length s.env.isFinished s.env.getFrame) (hu : Undisturbed s) :
    ∃ s', mainLoop P fuel k s = Outcome.ok s' ∧
      fetched s'.trace = fetched s.trace ++ (List.range k).map (fun j => (j + 1) % n) := by
  obtain ⟨s', h1, h2⟩ := mainLoop_playback P fuel k s hb hr (by omega) hd hu
  refine ⟨s', h1, ?_⟩
  rw [h2, hn, hi, playbackOrder_eq n hpos hle k 0 hpos]
  simp

/-- C1, example of the amended claim: three stored frames, four iterations. -/
theorem stored_playback_order_witness :
    ∃ s', mainLoop examplePlatform 0 4 playbackState = Outcome.ok s' ∧
      fetched s'.trace = fetched playbackState.trace ++ (List.range 4).map (fun j => (j + 1) % 3) :=
  stored_playback_order examplePlatform 0 4 3 playbackState rfl rfl rfl (by decide) (by decide) rfl
    ⟨by decide, by decide, by decide, by decide, trivial⟩
    ⟨by decide, by decide⟩

/-- C1, counterexample: from start-up with three stored frames, every tick
due, the first four indices requested from the store are 1, 2, 0, 1 and not
0, 1, 2, 0. -/
theorem stored_playback_order_counterexample :
    fetched (mainLoop examplePlatform 0 4 (startup examplePlatform playbackEnv)).trace
        = [1, 2, 0, 1] ∧
    fetched (mainLoop examplePlatform 0 4 (startup examplePlatform playbackEnv)).trace
        ≠ [0, 1, 2, 0] := by
  decide

/-! ## What the dispatcher writes -/

@[simp] theorem emit_g (s : State) (e : Event) : (s.emit e).g = s.g := rfl
@[simp] theorem emit_m (s : State) (e : Event) : (s.emit e).m = s.m := rfl
@[simp] theorem emit_env (s : State) (e : Event) : (s.emit e).env = s.env := rfl
@[simp] theorem emit_trace (s : State) (e : Event) : (s.emit e).trace = s.trace ++ [e] := rfl

@[simp] theorem itoaBuffer_g (v : Int) (r : Nat) (s : State) :
    (itoaBuffer v r s).g = { s.g with buffer := writeBuf (itoa v r) s.g.buffer,
                                      overrun := s.g.overrun || overruns (itoa v r) } := rfl
@[simp] theorem itoaBuffer_m (v : Int) (r : Nat) (s : State) : (itoaBuffer v r s).m = s.m := rfl
@[simp] theorem itoaBuffer_env (v : Int) (r : Nat) (s : State) :
    (itoaBuffer v r s).env = s.env := rfl
@[simp] theorem itoaBuffer_trace (v : Int) (r : Nat) (s : State) :
    (itoaBuffer v r s).trace = s.trace := rfl

@[simp] theorem ltoaBuffer_g (v : Int) (r : Nat) (s : State) :
    (ltoaBuffer v r s).g = { s.g with buffer := writeBuf (ltoa v r) s.g.buffer,
                                      overrun := s.g.overrun || overruns (ltoa v r) } := rfl
@[simp] theorem ltoaBuffer_m (v : Int) (r : Nat) (s : State) : (ltoaBuffer v r s).m = s.m := rfl
@[simp] theorem ltoaBuffer_env (v : Int) (r : Nat) (s : State) :
    (ltoaBuffer v r s).env = s.env := rfl
@[simp] theorem ltoaBuffer_trace (v : Int) (r : Nat) (s : State) :
    (ltoaBuffer v r s).trace = s.trace := rfl

@[simp] theorem writeBufferString_g (s : State) : (writeBufferString s).g = s.g := rfl
@[simp] theorem writeBufferString_m (s : State) : (writeBufferString s).m = s.m := rfl
@[simp] theorem writeBufferString_env (s : State) : (writeBufferString s).env = s.env := rfl
@[simp] theorem writeBufferString_trace (s : State) : (writeBufferString s).trace
    = s.trace ++ [Event.serialWriteString (Str.text (cstr s.g.buffer))] := rfl

@[simp] theorem setDefaultImageA_g (idx v : Nat) (s : State) : (setDefaultImageA idx v s).g
    = { s.g with defaultImageA := s.g.defaultImageA.set idx v } := rfl
@[simp] theorem setDefaultImageA_m (idx v : Nat) (s : State) :
    (setDefaultImageA idx v s).m = s.m := rfl
@[simp] theorem setDefaultImageA_env (idx v : Nat) (s : State) :
    (setDefaultImageA idx v s).env = s.env := rfl
@[simp] theorem setDefaultImageA_trace (idx v : Nat) (s : State) :
    (setDefaultImageA idx v s).trace = s.trace := rfl

theorem Frame.rfl' (s : State) : Frame s s := ⟨GStep.refl _, rfl⟩

theorem Frame.trans {a b c : State} (h1 : Frame a b) (h2 : Frame b c) : Frame a c :=
  ⟨GStep.trans h1.1 h2.1, by rw [h2.2, h1.2]⟩

theorem Frame.of_eq {s s' : State} (hg : s'.g = s.g) (hm : s'.m = s.m) : Frame s s' :=
  ⟨by rw [hg]; exact GStep.refl _, hm⟩

theorem Frame.step {a b c : State} (h : Frame b c) (hg : b.g = a.g) (hm : b.m = a.m) :
    Frame a c :=
  Frame.trans (Frame.of_eq hg hm) h

theorem Frame.of_buffer {s s' : State}
    (hg : s'.g = { s.g with buffer := s'.g.buffer, overrun := s'.g.overrun })
    (hm : s'.m = s.m) (ho : s.g.overrun = true → s'.g.overrun = true) : Frame s s' := by
  refine ⟨?_, hm⟩
  have hor : s'.g.overrun = (s.g.overrun || s'.g.overrun) := by
    cases h : s.g.overrun
    · simp
    · simp [ho h]
  rw [hg, hor]
  exact GStep.buffer _ _ _

theorem frame_emit (s : State) (e : Event) : Frame s (s.emit e) := Frame.of_eq rfl rfl

theorem frame_setDefaultImageA (idx v : Nat) (s : State) : Frame s (setDefaultImageA idx v s) :=
  ⟨GStep.defaultImageA _ _, rfl⟩

theorem waitChar_frame : ∀ (fuel : Nat) (s s' : State),
    waitChar fuel s = Outcome.ok s' → Frame s s' := by
  intro fuel
  induction fuel with
  | zero => intro s s' h; simp [waitChar] at h
  | succ n ih =>
    intro s s' h
    simp only [waitChar] at h
    split at h
    · injection h with h; subst h; exact Frame.of_eq rfl rfl
    · exact Frame.step (ih _ _ h) rfl rfl

theorem randomWait_frame : ∀ (fuel : Nat) (s s' : State),
    randomWait fuel s = Outcome.ok s' → Frame s s' := by
  intro fuel
  induction fuel with
  | zero => intro s s' h; simp [randomWait] at h
  | succ n ih =>
    intro s s' h
    simp only [randomWait] at h
    split at h
    · exact Frame.step (ih _ _ h) rfl rfl
    · injection h with h; subst h; exact Frame.of_eq rfl rfl

theorem sweepWait_frame : ∀ (fuel : Nat) (s s' : State) (b : Bool),
    sweepWait fuel s = Outcome.ok (b, s') → Frame s s' := by
  intro fuel
  induction fuel with
  | zero => intro s s' b h; simp [sweepWait] at h
  | succ n ih =>
    intro s s' b h
    simp only [sweepWait] at h
    split at h
    · split at h
      · injection h with h; injection h with h1 h2; subst h2; exact Frame.of_eq rfl rfl
      · exact Frame.step (ih _ _ _ h) rfl rfl
    · injection h with h; injection h with h1 h2; subst h2; exact Frame.of_eq rfl rfl

theorem sweep_frame : ∀ (fuel i y z : Nat) (s s' : State),
    sweep fuel i y z s = Outcome.ok s' → Frame s s' := by
  intro fuel
  induction fuel with
  | zero => intro i y z s s' h; simp [sweep] at h
  | succ n ih =>
    intro i y z s s' h
    simp only [sweep] at h
    have h0 : Frame s ((setDefaultImageA (y + i * 8)
        ((s.g.defaultImageA.getD (y + i * 8) 0 ||| 1 <<< z) % 256) s).emit
          (Event.setImage (Img.ram (setDefaultImageA (y + i * 8)
            ((s.g.defaultImageA.getD (y + i * 8) 0 ||| 1 <<< z) % 256) s).g.defaultImageA))) :=
      Frame.trans (frame_setDefaultImageA _ _ _) (frame_emit _ _)
    split at h
    · rename_i s1 hw
      injection h with h; subst h
      exact Frame.trans h0 (sweepWait_frame _ _ _ _ hw)
    · rename_i s1 hw
      have h1 := Frame.trans h0 (sweepWait_frame _ _ _ _ hw)
      split at h
      · exact Frame.trans h1 (ih _ _ _ _ _ h)
      · split at h
        · exact Frame.trans h1 (Frame.trans (Frame.trans (frame_setDefaultImageA _ _ _)
            (frame_setDefaultImageA _ _ _)) (ih _ _ _ _ _ h))
        · split at h
          · exact Frame.trans h1 (Frame.trans (Frame.trans (frame_setDefaultImageA _ _ _)
              (frame_setDefaultImageA _ _ _)) (ih _ _ _ _ _ h))
          · exact Frame.trans h1 (Frame.trans (Frame.trans (frame_setDefaultImageA _ _ _)
              (frame_setDefaultImageA _ _ _)) (ih _ _ _ _ _ h))
    · simp at h
    · simp at h

theorem printTimeMinutes_frame (s : State) : Frame s (printTimeMinutes s) := by
  unfold printTimeMinutes
  simp only [getSystemTime]
  split
  · exact Frame.of_buffer (by simp) (by simp) (fun h => by simp [h])
  · exact Frame.of_eq rfl rfl

theorem printTimeFraction_frame (s : State) : Frame s (printTimeFraction s) := by
  unfold printTimeFraction
  simp only []
  repeat' split
  all_goals exact Frame.of_eq (by simp) (by simp)

theorem printTimeSeconds_frame (s : State) : Frame s (printTimeSeconds s) := by
  unfold printTimeSeconds
  simp only [getSystemTime]
  split
  · refine Frame.trans ?_ (frame_emit _ _)
    refine Frame.trans ?_ (printTimeFraction_frame _)
    exact Frame.of_buffer (by simp) (by simp) (fun h => by simp [h])
  · exact Frame.of_eq rfl rfl

theorem printTime_frame (s : State) : Frame s (printTime s) := by
  unfold printTime
  simp only [getSystemTime]
  refine Frame.trans ?_ (printTimeSeconds_frame _)
  refine Frame.trans ?_ (printTimeMinutes_frame _)
  exact Frame.of_buffer (by simp) (by simp) (fun h => by simp [h])

theorem selfTest_frame (s : State) : Frame s (selfTest s).2 := by
  unfold selfTest
  simp only [getAudioData, memGetBytes, getGeneralPurposeByte]
  split <;> split <;> exact Frame.of_eq (by simp) (by simp)

theorem printErrors_frame (e : Nat) (s : State) : Frame s (printErrors e s) := by
  unfold printErrors
  simp only []
  repeat' split
  all_goals exact Frame.of_eq (by simp) (by simp)

theorem randomLoop_frame (P : Platform) (handler : Int → State → Outcome State)
    (hh : ∀ c s s', handler c s = Outcome.ok s' → Frame s s') :
    ∀ (fuel : Nat) (b : List Nat) (s s' : State),
      randomLoop P handler fuel b s = Outcome.ok s' → Frame s s' := by
  intro fuel
  induction fuel with
  | zero => intro b s s' h; simp [randomLoop] at h
  | succ n ih =>
    intro b s s' h
    simp only [randomLoop] at h
    split at h
    · rename_i s1 hw
      have h1 : Frame s s1 := Frame.trans (frame_emit _ _) (randomWait_frame _ _ _ hw)
      simp only [rand, serialHasChar, serialGet] at h
      split at h
      · exact Frame.trans h1 (Frame.step (hh _ _ _ h) (by simp) (by simp))
      · exact Frame.trans h1 (Frame.step (ih _ _ _ h) (by simp) (by simp))
    · simp at h
    · simp at h

theorem randomAnimation_frame (P : Platform) (handler : Int → State → Outcome State)
    (hh : ∀ c s s', handler c s = Outcome.ok s' → Frame s s')
    (fuel : Nat) (s s' : State) (h : randomAnimation P handler fuel s = Outcome.ok s') :
    Frame s s' := by
  unfold randomAnimation at h
  simp only [malloc] at h
  split at h
  · injection h with h; subst h; exact Frame.of_eq (by simp) (by simp)
  · exact Frame.step (randomLoop_frame P handler hh _ _ _ _ h) (by simp) (by simp)

theorem foldl_setDefaultImageA_frame (l : List Nat) : ∀ (s : State),
    Frame s (l.foldl (fun s i => setDefaultImageA i 0 s) s) := by
  induction l with
  | nil => intro s; exact Frame.rfl' s
  | cons a l ih => intro s; exact Frame.trans (frame_setDefaultImageA a 0 s) (ih _)

theorem dispatch_frame (P : Platform) (handler : Int → State → Outcome State)
    (hh : ∀ c s s', handler c s = Outcome.ok s' → Frame s s') (fuel : Nat) (cmd : Cmd)
    (s s' : State) (h : dispatch P handler fuel cmd s = Outcome.ok s') : Frame s s' := by
    cases cmd <;> simp only [dispatch] at h
    case handshake => injection h with h; subst h; exact Frame.of_eq (by simp) (by simp)
    case help => injection h with h; subst h; exact Frame.of_eq (by simp) (by simp)
    case clearStorage => injection h with h; subst h; exact Frame.of_eq (by simp) (by simp)
    case sendAnimations => injection h with h; subst h; exact Frame.of_eq (by simp) (by simp)
    case receiveAnimations => injection h with h; subst h; exact Frame.of_eq (by simp) (by simp)
    case version => injection h with h; subst h; exact Frame.of_eq (by simp) (by simp)
    case toggleMode =>
      have ht := GStep.toggle s.g
      split at h
      · rename_i hc
        injection h with h; subst h
        exact ⟨by simpa [hc] using ht, by simp⟩
      · rename_i hc
        injection h with h; subst h
        exact ⟨by simpa [hc] using ht, by simp⟩
    case requestRestart =>
      injection h with h; subst h; exact ⟨by simpa using GStep.restart s.g, by simp⟩
    case randomAnimation => exact randomAnimation_frame P _ hh _ _ _ h
    case printTime => injection h with h; subst h; exact printTime_frame s
    case sendAudioSample => injection h with h; subst h; exact Frame.of_eq (by simp) (by simp)
    case countAnimations =>
      simp only [getAnimationCount] at h
      injection h with h; subst h; exact Frame.of_buffer (by simp) (by simp) (fun h => by simp [h])
    case setAnimationCount =>
      split at h
      · rename_i s1 hw
        simp only [serialGet] at h
        injection h with h; subst h
        exact Frame.trans (Frame.trans (frame_emit _ _) (waitChar_frame _ _ _ hw))
          (Frame.of_buffer (by simp) (by simp) (fun h => by simp [h]))
      · simp at h
      · simp at h
    case resetAnimationCount => injection h with h; subst h; exact Frame.of_eq (by simp) (by simp)
    case selfTest =>
      injection h with h; subst h
      refine Frame.trans ?_ (printErrors_frame _ _)
      refine Frame.trans (selfTest_frame s) ?_
      exact Frame.of_buffer (by simp) (by simp) (fun h => by simp [h])
    case snake => injection h with h; subst h; exact Frame.rfl' _
    case fillLow =>
      injection h with h; subst h; exact ⟨by simpa using GStep.debugDone s.g, by simp⟩
    case fillHigh =>
      injection h with h; subst h; exact ⟨by simpa using GStep.debugDone s.g, by simp⟩
    case showDefault =>
      injection h with h; subst h; exact ⟨by simpa using GStep.debugDone s.g, by simp⟩
    case sweepDiagnostic =>
      split at h
      · rename_i s1 hw
        simp only [serialGet] at h
        injection h with h; subst h
        have h1 : Frame s ({ s with g := { s.g with DebugDone := s.g.DebugDone ||| 4 } }.emit
            (Event.fillBuffer 0)) := ⟨GStep.debugDone _, rfl⟩
        refine Frame.trans (Frame.trans h1 (Frame.trans (foldl_setDefaultImageA_frame _ _)
          (Frame.trans (frame_setDefaultImageA _ _ _) (sweep_frame _ _ _ _ _ _ hw)))) ?_
        exact Frame.of_eq (by simp) (by simp)
      · simp at h
      · simp at h
    case triggerCount =>
      simp only [getTriggerCount] at h
      injection h with h; subst h; exact Frame.of_buffer (by simp) (by simp) (fun h => by simp [h])
    case unrecognized => injection h with h; subst h; exact Frame.of_eq (by simp) (by simp)

theorem serialHandler_frame (P : Platform) : ∀ (fuel : Nat) (c : Int) (s s' : State),
    serialHandler P fuel c s = Outcome.ok s' → Frame s s' := by
  intro fuel
  induction fuel with
  | zero => intro c s s' h; simp [serialHandler] at h
  | succ n ih =>
    intro c s s' h
    rw [serialHandler] at h
    exact dispatch_frame P _ ih _ _ _ _ h

/-! ## The button state (C2) -/

theorem GStep.buttonInv {M : Nat} (hM : 2 ≤ M) {g g' : Globals} (h : GStep g g') :
    ButtonInv M g → ButtonInv M g' := by
  induction h with
  | refl g => exact id
  | trans _ _ ih1 ih2 => exact fun hi => ih2 (ih1 hi)
  | buffer g b o => exact id
  | defaultImageA g a => exact id
  | debugDone g => exact id
  | restart g => exact id
  | toggle g =>
    intro hi
    refine ⟨hi.1, ?_⟩
    show (if g.lastButtonState = 0 then 1 else 0) < M
    split <;> omega

theorem audioModeSelected_buttonInv {M : Nat} (hM : 1 ≤ M) (s : State)
    (hi : ButtonInv M s.g) : ButtonInv M (audioModeSelected s).2.g := by
  unfold audioModeSelected
  simp only [readPINB]
  obtain ⟨h1, h2⟩ := hi
  split
  · split
    · rename_i hlt
      simp only [ButtonInv]
      refine ⟨h1, ?_⟩
      have : s.g.lastButtonState + 1 < M := by
        have : (s.g.lastButtonState : Int) < (M : Int) - 1 := by rw [← h1]; exact hlt
        omega
      omega
    · exact ⟨h1, by show 0 < M; omega⟩
  · exact ⟨h1, h2⟩

theorem audioStep_g (s : State) : (audioStep s).g = s.g := by
  unfold audioStep
  simp only [isFinished, getAudioData]
  split
  · split <;> simp
  · rfl

theorem playbackStep_g (s s' : State) (h : playbackStep s = Outcome.ok s') : s'.g = s.g := by
  unfold playbackStep at h
  simp only [isFinished, getFrame] at h
  split at h
  · split at h
    · simp at h
    · injection h with h; subst h
      simp only [emit_g, apply_ite State.g, ite_self]
  · injection h with h; subst h; rfl

theorem refreshStep_button (s : State) :
    (refreshStep s).g.lastButtonState = s.g.lastButtonState ∧
    (refreshStep s).g.maxButtonState = s.g.maxButtonState := by
  unfold refreshStep
  simp only [getAnimationCount]
  split <;> exact ⟨rfl, rfl⟩

theorem idleStep_button (P : Platform) (s : State) :
    (idleStep P s).g.lastButtonState = s.g.lastButtonState ∧
    (idleStep P s).g.maxButtonState = s.g.maxButtonState := by
  unfold idleStep
  simp only [isFinished]
  repeat' split
  all_goals exact ⟨rfl, rfl⟩

theorem modeStep_button (P : Platform) (s s' : State) (h : modeStep P s = Outcome.ok s') :
    s'.g.lastButtonState = s.g.lastButtonState ∧ s'.g.maxButtonState = s.g.maxButtonState := by
  unfold modeStep at h
  split at h
  · injection h with h; subst h; rw [audioStep_g]; exact ⟨rfl, rfl⟩
  · simp only [] at h
    split at h
    · rw [playbackStep_g _ _ h]; exact refreshStep_button s
    · injection h with h; subst h
      rw [(idleStep_button P _).1, (idleStep_button P _).2]
      exact refreshStep_button s

theorem watchdogStep_g (s : State) : (watchdogStep s).g = s.g := by
  unfold watchdogStep
  split <;> rfl

theorem heartbeatStep_button (s : State) :
    (heartbeatStep s).g.lastButtonState = s.g.lastButtonState ∧
    (heartbeatStep s).g.maxButtonState = s.g.maxButtonState := by
  unfold heartbeatStep
  simp only [getSystemTime, getTriggerCount]
  split
  · simp only [emit_g, writeBufferString_g, ltoaBuffer_g, and_self]
  · exact ⟨rfl, rfl⟩

theorem buttonStep_buttonInv {M : Nat} (hM : 1 ≤ M) (s : State) (hi : ButtonInv M s.g) :
    ButtonInv M (buttonStep s).g := by
  unfold buttonStep
  simp only [getSystemTime]
  split
  · exact audioModeSelected_buttonInv hM _ hi
  · exact hi

theorem serialStep_buttonInv {M : Nat} (hM : 2 ≤ M) (P : Platform) (fuel : Nat) (s s' : State)
    (h : serialStep P fuel s = Outcome.ok s') (hi : ButtonInv M s.g) : ButtonInv M s'.g := by
  unfold serialStep at h
  simp only [serialHasChar, serialGet] at h
  split at h
  · exact (serialHandler_frame P _ _ _ _ h).1.buttonInv hM hi
  · injection h with h; subst h; exact hi

theorem mainLoopBody_buttonInv {M : Nat} (hM : 2 ≤ M) (P : Platform) (fuel : Nat) (s s' : State)
    (h : mainLoopBody P fuel s = Outcome.ok s') (hi : ButtonInv M s.g) : ButtonInv M s'.g := by
  unfold mainLoopBody at h
  split at h
  · rename_i s1 h1
    split at h
    · rename_i s2 h2
      injection h with h; subst h
      have i1 : ButtonInv M s1.g := by
        obtain ⟨e1, e2⟩ := modeStep_button P _ _ h1
        rw [watchdogStep_g] at e1 e2
        exact ⟨by rw [e2]; exact hi.1, by rw [e1]; exact hi.2⟩
      have i2 := serialStep_buttonInv hM P fuel s1 s2 h2 i1
      apply buttonStep_buttonInv (by omega)
      obtain ⟨e1, e2⟩ := heartbeatStep_button s2
      exact ⟨by rw [e2]; exact i2.1, by rw [e1]; exact i2.2⟩
    · simp at h
    · simp at h
  · simp at h
  · simp at h

theorem selfTest_g (s : State) : (selfTest s).2.g = s.g := by
  unfold selfTest
  simp only [getAudioData, memGetBytes, getGeneralPurposeByte]
  split <;> split <;> simp

theorem printErrors_g (e : Nat) (s : State) : (printErrors e s).g = s.g := by
  unfold printErrors
  simp only []
  repeat' split
  all_goals simp

theorem startup_buttonInv (P : Platform) (env : Env) (h1 : 1 ≤ P.numberOfVisualizations)
    (h2 : P.numberOfVisualizations ≤ 254) :
    ButtonInv (P.numberOfVisualizations + 1) (startup P env).g := by
  have hmod : (P.numberOfVisualizations + 1) % 256 = P.numberOfVisualizations + 1 :=
    Nat.mod_eq_of_lt (by omega)
  unfold startup
  simp only [getSystemTime, getAnimationCount]
  apply audioModeSelected_buttonInv (by omega)
  split
  · simp [ButtonInv, printErrors_g, selfTest_g, initialState, hmod]
  · simp [ButtonInv, selfTest_g, initialState, hmod]

/-! ## Writes past the end of the text buffer -/

/-- The record of a write past the end of `buffer` is never taken back by
the dispatcher. -/
theorem GStep.overrun_mono {g g' : Globals} (h : GStep g g') :
    g.overrun = true → g'.overrun = true := by
  induction h with
  | refl g => exact id
  | trans _ _ ih1 ih2 => exact fun h => ih2 (ih1 h)
  | buffer g b o => intro h; simp [h]
  | defaultImageA g a => exact id
  | debugDone g => exact id
  | restart g => exact id
  | toggle g => exact id

theorem audioModeSelected_overrun (s : State) :
    (audioModeSelected s).2.g.overrun = s.g.overrun := by
  unfold audioModeSelected
  simp only [readPINB]
  repeat' split
  all_goals rfl

theorem modeStep_overrun (P : Platform) (s s' : State) (h : modeStep P s = Outcome.ok s') :
    s'.g.overrun = s.g.overrun := by
  have hr : (refreshStep s).g.overrun = s.g.overrun := by
    unfold refreshStep
    simp only [getAnimationCount]
    split <;> rfl
  have hi : ∀ t : State, (idleStep P t).g.overrun = t.g.overrun := by
    intro t
    unfold idleStep
    simp only [isFinished]
    repeat' split
    all_goals rfl
  unfold modeStep at h
  split at h
  · injection h with h; subst h; rw [audioStep_g]
  · simp only [] at h
    split at h
    · rw [playbackStep_g _ _ h]; exact hr
    · injection h with h; subst h
      rw [hi]; exact hr

theorem heartbeatStep_overrun (s : State) :
    s.g.overrun = true → (heartbeatStep s).g.overrun = true := by
  intro h
  unfold heartbeatStep
  simp only [getSystemTime, getTriggerCount]
  split
  · simp only [emit_g, writeBufferString_g, ltoaBuffer_g, h, Bool.true_or]
  · exact h

theorem buttonStep_overrun (s : State) : (buttonStep s).g.overrun = s.g.overrun := by
  unfold buttonStep
  simp only [getSystemTime]
  split
  · exact audioModeSelected_overrun _
  · rfl

theorem serialHandler_overrun (P : Platform) (fuel : Nat) (c : Int) (s s' : State)
    (h : serialHandler P fuel c s = Outcome.ok s') :
    s.g.overrun = true → s'.g.overrun = true :=
  (serialHandler_frame P fuel c s s' h).1.overrun_mono

/-- An iteration of the main loop never takes back the record of a write past
the end of `buffer`: a state without the record was reached without such a
write. -/
theorem mainLoopBody_overrun (P : Platform) (fuel : Nat) (s s' : State)
    (h : mainLoopBody P fuel s = Outcome.ok s') :
    s.g.overrun = true → s'.g.overrun = true := by
  intro ho
  unfold mainLoopBody at h
  split at h
  · rename_i s1 h1
    split at h
    · rename_i s2 h2
      injection h with h; subst h
      have o1 : s1.g.overrun = true := by
        rw [modeStep_overrun P _ _ h1, watchdogStep_g]; exact ho
      have o2 : s2.g.overrun = true := by
        unfold serialStep at h2
        simp only [serialHasChar, serialGet] at h2
        split at h2
        · exact serialHandler_overrun P _ _ _ _ h2 o1
        · injection h2 with h2; subst h2; exact o1
      rw [buttonStep_overrun]
      exact heartbeatStep_overrun s2 o2
    · simp at h
    · simp at h
  · simp at h
  · simp at h

theorem mainLoop_overrun (P : Platform) (fuel : Nat) : ∀ (k : Nat) (s s' : State),
    mainLoop P fuel k s = Outcome.ok s' → s.g.overrun = true → s'.g.overrun = true := by
  intro k
  induction k with
  | zero => intro s s' h ho; injection h with h; subst h; exact ho
  | succ k ih =>
    intro s s' h ho
    simp only [mainLoop] at h
    split at h
    · rename_i s1 h1
      exact ih _ _ h (mainLoopBody_overrun P fuel _ _ h1 ho)
    · simp at h
    · simp at h

/-- With no write past the end of `buffer` at the end, there was none at the
start. -/
theorem clean_before {s s' : State} (hm : s.g.overrun = true → s'.g.overrun = true)
    (hc : s'.g.overrun = false) : s.g.overrun = false := by
  cases h : s.g.overrun
  · rfl
  · rw [hm h] at hc; cases hc

theorem reachable_buttonInv (P : Platform) (h1 : 1 ≤ P.numberOfVisualizations)
    (h2 : P.numberOfVisualizations ≤ 254) (s : State) (hr : Reachable P s) :
    s.g.overrun = false → ButtonInv (P.numberOfVisualizations + 1) s.g := by
  induction hr with
  | start env => exact fun _ => startup_buttonInv P env h1 h2
  | sample _ ih =>
    intro hc
    rw [audioModeSelected_overrun] at hc
    exact audioModeSelected_buttonInv (by omega) _ (ih hc)
  | command fuel c _ hc ih =>
    intro hf
    exact (serialHandler_frame P _ _ _ _ hc).1.buttonInv (by omega)
      (ih (clean_before (serialHandler_overrun P _ _ _ _ hc) hf))
  | iteration fuel _ hc ih =>
    intro hf
    exact mainLoopBody_buttonInv (by omega) P fuel _ _ hc
      (ih (clean_before (mainLoopBody_overrun P _ _ _ hc) hf))

/-- C2, as amended: when `numberOfVisualizations()` is between 1 and 254, in
every state reachable from start-up by button samples, dispatched command
bytes (toggle-mode included) and main-loop iterations, none of which has
written a text past the end of `buffer` (`overrun` is false, and it is never
taken back once set), `lastButtonState < maxButtonState`. -/
theorem button_state_bound (P : Platform) (h1 : 1 ≤ P.numberOfVisualizations)
    (h2 : P.numberOfVisualizations ≤ 254) (s : State) (hr : Reachable P s)
    (hfit : s.g.overrun = false) :
    s.g.lastButtonState < s.g.maxButtonState := by
  have h := reachable_buttonInv P h1 h2 s hr hfit
  rw [h.1]; exact h.2

/-- C2, example of the amended claim: the state after start-up and one
button sample, with seven visualizations. -/
theorem button_state_bound_witness :
    (audioModeSelected (startup examplePlatform Env.quiet)).2.g.lastButtonState
      < (audioModeSelected (startup examplePlatform Env.quiet)).2.g.maxButtonState :=
  button_state_bound examplePlatform (by decide) (by decide) _
    (Reachable.sample (Reachable.start Env.quiet)) (by decide)

/-- C2, counterexample: with `numberOfVisualizations() = 0` start-up sets
`maxButtonState = 1`, and the toggle-mode command 'm' then sets
`lastButtonState = 1`, which is not below `maxButtonState`. -/
theorem button_state_bound_counterexample :
    ∃ s', serialHandler noVisualizationPlatform 1 109 (startup noVisualizationPlatform Env.quiet)
        = Outcome.ok s' ∧
      Reachable noVisualizationPlatform s' ∧
      s'.g.lastButtonState = 1 ∧ s'.g.maxButtonState = 1 ∧
      ¬ s'.g.lastButtonState < s'.g.maxButtonState :=
  ⟨_, rfl, Reachable.command 1 109 (Reachable.start Env.quiet) rfl, by decide, by decide,
    by decide⟩

/-! ## Frame advance suppressed (C3) -/

/-- C3, as amended: when bit 2 of `DebugDone` is set, the button state is 0
and the count in use after the refresh step is 0, the mode state machine does
nothing beyond that refresh step: no `setImage`, `runVisualization` or
`executeAnimation`, at most the one `getAnimationCount` call of a pending
refresh, the idle counter and `DebugDone` unchanged, and no change at all
when no refresh is pending. -/
theorem suppressed_idle_frozen (P : Platform) (s : State) (hd : s.g.DebugDone &&& 4 ≠ 0)
    (hb : s.g.lastButtonState = 0) (hc : (refreshStep s).m.count = 0) :
    modeStep P s = Outcome.ok (refreshStep s) ∧
    ((refreshStep s).trace = s.trace ∨
      (refreshStep s).trace = s.trace ++ [Event.getAnimationCount]) ∧
    (refreshStep s).m.idleCounter = s.m.idleCounter ∧
    (refreshStep s).g.DebugDone = s.g.DebugDone ∧
    (s.g.refreshAnimationCount = 0 → refreshStep s = s) := by
  have hdd : (refreshStep s).g.DebugDone = s.g.DebugDone := by
    unfold refreshStep; simp only [getAnimationCount]; split <;> rfl
  refine ⟨?_, ?_, ?_, hdd, ?_⟩
  · unfold modeStep
    have h1 : ¬ s.g.lastButtonState ≥ 1 := by omega
    simp only [h1, if_false, hc, gt_iff_lt, Nat.lt_irrefl]
    unfold idleStep
    rw [hdd, if_neg hd]
  · unfold refreshStep; simp only [getAnimationCount]
    split
    · exact Or.inr rfl
    · exact Or.inl rfl
  · unfold refreshStep; simp only [getAnimationCount]; split <;> rfl
  · intro h0
    unfold refreshStep
    simp only [h0, ne_eq, not_true_eq_false, if_false]

/-- C3, example of the amended claim. -/
theorem suppressed_idle_frozen_witness :
    modeStep examplePlatform suppressedIdleState = Outcome.ok (refreshStep suppressedIdleState) ∧
    ((refreshStep suppressedIdleState).trace = suppressedIdleState.trace ∨
      (refreshStep suppressedIdleState).trace
        = suppressedIdleState.trace ++ [Event.getAnimationCount]) ∧
    (refreshStep suppressedIdleState).m.idleCounter = suppressedIdleState.m.idleCounter ∧
    (refreshStep suppressedIdleState).g.DebugDone = suppressedIdleState.g.DebugDone ∧
    (suppressedIdleState.g.refreshAnimationCount = 0 →
      refreshStep suppressedIdleState = suppressedIdleState) :=
  suppressed_idle_frozen examplePlatform suppressedIdleState (by decide) rfl rfl

/-- C3, counterexample: with bit 2 of `DebugDone` set, the mode state machine
still renders a visualization when the button state is 1, and with button
state 0 and three stored frames it still fetches and shows the next frame and
moves the playback index from 0 to 1. -/
theorem suppressed_idle_frozen_counterexample :
    suppressedAudioState.g.DebugDone &&& 4 = 4 ∧
    (modeStep examplePlatform suppressedAudioState).trace
      = [Event.isFinished, Event.getAudioData, Event.runVisualization [1, 2, 3] 0] ∧
    suppressedPlaybackState.g.DebugDone &&& 4 = 4 ∧
    (modeStep examplePlatform suppressedPlaybackState).trace
      = [Event.isFinished, Event.getFrame 1, Event.setImage (Img.ram (darkFrame 0)),
         Event.free (Ptr.frame 1)] ∧
    suppressedPlaybackState.m.i = 0 ∧
    (∃ s', modeStep examplePlatform suppressedPlaybackState = Outcome.ok s' ∧ s'.m.i = 1) :=
  ⟨by decide, by decide, by decide, by decide, by decide, _, rfl, by decide⟩

/-! ## Restart request and the watchdog (C4) -/

/-- C4, counterexample: 'q' arrives in the first iteration after start-up
and sets `shouldRestart`; the second iteration does not service the watchdog
at its start, but the byte '2' it receives starts the sweep diagnostic, whose
busy wait calls `wdt_reset` although `shouldRestart` is set: a later
dispatched command does service the watchdog. -/
theorem restart_request_then_sweep :
    ∃ s1 s2,
      mainLoopBody examplePlatform 3 (startup examplePlatform restartSweepEnv) = Outcome.ok s1 ∧
      s1.g.shouldRestart = 1 ∧
      mainLoopBody examplePlatform 3 s1 = Outcome.ok s2 ∧
      s2.g.shouldRestart = 1 ∧
      s2.trace = s1.trace ++
        [Event.isFinished, Event.serialHasChar, Event.serialGet, Event.fillBuffer 0,
         Event.setImage (Img.ram (1 :: List.replicate 63 0)), Event.isFinished,
         Event.wdt_reset, Event.serialHasChar, Event.serialGet,
         Event.serialWriteString (Str.getString 25), Event.getSystemTime,
         Event.getSystemTime] :=
  ⟨_, _, rfl, by decide, rfl, by decide, by decide⟩

/-! ## Unrecognized bytes (C7) -/

theorem decode_unrecognized (c : Int) (h : c ∉ tableCommands) (hn : c ≠ 110) (hN : c ≠ 78) :
    decode c = Cmd.unrecognized := by
  simp only [tableCommands, List.mem_cons, List.mem_singleton, not_or, List.mem_nil_iff,
    or_false] at h
  obtain ⟨h1, h2, h3, h4, h5, h6, h7, h8, h9, h10, h11, h12, h13, h14, h15, h16, h17, h18,
    h19, h20, h21, h22, h23, h24, h25, h26, h27, h28, h29, h30, h31, h32, h33, h34, h35,
    h36⟩ := h
  unfold decode
  simp only [h1, h2, h3, h4, h5, h6, h7, h8, h9, h10, h11, h12, h13, h14, h15, h16, h17, h18,
    h19, h20, h21, h22, h23, h24, h25, h26, h27, h28, h29, h30, h31, h32, h33, h34, h35,
    h36, hn, hN, or_self, if_false]

theorem decode_snake (c : Int) (h : c = 110 ∨ c = 78) : decode c = Cmd.snake := by
  rcases h with h | h <;> subst h <;> decide

/-- C7, as amended: for every character that is neither a command of the
table in section 4.3 nor 'n' or 'N', `serialHandler` returns after writing
exactly the single byte `ERROR` (0x23), with the variables and the remaining
input unchanged; for 'n' and 'N' it returns without writing anything and
without any change of state. -/
theorem unrecognized_byte (P : Platform) (fuel : Nat) (c : Int) (s : State)
    (h : c ∉ tableCommands) :
    serialHandler P (fuel + 1) c s
      = Outcome.ok (if c = 110 ∨ c = 78 then s
          else { s with trace := s.trace ++ [Event.serialWrite ERROR] }) := by
  by_cases hn : c = 110 ∨ c = 78
  · rw [serialHandler, decode_snake c hn, if_pos hn]
    rfl
  · rw [serialHandler, decode_unrecognized c h (fun e => hn (Or.inl e)) (fun e => hn (Or.inr e)),
      if_neg hn]
    rfl

/-- C7, example of the amended claim: the character 'b' is answered with
the error byte. -/
theorem unrecognized_byte_witness :
    serialHandler examplePlatform (0 + 1) 98 playbackState
      = Outcome.ok (if (98 : Int) = 110 ∨ (98 : Int) = 78 then playbackState
          else { playbackState with
            trace := playbackState.trace ++ [Event.serialWrite ERROR] }) :=
  unrecognized_byte examplePlatform 0 98 playbackState (by decide)

/-- C7, counterexample: 'n' is not a command of the table, and
`serialHandler` returns on it without writing the error byte or anything
else. -/
theorem unrecognized_byte_counterexample :
    (110 : Int) ∉ tableCommands ∧
    serialHandler examplePlatform 1 110 playbackState = Outcome.ok playbackState ∧
    serialHandler examplePlatform 1 110 playbackState
      ≠ Outcome.ok (playbackState.emit (Event.serialWrite ERROR)) :=
  ⟨by decide, rfl, by decide⟩

/-! ## Self-test (C8) -/

/-- C8: `selfTest` returns the OR of `AUDIOERROR` iff no audio data came
back, `MEMORYERROR` iff no memory byte came back and `MEMORYWRITEERROR` iff
the byte read back differs from 0x23; it makes all three probes whatever
their outcomes (the calls are listed in order, a `free` follows each block
that came back); the result is `NOERROR` when all three succeed; and a call
that sees the same three outcomes returns the same bitmask. -/
theorem selfTest_bitmask (s : State) :
    (selfTest s).1
      = errorMask (probeOutcomes s).1 (probeOutcomes s).2.1 (probeOutcomes s).2.2 ∧
    (selfTest s).2.trace = s.trace ++
      ([Event.getAudioData] ++
       (if (probeOutcomes s).1 then [Event.free Ptr.audioData] else []) ++
       [Event.memGetBytes 0 1] ++
       (if (probeOutcomes s).2.1 then [Event.free Ptr.memBytes] else []) ++
       [Event.setGeneralPurposeByte 0 0x23, Event.getGeneralPurposeByte 0]) ∧
    errorMask true true 0x23 = NOERROR ∧
    (∀ s' : State, probeOutcomes s' = probeOutcomes s → (selfTest s').1 = (selfTest s).1) := by
  have key : ∀ t : State, (selfTest t).1
      = errorMask (probeOutcomes t).1 (probeOutcomes t).2.1 (probeOutcomes t).2.2 := by
    intro t
    rcases hA : t.env.getAudioData.headD none with _ | d <;>
      rcases hM : t.env.memGetBytes.headD false <;>
      by_cases h : t.env.getGeneralPurposeByte.headD 0 % 256 = 0x23 <;>
      simp only [selfTest, probeOutcomes, errorMask, getAudioData, memGetBytes,
        getGeneralPurposeByte, emit_env, hA, hM, h, if_true, if_false, ne_eq, not_true_eq_false,
        not_false_eq_true, Option.isSome_none, Option.isSome_some, Bool.false_eq_true] <;>
      rfl
  refine ⟨key s, ?_, by decide, ?_⟩
  · rcases hA : s.env.getAudioData.headD none with _ | d <;>
      rcases hM : s.env.memGetBytes.headD false <;>
      simp only [selfTest, probeOutcomes, getAudioData, memGetBytes,
        getGeneralPurposeByte, emit_env, emit_trace, hA, hM, if_true, if_false,
        Option.isSome_none, Option.isSome_some, Bool.false_eq_true, List.append_assoc,
        List.cons_append, List.nil_append, List.append_nil]
  · intro s' h
    rw [key s', key s, h]

/-- C8, example: with all three probes succeeding, two consecutive self-tests
both return `NOERROR`. -/
theorem selfTest_bitmask_witness :
    (selfTest (initialState examplePlatform healthyEnv)).1 = NOERROR ∧
    (selfTest (selfTest (initialState examplePlatform healthyEnv)).2).1
      = (selfTest (initialState examplePlatform healthyEnv)).1 :=
  ⟨by decide,
   (selfTest_bitmask (initialState examplePlatform healthyEnv)).2.2.2 _ (by decide)⟩

/-! ## Set-animation-count (C9) -/

/-- C9, the code at the failing input: with plain `char` signed, the command
'x' followed by the byte 200 stores the count 65480 and reports "-56". -/
theorem set_animation_count_byte_200 :
    (serialHandler examplePlatform 3 120 (initialState examplePlatform setCountEnv)).trace
      = [Event.serialWriteString (Str.getString 16), Event.serialHasChar, Event.serialHasChar,
         Event.serialGet, Event.setAnimationCount 65480,
         Event.serialWriteString (Str.text [45, 53, 54]),
         Event.serialWriteString (Str.getString 17)] := by
  decide

theorem toChar_plain (P : Platform) (b : Nat) (hb : b < 256)
    (h : P.charSigned = false ∨ b < 128) : toChar P b = (b : Int) := by
  unfold toChar
  have hm : b % 256 = b := Nat.mod_eq_of_lt hb
  have hi : (b : Int) % 256 = (b : Int) := by omega
  rcases h with h | h
  · simp [h, hi]
  · have : ¬ 128 ≤ b := by omega
    simp [hm, this, hi]

/-- Where C9 holds: for a byte below 128, and for every byte when plain
`char` is unsigned, set-animation-count stores exactly that byte as the count
and reports it with `itoa`, once the byte has arrived. -/
theorem set_animation_count_plain (P : Platform) (fuel : Nat) (s s1 : State) (b : Nat)
    (hw : waitChar fuel (s.emit (Event.serialWriteString (Str.getString 16))) = Outcome.ok s1)
    (hb : s1.env.serialGet.headD 0 % 256 = b) (h : P.charSigned = false ∨ b < 128) :
    ∃ s', serialHandler P (fuel + 1) 120 s = Outcome.ok s' ∧
      s'.trace = s1.trace ++ [Event.serialGet, Event.setAnimationCount b,
        Event.serialWriteString (Str.text (cstr (writeBuf (itoa (b : Int) 10) s1.g.buffer))),
        Event.serialWriteString (Str.getString 17)] := by
  have hlt : b < 256 := by rw [← hb]; exact Nat.mod_lt _ (by decide)
  have hd : decode 120 = Cmd.setAnimationCount := by decide
  have hmod : ((b : Int) % 65536).toNat = b := by omega
  rw [serialHandler, hd]
  simp only [dispatch, hw, serialGet, hb, toChar_plain P b hlt h, hmod]
  refine ⟨_, rfl, ?_⟩
  simp only [emit_trace, emit_g, writeBufferString_trace, itoaBuffer_trace, itoaBuffer_g,
    List.append_assoc, List.cons_append, List.nil_append]

/-! ## The dirty flag of the animation count (C10) -/

theorem GStep.refresh_unchanged {g g' : Globals} (h : GStep g g') :
    g'.refreshAnimationCount = g.refreshAnimationCount := by
  induction h with
  | refl g => rfl
  | trans _ _ ih1 ih2 => rw [ih2, ih1]
  | buffer g b o => rfl
  | defaultImageA g a => rfl
  | debugDone g => rfl
  | restart g => rfl
  | toggle g => rfl

/-- No command of the dispatcher writes `refreshAnimationCount`. -/
theorem serialHandler_refresh_unchanged (P : Platform) (fuel : Nat) (c : Int) (s s' : State)
    (h : serialHandler P fuel c s = Outcome.ok s') :
    s'.g.refreshAnimationCount = s.g.refreshAnimationCount :=
  (serialHandler_frame P fuel c s s' h).1.refresh_unchanged

/-- C10, the code at the failing input: the first iteration after start-up
clears `refreshAnimationCount`, and after each of the commands 'd', 'y' and
'x' (with the byte 200) the flag is still 0. -/
theorem store_commands_leave_refresh_flag :
    ∃ s1, mainLoopBody examplePlatform 1 (startup examplePlatform Env.quiet) = Outcome.ok s1 ∧
      s1.g.refreshAnimationCount = 0 ∧
      (∃ s2, serialHandler examplePlatform 1 100 s1 = Outcome.ok s2 ∧
        s2.g.refreshAnimationCount = 0) ∧
      (∃ s2, serialHandler examplePlatform 1 121 s1 = Outcome.ok s2 ∧
        s2.g.refreshAnimationCount = 0) ∧
      (∃ s2, serialHandler examplePlatform 3 120 { s1 with env := setCountEnv }
          = Outcome.ok s2 ∧
        s2.g.refreshAnimationCount = 0) :=
  ⟨_, rfl, by decide, ⟨_, rfl, by decide⟩, ⟨_, rfl, by decide⟩, ⟨_, rfl, by decide⟩⟩

/-! ## Cancellation of the two sub-loops (C5, C6) -/

theorem sweepWait_withSerialGet (q : List Nat) : ∀ (fuel : Nat) (s : State),
    sweepWait fuel (withSerialGet q s)
      = (sweepWait fuel s).map (fun p => (p.1, withSerialGet q p.2)) := by
  intro fuel
  induction fuel with
  | zero => intro s; rfl
  | succ n ih =>
    intro s
    simp only [sweepWait]
    have e1 : (isFinished (withSerialGet q s)).1 = (isFinished s).1 := rfl
    have e2 : (serialHasChar ((isFinished (withSerialGet q s)).2.emit Event.wdt_reset)).1
        = (serialHasChar ((isFinished s).2.emit Event.wdt_reset)).1 := rfl
    have e3 : (serialHasChar ((isFinished (withSerialGet q s)).2.emit Event.wdt_reset)).2
        = withSerialGet q (serialHasChar ((isFinished s).2.emit Event.wdt_reset)).2 := rfl
    have e4 : (isFinished (withSerialGet q s)).2 = withSerialGet q (isFinished s).2 := rfl
    rw [e1, e2, e3, e4]
    split
    · split
      · rfl
      · exact ih _
    · rfl

theorem setDefaultImageA_withSerialGet (q : List Nat) (idx v : Nat) (s : State) :
    setDefaultImageA idx v (withSerialGet q s) = withSerialGet q (setDefaultImageA idx v s) :=
  rfl

theorem sweep_withSerialGet (q : List Nat) : ∀ (fuel i y z : Nat) (s : State),
    sweep fuel i y z (withSerialGet q s) = (sweep fuel i y z s).map (withSerialGet q) := by
  intro fuel
  induction fuel with
  | zero => intro i y z s; rfl
  | succ n ih =>
    intro i y z s
    simp only [sweep]
    have e1 : ((setDefaultImageA (y + i * 8)
          (((withSerialGet q s).g.defaultImageA.getD (y + i * 8) 0 ||| 1 <<< z) % 256)
          (withSerialGet q s)).emit
        (Event.setImage (Img.ram (setDefaultImageA (y + i * 8)
          (((withSerialGet q s).g.defaultImageA.getD (y + i * 8) 0 ||| 1 <<< z) % 256)
          (withSerialGet q s)).g.defaultImageA)))
      = withSerialGet q ((setDefaultImageA (y + i * 8)
          ((s.g.defaultImageA.getD (y + i * 8) 0 ||| 1 <<< z) % 256) s).emit
        (Event.setImage (Img.ram (setDefaultImageA (y + i * 8)
          ((s.g.defaultImageA.getD (y + i * 8) 0 ||| 1 <<< z) % 256) s).g.defaultImageA))) := rfl
    rw [e1, sweepWait_withSerialGet]
    cases hw : sweepWait n ((setDefaultImageA (y + i * 8)
          ((s.g.defaultImageA.getD (y + i * 8) 0 ||| 1 <<< z) % 256) s).emit
        (Event.setImage (Img.ram (setDefaultImageA (y + i * 8)
          ((s.g.defaultImageA.getD (y + i * 8) 0 ||| 1 <<< z) % 256) s).g.defaultImageA))) with
    | outOfFuel => rfl
    | nullDeref => rfl
    | ok p =>
      obtain ⟨flag, s1⟩ := p
      cases flag with
      | true => rfl
      | false =>
        simp only [Outcome.map]
        split
        · exact ih _ _ _ _
        · split
          · simp only [setDefaultImageA_withSerialGet]; exact ih _ _ _ _
          · split
            · simp only [setDefaultImageA_withSerialGet]; exact ih _ _ _ _
            · simp only [setDefaultImageA_withSerialGet]; exact ih _ _ _ _

theorem foldl_setDefaultImageA_withSerialGet (q : List Nat) (l : List Nat) : ∀ (s : State),
    l.foldl (fun s i => setDefaultImageA i 0 s) (withSerialGet q s)
      = withSerialGet q (l.foldl (fun s i => setDefaultImageA i 0 s) s) := by
  induction l with
  | nil => intro s; rfl
  | cons a l ih => intro s; simp only [List.foldl_cons, setDefaultImageA_withSerialGet, ih]

theorem sweepEntry_withSerialGet (q : List Nat) (s : State) :
    sweepEntry (withSerialGet q s) = withSerialGet q (sweepEntry s) := by
  unfold sweepEntry
  have e : ({ withSerialGet q s with
      g := { (withSerialGet q s).g with DebugDone := (withSerialGet q s).g.DebugDone ||| 4 } }.emit
        (Event.fillBuffer 0))
      = withSerialGet q ({ s with g := { s.g with DebugDone := s.g.DebugDone ||| 4 } }.emit
        (Event.fillBuffer 0)) := rfl
  rw [e, foldl_setDefaultImageA_withSerialGet, setDefaultImageA_withSerialGet]

theorem sweepDiagnostic_eq (P : Platform) (fuel : Nat) (s : State) (b : Nat) (rest : List Nat) :
    serialHandler P (fuel + 1) 50 (withSerialGet (b :: rest) s)
      = (sweep fuel 0 0 0 (sweepEntry s)).map (sweepCancelled rest) := by
  have hd : decode 50 = Cmd.sweepDiagnostic := by decide
  rw [serialHandler, hd]
  simp only [dispatch]
  have e : setDefaultImageA (0 + 0 * 8) 0
      ((List.range 64).foldl (fun s i => setDefaultImageA i 0 s)
        ({ withSerialGet (b :: rest) s with
            g := { (withSerialGet (b :: rest) s).g with
              DebugDone := (withSerialGet (b :: rest) s).g.DebugDone ||| 4 } }.emit
          (Event.fillBuffer 0)))
      = sweepEntry (withSerialGet (b :: rest) s) := rfl
  rw [e, sweepEntry_withSerialGet, sweep_withSerialGet]
  cases sweep fuel 0 0 0 (sweepEntry s) with
  | ok r => rfl
  | outOfFuel => rfl
  | nullDeref => rfl


theorem randomWait_keeps (fuel : Nat) : ∀ (s s' : State),
    randomWait fuel s = Outcome.ok s' →
      s'.g = s.g ∧ s'.m = s.m ∧ s'.env.serialGet = s.env.serialGet := by
  induction fuel with
  | zero => intro s s' h; simp [randomWait] at h
  | succ n ih =>
    intro s s' h
    simp only [randomWait] at h
    split at h
    · have := ih _ _ h
      exact this
    · injection h with h; subst h; exact ⟨rfl, rfl, rfl⟩

theorem randomLoop_returns (P : Platform) (handler : Int → State → Outcome State) :
    ∀ (fuel : Nat) (b : List Nat) (s r : State),
      randomLoop P handler fuel b s = Outcome.ok r →
        ∃ s2, s2.g = s.g ∧ s2.m = s.m ∧ s2.env.serialGet = s.env.serialGet ∧
          handler (toChar P (s.env.serialGet.headD 0 % 256)) (randomCancelled s2)
            = Outcome.ok r := by
  intro fuel
  induction fuel with
  | zero => intro b s r h; simp [randomLoop] at h
  | succ n ih =>
    intro b s r h
    simp only [randomLoop] at h
    split at h
    · rename_i s1 hw
      obtain ⟨k1, k2, k3⟩ := randomWait_keeps n _ _ hw
      simp only [emit_g, emit_m, emit_env] at k1 k2 k3
      split at h
      · refine ⟨(serialHasChar (rand (rand (rand s1).2).2).2).2, k1, k2, k3, ?_⟩
        rw [← k3]
        exact h
      · obtain ⟨s2, j1, j2, j3, j4⟩ := ih _ _ _ h
        refine ⟨s2, j1.trans k1, j2.trans k2, j3.trans k3, ?_⟩
        rw [← k3]
        exact j4
    · simp at h
    · simp at h

theorem randomAnimation_returns (P : Platform) (fuel : Nat) (s r : State)
    (h : serialHandler P (fuel + 1) 114 s = Outcome.ok r) :
    r = (malloc 64 s).2.emit (Event.serialWriteString (Str.getString 24)) ∨
    ∃ s2, s2.g = s.g ∧ s2.m = s.m ∧ s2.env.serialGet = s.env.serialGet ∧
      serialHandler P fuel (toChar P (s.env.serialGet.headD 0 % 256)) (randomCancelled s2)
        = Outcome.ok r := by
  have hd : decode 114 = Cmd.randomAnimation := by decide
  rw [serialHandler, hd] at h
  simp only [dispatch, randomAnimation] at h
  split at h
  · injection h with h; exact Or.inl h.symm
  · have := randomLoop_returns P _ _ _ _ _ h
    exact Or.inr this

theorem sweepDiagnostic_queued (P : Platform) (fuel : Nat) (s : State)
    (h0 : s.env.isFinished.headD 0 % 256 = 0) (hq : s.env.serialHasChar.headD false = true) :
    ∃ r img, serialHandler P (fuel + 3) 50 s = Outcome.ok r ∧
      r.trace = s.trace ++
        [Event.fillBuffer 0, Event.setImage (Img.ram img), Event.isFinished,
         Event.wdt_reset, Event.serialHasChar, Event.serialGet,
         Event.serialWriteString (Str.getString 25)] ∧
      r.env.serialGet = s.env.serialGet.tail := by
  have hd : decode 50 = Cmd.sweepDiagnostic := by decide
  have hfold : ∀ (l : List Nat) (t : State),
      (l.foldl (fun s i => setDefaultImageA i 0 s) t).env = t.env ∧
      (l.foldl (fun s i => setDefaultImageA i 0 s) t).trace = t.trace := by
    intro l
    induction l with
    | nil => intro t; exact ⟨rfl, rfl⟩
    | cons a l ih => intro t; simp only [List.foldl_cons]; exact ih _
  have he : (sweepEntry s).env = s.env := by
    unfold sweepEntry
    rw [setDefaultImageA_env, (hfold _ _).1]
    rfl
  have ht : (sweepEntry s).trace = s.trace ++ [Event.fillBuffer 0] := by
    unfold sweepEntry
    rw [setDefaultImageA_trace, (hfold _ _).2]
    rfl
  have hw : ∀ t : State, t.env.isFinished.headD 0 % 256 = 0 →
      t.env.serialHasChar.headD false = true →
      sweepWait (fuel + 1) t = Outcome.ok (true,
        (serialHasChar ((isFinished t).2.emit Event.wdt_reset)).2) := by
    intro t k0 kq
    rw [sweepWait]
    have e1 : (isFinished t).1 = 0 := k0
    have e2 : (serialHasChar ((isFinished t).2.emit Event.wdt_reset)).1 = true := kq
    simp only [e1, e2, if_true]
  have hs : ∀ t : State, t.env.isFinished.headD 0 % 256 = 0 →
      t.env.serialHasChar.headD false = true →
      ∃ r img, sweep (fuel + 2) 0 0 0 t = Outcome.ok r ∧
        r.trace = t.trace ++ [Event.setImage (Img.ram img), Event.isFinished, Event.wdt_reset,
          Event.serialHasChar] ∧ r.env.serialGet = t.env.serialGet := by
    intro t k0 kq
    rw [sweep, hw]
    · refine ⟨_, (setDefaultImageA (0 + 0 * 8)
        ((t.g.defaultImageA.getD (0 + 0 * 8) 0 ||| 1 <<< 0) % 256) t).g.defaultImageA, rfl, ?_, rfl⟩
      simp only [isFinished, serialHasChar, emit_trace, setDefaultImageA_trace,
        List.append_assoc, List.cons_append, List.nil_append]
    · exact k0
    · exact kq
  obtain ⟨r, img, hr, htr, hsg⟩ := hs (sweepEntry s) (by rw [he]; exact h0) (by rw [he]; exact hq)
  refine ⟨(serialGet r).2.emit (Event.serialWriteString (Str.getString 25)), img, ?_, ?_, ?_⟩
  · rw [serialHandler, hd]
    simp only [dispatch]
    have e : setDefaultImageA (0 + 0 * 8) 0
        ((List.range 64).foldl (fun s i => setDefaultImageA i 0 s)
          ({ s with g := { s.g with DebugDone := s.g.DebugDone ||| 4 } }.emit
            (Event.fillBuffer 0))) = sweepEntry s := rfl
    rw [e, hr]
  · simp [serialGet, htr, ht]
  · simp [serialGet, hsg, he]

theorem randomWait_two (fuel : Nat) (s : State) (t0 t1 : Nat) (ts : List Nat)
    (hT : s.env.isFinished = t0 :: t1 :: ts) (h0 : t0 % 256 = 0) (h1 : t1 % 256 ≠ 0) :
    randomWait (fuel + 2) s
      = Outcome.ok { s with env := { s.env with isFinished := ts },
                            trace := s.trace ++ [Event.isFinished, Event.isFinished] } := by
  simp only [randomWait, isFinished, hT, List.headD_cons, h0, if_true, List.tail_cons, h1,
    if_false, List.append_assoc, List.cons_append, List.nil_append]

theorem randomAnimation_queued (P : Platform) (fuel : Nat) (s : State) (t0 t1 : Nat)
    (ts : List Nat) (hm : s.env.malloc.headD false = true)
    (hT : s.env.isFinished = t0 :: t1 :: ts) (h0 : t0 % 256 = 0) (h1 : t1 % 256 ≠ 0)
    (hq : s.env.serialHasChar.headD false = true) :
    serialHandler P (fuel + 4) 114 s
      = serialHandler P (fuel + 3) (toChar P (s.env.serialGet.headD 0 % 256))
          (randomFirstCycle s ts) := by
  have hd : decode 114 = Cmd.randomAnimation := by decide
  have hw := randomWait_two fuel
    ((malloc 64 s).2.emit (Event.setImage (Img.ram (List.replicate 64 0)))) t0 t1 ts hT h0 h1
  rw [serialHandler, hd]
  simp only [dispatch, randomAnimation]
  have hm' : (malloc 64 s).1 = true := hm
  rw [hm']
  simp only [Bool.not_true, Bool.false_eq_true, if_false]
  rw [randomLoop, hw]
  simp only [malloc, rand, serialHasChar, serialGet, emit_env, emit_g, emit_m, emit_trace, hq,
    if_true, randomFirstCycle, List.append_assoc, List.cons_append, List.nil_append]


theorem waitChar_starved : ∀ (fuel : Nat) (s : State), s.env.serialHasChar = [] →
    waitChar fuel s = Outcome.outOfFuel := by
  intro fuel
  induction fuel with
  | zero => intro s _; rfl
  | succ n ih =>
    intro s h
    rw [waitChar]
    have e : (serialHasChar s).1 = false := by simp [serialHasChar, h]
    simp only [e, Bool.false_eq_true, if_false]
    exact ih _ (by simp [serialHasChar, h])

theorem randomAnimation_queued_x_diverges (fuel : Nat) :
    serialHandler examplePlatform fuel 114 (initialState examplePlatform (queuedByteEnv 120))
      = Outcome.outOfFuel := by
  match fuel with
  | 0 => rfl
  | 1 => rfl
  | 2 => rfl
  | 3 => rfl
  | k + 4 =>
    rw [randomAnimation_queued examplePlatform k
      (initialState examplePlatform (queuedByteEnv 120)) 0 1 [] rfl rfl rfl (by decide) rfl]
    have hc : toChar examplePlatform
        ((initialState examplePlatform (queuedByteEnv 120)).env.serialGet.headD 0 % 256)
        = 120 := by decide
    have hd : decode 120 = Cmd.setAnimationCount := by decide
    rw [hc, serialHandler, hd]
    simp only [dispatch]
    rw [waitChar_starved _ _ rfl]

/-- C5, as amended: the sweep diagnostic consumes exactly the one cancelling
byte and does not dispatch it: what it returns is what its loops produce,
followed by the consumption of that byte and the "interrupted" report, and
does not depend on the value `b` of the byte.  When `randomAnimation` returns
after its buffer was allocated, it has reported "interrupted", released the
buffer and consumed one byte, the first of its serial input, and has then
passed that byte to `serialHandler`, whose result is its result. -/
theorem cancelling_byte (P : Platform) (fuel : Nat) (s : State) (b : Nat) (rest : List Nat) :
    serialHandler P (fuel + 1) 50 (withSerialGet (b :: rest) s)
      = (sweep fuel 0 0 0 (sweepEntry s)).map (sweepCancelled rest) ∧
    ∀ r, serialHandler P (fuel + 1) 114 s = Outcome.ok r →
      r = (malloc 64 s).2.emit (Event.serialWriteString (Str.getString 24)) ∨
      ∃ s2, s2.g = s.g ∧ s2.m = s.m ∧ s2.env.serialGet = s.env.serialGet ∧
        serialHandler P fuel (toChar P (s.env.serialGet.headD 0 % 256)) (randomCancelled s2)
          = Outcome.ok r :=
  ⟨sweepDiagnostic_eq P fuel s b rest, fun r h => randomAnimation_returns P fuel s r h⟩

/-- C5, example of the amended claim: a sweep cancelled by the byte 113 ends
as one cancelled by the byte 7 does. -/
theorem cancelling_byte_witness :
    serialHandler examplePlatform (2 + 1) 50
        (withSerialGet (113 :: []) (initialState examplePlatform (queuedByteEnv 0)))
      = serialHandler examplePlatform (2 + 1) 50
        (withSerialGet (7 :: []) (initialState examplePlatform (queuedByteEnv 0))) ∧
    ∃ r, serialHandler examplePlatform (2 + 1) 50
        (withSerialGet (113 :: []) (initialState examplePlatform (queuedByteEnv 0)))
      = Outcome.ok r :=
  ⟨(cancelling_byte examplePlatform 2 _ 113 []).1.trans
     (cancelling_byte examplePlatform 2 _ 7 []).1.symm, _, rfl⟩

/-- C5, counterexample: random-animation cancelled by the byte 'q' (113)
dispatches it, which sets `shouldRestart` and reports string 30; cancelled by
the byte 7 it answers with the error byte and leaves `shouldRestart` clear. -/
theorem cancelling_byte_counterexample :
    ∃ r1 r2,
      serialHandler examplePlatform 5 114 (initialState examplePlatform (queuedByteEnv 113))
        = Outcome.ok r1 ∧
      serialHandler examplePlatform 5 114 (initialState examplePlatform (queuedByteEnv 7))
        = Outcome.ok r2 ∧
      r1.g.shouldRestart = 1 ∧ r2.g.shouldRestart = 0 ∧
      r1.trace.getLast? = some (Event.serialWriteString (Str.getString 30)) ∧
      r2.trace.getLast? = some (Event.serialWrite ERROR) :=
  ⟨_, _, rfl, rfl, by decide, by decide, by decide, by decide⟩

/-- C6, as amended: with a byte queued on entry and the display reporting 0
ticks right after `setImage` and finished at the next poll, the sweep
diagnostic returns from its first busy-wait pass, whatever the byte is; and
random-animation (whose `malloc` succeeded) runs exactly one cycle, reports
"interrupted", releases its buffer once, consumes the byte and then calls
`serialHandler` on it, so that it returns exactly when that nested command
returns. -/
theorem queued_byte (P : Platform) (fuel : Nat) (s : State) (t0 t1 : Nat) (ts : List Nat)
    (hm : s.env.malloc.headD false = true) (hT : s.env.isFinished = t0 :: t1 :: ts)
    (h0 : t0 % 256 = 0) (h1 : t1 % 256 ≠ 0) (hq : s.env.serialHasChar.headD false = true) :
    (∃ r img, serialHandler P (fuel + 3) 50 s = Outcome.ok r ∧
      r.trace = s.trace ++
        [Event.fillBuffer 0, Event.setImage (Img.ram img), Event.isFinished,
         Event.wdt_reset, Event.serialHasChar, Event.serialGet,
         Event.serialWriteString (Str.getString 25)] ∧
      r.env.serialGet = s.env.serialGet.tail) ∧
    serialHandler P (fuel + 4) 114 s
      = serialHandler P (fuel + 3) (toChar P (s.env.serialGet.headD 0 % 256))
          (randomFirstCycle s ts) :=
  ⟨sweepDiagnostic_queued P fuel s (by rw [hT]; exact h0) hq,
   randomAnimation_queued P fuel s t0 t1 ts hm hT h0 h1 hq⟩

/-- C6, example of the amended claim: the queued byte 113. -/
theorem queued_byte_witness :
    (∃ r img, serialHandler examplePlatform (0 + 3) 50
        (initialState examplePlatform (queuedByteEnv 113)) = Outcome.ok r ∧
      r.trace = (initialState examplePlatform (queuedByteEnv 113)).trace ++
        [Event.fillBuffer 0, Event.setImage (Img.ram img), Event.isFinished,
         Event.wdt_reset, Event.serialHasChar, Event.serialGet,
         Event.serialWriteString (Str.getString 25)] ∧
      r.env.serialGet = (initialState examplePlatform (queuedByteEnv 113)).env.serialGet.tail) ∧
    serialHandler examplePlatform (0 + 4) 114 (initialState examplePlatform (queuedByteEnv 113))
      = serialHandler examplePlatform (0 + 3)
          (toChar examplePlatform
            ((initialState examplePlatform (queuedByteEnv 113)).env.serialGet.headD 0 % 256))
          (randomFirstCycle (initialState examplePlatform (queuedByteEnv 113)) []) :=
  queued_byte examplePlatform 0 (initialState examplePlatform (queuedByteEnv 113)) 0 1 []
    rfl rfl rfl (by decide) rfl

/-- C6, counterexample: with the byte 'x' (120) queued on entry and no
further input, random-animation dispatches that byte after its first cycle,
set-animation-count then waits for a byte that never comes, and the command
does not return, whatever the fuel. -/
theorem queued_byte_counterexample :
    decode (toChar examplePlatform 120) = Cmd.setAnimationCount ∧
    ∀ fuel : Nat,
      serialHandler examplePlatform fuel 114 (initialState examplePlatform (queuedByteEnv 120))
        = Outcome.outOfFuel :=
  ⟨by decide, randomAnimation_queued_x_diverges⟩

/-! ## The wrap law of the button state (C12) -/

/-- C12: for `1 ≤ maxButtonState` (an 8-bit value) and
`lastButtonState = n < maxButtonState`, `audioModeSelected` sets the state to
`(n + 1) mod maxButtonState` when the button is sampled pushed (so to 0 when
`n = maxButtonState - 1`), leaves it unchanged when it is not pushed, returns
the new state, and leaves `maxButtonState` as it is. -/
theorem button_wrap (s : State) (h1 : 1 ≤ s.g.maxButtonState) (h8 : s.g.maxButtonState < 256)
    (hn : s.g.lastButtonState < s.g.maxButtonState) :
    (buttonPressed s → (audioModeSelected s).2.g.lastButtonState
        = (s.g.lastButtonState + 1) % s.g.maxButtonState) ∧
    (buttonPressed s → s.g.lastButtonState = s.g.maxButtonState - 1 →
      (audioModeSelected s).2.g.lastButtonState = 0) ∧
    (¬ buttonPressed s → (audioModeSelected s).2.g.lastButtonState = s.g.lastButtonState) ∧
    (audioModeSelected s).1 = (audioModeSelected s).2.g.lastButtonState ∧
    (audioModeSelected s).2.g.maxButtonState = s.g.maxButtonState := by
  have key : buttonPressed s → (audioModeSelected s).2.g.lastButtonState
      = (s.g.lastButtonState + 1) % s.g.maxButtonState := by
    intro hp
    unfold buttonPressed at hp
    unfold audioModeSelected
    simp only [hp, if_true]
    by_cases hlt : (s.g.lastButtonState : Int) < (s.g.maxButtonState : Int) - 1
    · have e : ((readPINB s).2.g.lastButtonState : Int) < ((readPINB s).2.g.maxButtonState : Int) - 1 :=
        hlt
      simp only [e, if_true]
      show (s.g.lastButtonState + 1) % 256 = _
      have h2 : s.g.lastButtonState + 1 < s.g.maxButtonState := by omega
      rw [Nat.mod_eq_of_lt h2, Nat.mod_eq_of_lt (by omega)]
    · have e : ¬ ((readPINB s).2.g.lastButtonState : Int) < ((readPINB s).2.g.maxButtonState : Int) - 1 :=
        hlt
      simp only [e, if_false]
      show 0 = _
      have h2 : s.g.lastButtonState + 1 = s.g.maxButtonState := by omega
      rw [h2, Nat.mod_self]
  refine ⟨key, ?_, ?_, ?_, ?_⟩
  · intro hp he
    rw [key hp, he, Nat.sub_add_cancel h1, Nat.mod_self]
  · intro hp
    unfold buttonPressed at hp
    unfold audioModeSelected
    simp only [hp, if_false]
    rfl
  · rfl
  · unfold audioModeSelected
    simp only []
    split
    · split <;> rfl
    · rfl

/-- C12, example: with eight button states, a push in state 7 gives state 0. -/
theorem button_wrap_witness :
    (audioModeSelected { playbackState with
        g := { playbackState.g with lastButtonState := 7 }
        env := { Env.quiet with PINB := [0] } }).2.g.lastButtonState = 0 :=
  (button_wrap { playbackState with
        g := { playbackState.g with lastButtonState := 7 }
        env := { Env.quiet with PINB := [0] } } (by decide) (by decide) (by decide)).2.1
    (by unfold buttonPressed; decide) (by decide)

/-! ## An absent frame in stored playback (C13) -/

/-- The stored-playback branch reads `imageData[64]` without testing the
pointer: when the tick is due and `getFrame` answers `NULL`, the step is a
`NULL` dereference. -/
theorem playbackStep_null (s : State) (hdue : s.m.length < s.env.isFinished.headD 0 % 256)
    (hnull : s.env.getFrame.headD none = none) : playbackStep s = Outcome.nullDeref := by
  unfold playbackStep
  simp only [isFinished, getFrame, gt_iff_lt, hdue, if_true]
  by_cases hlt : s.m.i < (if s.m.count = 0 then 65535 else s.m.count - 1)
  · simp only [hlt, if_true, hnull]
  · simp only [hlt, if_false, hnull]

/-- C13, the code at the failing input: in stored playback with the tick due
and the store answering `NULL`, the mode step and with it the main-loop
iteration end in the dereference of the `NULL` pointer (`imageData[64]`); the
tick is not skipped. -/
theorem absent_frame_dereferenced :
    nullFrameState.g.lastButtonState = 0 ∧ nullFrameState.m.count = 3 ∧
    nullFrameState.env.getFrame = [none] ∧
    modeStep examplePlatform nullFrameState = Outcome.nullDeref ∧
    mainLoopBody examplePlatform 1 nullFrameState = Outcome.nullDeref := by
  decide

/-! ## Mode priority (C14) -/

theorem audioStep_eq (s : State) (h8 : s.g.lastButtonState < 256) :
    (audioStep s).g = s.g ∧ (audioStep s).m = s.m ∧
    (audioStep s).env.getFrame = s.env.getFrame ∧
    (audioStep s).trace = s.trace ++ audioEvents s := by
  have hm : (s.g.lastButtonState - 1) % 256 = s.g.lastButtonState - 1 :=
    Nat.mod_eq_of_lt (by omega)
  unfold audioStep audioEvents
  simp only [isFinished, getAudioData]
  by_cases ht : s.env.isFinished.headD 0 % 256 ≠ 0
  · simp only [ht, if_true, ne_eq, not_false_eq_true]
    cases ha : s.env.getAudioData.headD none with
    | none => simp only [List.append_assoc, List.cons_append, List.nil_append, and_self]
    | some d =>
      simp only [emit_g, emit_m, emit_env, emit_trace, hm, List.append_assoc, List.cons_append,
        List.nil_append, and_self]
  · simp only [ht, if_false, and_self]

theorem playbackStep_idle (s s' : State) (h : playbackStep s = Outcome.ok s') :
    s'.m.idleCounter = s.m.idleCounter ∧ s'.g = s.g ∧
    ∃ ev, s'.trace = s.trace ++ ev ∧ ∀ e ∈ ev, isIdleAction e = false := by
  unfold playbackStep at h
  simp only [isFinished, getFrame] at h
  split at h
  · split at h
    · simp at h
    · injection h with h; subst h
      refine ⟨?_, ?_, ?_⟩
      · simp only [emit_m, apply_ite State.m, apply_ite Locals.idleCounter, ite_self]
      · simp only [emit_g, apply_ite State.g, ite_self]
      · rename_i d _
        exact ⟨[Event.isFinished,
            Event.getFrame (if s.m.i < (if s.m.count = 0 then 65535 else s.m.count - 1)
              then (s.m.i + 1) % 256 else 0),
            Event.setImage (Img.ram d),
            Event.free (Ptr.frame (if s.m.i < (if s.m.count = 0 then 65535 else s.m.count - 1)
              then (s.m.i + 1) % 256 else 0))],
          by
            simp only [emit_trace, emit_m, apply_ite State.trace, apply_ite State.m,
              apply_ite Locals.i, ite_self, List.append_assoc, List.cons_append,
              List.nil_append],
          by
            intro e he
            simp only [List.mem_cons, List.mem_singleton, List.mem_nil_iff, or_false] at he
            rcases he with he | he | he | he <;> subst he <;> rfl⟩
  · injection h with h; subst h
    exact ⟨rfl, rfl, [Event.isFinished], rfl, by
      intro e he
      simp only [List.mem_singleton] at he
      subst he; rfl⟩

theorem refreshStep_idle (s : State) :
    (refreshStep s).m.idleCounter = s.m.idleCounter ∧
    (refreshStep s).g.DebugDone = s.g.DebugDone ∧
    (refreshStep s).g.lastButtonState = s.g.lastButtonState ∧
    ∃ ev, (refreshStep s).trace = s.trace ++ ev ∧ ∀ e ∈ ev, isIdleAction e = false := by
  unfold refreshStep
  simp only [getAnimationCount]
  split
  · exact ⟨rfl, rfl, rfl, [Event.getAnimationCount], rfl, by
      intro e he
      simp only [List.mem_singleton] at he
      subst he; rfl⟩
  · exact ⟨rfl, rfl, rfl, [], by simp, by simp⟩

/-- C14: with `lastButtonState = n > 0` (an 8-bit value) the mode step makes
only the calls of the audio branch, so it fetches no stored frame and runs no
idle action, it leaves all variables unchanged (playback index, remembered
duration, idle counter, `DebugDone`), and it renders variant `n - 1` exactly
when the display reports finished and audio data is present; with
`lastButtonState = 0` and a count above 0 after the refresh step, a mode step
that returns made no idle action and left the idle counter and `DebugDone`
unchanged. -/
theorem mode_priority (P : Platform) (s : State) :
    (1 ≤ s.g.lastButtonState → s.g.lastButtonState < 256 →
      ∃ s', modeStep P s = Outcome.ok s' ∧ s'.g = s.g ∧ s'.m = s.m ∧
        s'.env.getFrame = s.env.getFrame ∧ s'.trace = s.trace ++ audioEvents s) ∧
    (s.g.lastButtonState = 0 → 0 < (refreshStep s).m.count →
      ∀ s', modeStep P s = Outcome.ok s' →
        s'.m.idleCounter = s.m.idleCounter ∧ s'.g.DebugDone = s.g.DebugDone ∧
        ∃ ev, s'.trace = s.trace ++ ev ∧ ∀ e ∈ ev, isIdleAction e = false) := by
  constructor
  · intro h1 h8
    refine ⟨audioStep s, ?_, audioStep_eq s h8⟩
    unfold modeStep
    simp only [ge_iff_le, h1, if_true]
  · intro h0 hc s' h
    unfold modeStep at h
    have hn : ¬ s.g.lastButtonState ≥ 1 := by omega
    simp only [hn, if_false, gt_iff_lt, hc, if_true] at h
    obtain ⟨a1, a2, ev1, a3, a4⟩ := playbackStep_idle _ _ h
    obtain ⟨b1, b2, _, ev0, b3, b4⟩ := refreshStep_idle s
    refine ⟨a1.trans b1, (congrArg Globals.DebugDone a2).trans b2, ev0 ++ ev1, ?_, ?_⟩
    · rw [a3, b3, List.append_assoc]
    · intro e he
      rcases List.mem_append.mp he with he | he
      · exact b4 e he
      · exact a4 e he

/-- C14, example: in the audio state of the examples the mode step renders
variant 0, and in the playback state it runs no idle action. -/
theorem mode_priority_witness :
    (∃ s', modeStep examplePlatform suppressedAudioState = Outcome.ok s' ∧
      s'.g = suppressedAudioState.g ∧ s'.m = suppressedAudioState.m ∧
      s'.env.getFrame = suppressedAudioState.env.getFrame ∧
      s'.trace = suppressedAudioState.trace ++ audioEvents suppressedAudioState) ∧
    (∃ s', modeStep examplePlatform playbackState = Outcome.ok s' ∧
        s'.m.idleCounter = playbackState.m.idleCounter ∧
        s'.g.DebugDone = playbackState.g.DebugDone ∧
        ∃ ev, s'.trace = playbackState.trace ++ ev ∧ ∀ e ∈ ev, isIdleAction e = false) :=
  ⟨(mode_priority examplePlatform suppressedAudioState).1 (by decide) (by decide),
   ⟨_, rfl, (mode_priority examplePlatform playbackState).2 rfl (by decide) _ rfl⟩⟩

/-! ## The sub-loops and the watchdog (C15) -/

/-- The busy wait of `randomAnimation` only asks the display: it neither
services the watchdog nor polls the serial input. -/
theorem randomWait_trace : ∀ (fuel : Nat) (s s' : State),
    randomWait fuel s = Outcome.ok s' →
      ∃ k, s'.trace = s.trace ++ List.replicate k Event.isFinished := by
  intro fuel
  induction fuel with
  | zero => intro s s' h; simp [randomWait] at h
  | succ n ih =>
    intro s s' h
    simp only [randomWait] at h
    split at h
    · obtain ⟨k, hk⟩ := ih _ _ h
      refine ⟨k + 1, ?_⟩
      rw [hk]
      simp only [isFinished, List.replicate_succ, List.append_assoc, List.singleton_append]
    · injection h with h; subst h
      exact ⟨1, rfl⟩

/-- C15, the code at the failing input: random-animation with a display
that reports 0 ticks three times before it reports finished.  Between the
two `setImage` calls the busy wait asks the display four times without any
`wdt_reset` and without any poll of the serial input; the input is polled
once per cycle, after the wait, and the watchdog is not serviced at all
during the command. -/
theorem random_animation_starves_watchdog :
    (serialHandler examplePlatform 8 114 (initialState examplePlatform slowDisplayEnv)).trace
      = [Event.malloc 64, Event.setImage (Img.ram (List.replicate 64 0)),
         Event.isFinished, Event.isFinished, Event.isFinished, Event.isFinished,
         Event.rand, Event.rand, Event.rand, Event.serialHasChar,
         Event.setImage (Img.ram (List.replicate 17 0 ++ 8 :: List.replicate 46 0)),
         Event.isFinished, Event.isFinished, Event.rand, Event.rand, Event.rand,
         Event.serialHasChar, Event.serialWriteString (Str.getString 25),
         Event.free Ptr.randomBuffer, Event.serialGet, Event.serialWrite ERROR] ∧
    Event.wdt_reset ∉
      (serialHandler examplePlatform 8 114 (initialState examplePlatform slowDisplayEnv)).trace := by
  decide

/-! ## The canned idle frames (C17) -/

/-- C17, the code at the failing input: from the canned idle phase with
counter 0, `IDLEANIMATIONCOUNT = 3` and every tick due, four successive
iterations show `idleAnimation[0]`, `[1]`, `[2]` and `[3]`; the index 3 is not
below `IDLEANIMATIONCOUNT`, and the flip to the procedural phase (bit 1 of
`DebugDone`) happens on the tick that shows index 3, not on the one that
shows index 2. -/
theorem canned_idle_index_past_end :
    examplePlatform.IDLEANIMATIONCOUNT = 3 ∧
    (mainLoop examplePlatform 0 4 idleCannedState).trace.filter isIdleAction
      = [Event.setImage (Img.idleAnimation 0), Event.setImage (Img.idleAnimation 1),
         Event.setImage (Img.idleAnimation 2), Event.setImage (Img.idleAnimation 3)] ∧
    (∃ s3, mainLoop examplePlatform 0 3 idleCannedState = Outcome.ok s3 ∧
      s3.g.DebugDone &&& 2 = 0 ∧ s3.m.idleCounter = 3) ∧
    (∃ s4, mainLoop examplePlatform 0 4 idleCannedState = Outcome.ok s4 ∧
      s4.g.DebugDone &&& 2 = 2 ∧ s4.m.idleCounter = 0) :=
  ⟨rfl, by decide, ⟨_, rfl, by decide, by decide⟩, ⟨_, rfl, by decide, by decide⟩⟩

/-! ## printTime (C20) -/

/-- C20, the code at the failing input: with the uptime 1005 ms at every
read, `printTime` prints the seconds as "1", ".", "0", "5" and "s)", that is
1.05 and not 1.005: after `itoa(5)` the byte `buffer[2]` still holds the '0'
from the earlier conversion of 1005, so only one padding zero is written. -/
theorem print_time_1005 :
    (printTime (initialState examplePlatform (uptimeEnv 1005))).trace
      = [Event.serialWriteString (Str.getString 14), Event.getSystemTime,
         Event.serialWriteString (Str.text [49, 48, 48, 53]),
         Event.serialWriteString (Str.text [109, 115]),
         Event.getSystemTime, Event.getSystemTime,
         Event.serialWriteString (Str.text [32, 40]), Event.getSystemTime,
         Event.serialWriteString (Str.text [49]), Event.getSystemTime,
         Event.serialWrite 46, Event.serialWrite 48,
         Event.serialWriteString (Str.text [53]),
         Event.serialWriteString (Str.text [115, 41, 10])] := by
  decide

/-! ## Playback of a store of more than 256 frames (C18) -/

/-- The playback index is stored in eight bits: whatever the count, the next
index is below 256. -/
theorem nextIndex_lt (i n : Nat) : nextIndex i n < 256 := by
  unfold nextIndex
  split_ifs <;> omega

/-- No index of a playback order reaches 256. -/
theorem playbackOrder_lt (n : Nat) : ∀ (k i : Nat), ∀ x ∈ playbackOrder n k i, x < 256 := by
  intro k
  induction k with
  | zero => intro i x hx; simp [playbackOrder] at hx
  | succ k ih =>
    intro i x hx
    simp only [playbackOrder, List.mem_cons] at hx
    rcases hx with rfl | hx
    · exact nextIndex_lt i n
    · exact ih _ x hx

/-- Dark frames of duration 0 with ticks that report 1 are all due. -/
theorem dueRun_dark : ∀ (k : Nat),
    DueRun k 0 (List.replicate k 1) (List.replicate k (some (darkFrame 0))) := by
  intro k
  induction k with
  | zero => trivial
  | succ k ih =>
    have hd : (darkFrame 0).getD 64 0 % 256 = 0 := by decide
    rw [List.replicate_succ, List.replicate_succ]
    show 0 < 1 % 256 ∧ DueRun k ((darkFrame 0).getD 64 0 % 256) _ _
    rw [hd]
    exact ⟨by decide, ih⟩

set_option maxRecDepth 100000 in
/-- C18, the code at the failing input: a cached count of 257 and 257 due
ticks from index 0.  The loop completes and fetches the indices of
`playbackOrder 257 257 0`, which are all below 256: frame 256 is never
fetched, the index wraps from 255 to 0 through the eight-bit increment and
frame 1 is fetched a second time instead. -/
theorem wide_store_playback :
    ∃ s', mainLoop examplePlatform 0 257 wideStoreState = Outcome.ok s' ∧
      fetched s'.trace = playbackOrder 257 257 0 ∧
      256 ∉ fetched s'.trace ∧
      (∀ x ∈ fetched s'.trace, x < 256) ∧
      (fetched s'.trace).count 1 = 2 ∧
      (fetched s'.trace).length = 257 := by
  have hu : Undisturbed wideStoreState := by
    constructor <;> intro _ h <;> cases h
  obtain ⟨s', h1, h2⟩ :=
    mainLoop_playback examplePlatform 0 257 wideStoreState rfl rfl (by decide)
      (dueRun_dark 257) hu
  have h3 : fetched s'.trace = playbackOrder 257 257 0 := by
    rw [h2]; rfl
  refine ⟨s', h1, h3, ?_, ?_, ?_, ?_⟩
  · intro h
    rw [h3] at h
    exact absurd (playbackOrder_lt 257 257 0 256 h) (by decide)
  · rw [h3]; exact playbackOrder_lt 257 257 0
  · rw [h3]; decide
  · rw [h3]; decide

/-! ## The buffer of random-animation (C19) -/

theorem byte_toggle_lt (v z : Nat) (hv : v < 256) (hz : z < 8) : v ^^^ (1 <<< z) < 256 := by
  have h1 : 1 <<< z < 2 ^ 8 := by
    rw [Nat.one_shiftLeft]
    exact Nat.pow_lt_pow_right (by decide) hz
  exact Nat.xor_lt_two_pow (show v < 2 ^ 8 from hv) h1

/-- Flipping the value of a predicate at one member of a list without
repetition changes the parity of the count. -/
theorem countP_flip (f : Nat → Bool) (z : Nat) : ∀ (l : List Nat), l.Nodup → z ∈ l →
    l.countP (fun j => xor (f j) (decide (z = j))) % 2 = (l.countP f + 1) % 2 := by
  intro l
  induction l with
  | nil => intro _ h; cases h
  | cons a t ih =>
    intro hnd hz
    rw [List.nodup_cons] at hnd
    rw [List.countP_cons, List.countP_cons]
    by_cases hza : z = a
    · subst hza
      have ht : t.countP (fun j => xor (f j) (decide (z = j))) = t.countP f := by
        apply List.countP_congr
        intro j hj
        have hne : z ≠ j := fun h => hnd.1 (h ▸ hj)
        simp [hne]
      rw [ht]
      cases hf : f z
      · simp
      · simp
        omega
    · have hzt : z ∈ t := by
        rcases List.mem_cons.mp hz with h | h
        · exact absurd h hza
        · exact h
      have := ih hnd.2 hzt
      cases hf : f a <;> simp [hza] <;> omega

theorem byte_toggle_parity (v z : Nat) (hz : z < 8) :
    byteBits (v ^^^ (1 <<< z)) % 2 = (byteBits v + 1) % 2 := by
  unfold byteBits
  rw [Nat.one_shiftLeft]
  simp only [Nat.testBit_xor, Nat.testBit_two_pow]
  exact countP_flip _ z _ (List.nodup_range 8) (List.mem_range.mpr hz)

theorem setBits_set : ∀ (b : List Nat) (i w : Nat), i < b.length →
    setBits (b.set i w) + byteBits (b.getD i 0) = setBits b + byteBits w := by
  intro b
  induction b with
  | nil => intro i w h; cases h
  | cons a t ih =>
    intro i w h
    cases i with
    | zero =>
      simp only [setBits, List.set_cons_zero, List.map_cons, List.sum_cons, List.getD_cons_zero]
      omega
    | succ i =>
      have := ih i w (Nat.lt_of_succ_lt_succ h)
      simp only [setBits, List.set_cons_succ, List.map_cons, List.sum_cons,
        List.getD_cons_succ] at this ⊢
      omega

theorem getD_lt_of_bytes (b : List Nat) (hb : ∀ v ∈ b, v < 256) (i : Nat) :
    b.getD i 0 < 256 := by
  rw [List.getD_eq_getElem?_getD]
  cases h : b[i]? with
  | none => simp
  | some v =>
    obtain ⟨hlt, hget⟩ := List.getElem?_eq_some.mp h
    exact hb v (hget ▸ List.getElem_mem hlt)

/-- One cycle from in-range results of `rand()`: the write is inside the
buffer, the buffer stays 64 bytes, and the parity of the set bits flips. -/
theorem randomToggle_step (b : List Nat) (r1 r2 r3 : Nat)
    (hlen : b.length = 64) (hb : ∀ v ∈ b, v < 256)
    (h1 : r1 ≤ 32767) (h2 : r2 ≤ 32767) (h3 : r3 ≤ 32767) :
    randomToggle b r1 r2 r3
        = b.set (r1 / 4096 + 8 * (r2 / 4096))
            (b.getD (r1 / 4096 + 8 * (r2 / 4096)) 0 ^^^ (1 <<< (r3 / 4096))) ∧
      (randomToggle b r1 r2 r3).length = 64 ∧
      (∀ v ∈ randomToggle b r1 r2 r3, v < 256) ∧
      setBits (randomToggle b r1 r2 r3) % 2 = (setBits b + 1) % 2 := by
  have hi : r1 / 4096 + 8 * (r2 / 4096) < b.length := by omega
  have hz : r3 / 4096 < 8 := by omega
  have hv := getD_lt_of_bytes b hb (r1 / 4096 + 8 * (r2 / 4096))
  have hx := byte_toggle_lt _ _ hv hz
  have he : randomToggle b r1 r2 r3
        = b.set (r1 / 4096 + 8 * (r2 / 4096))
            (b.getD (r1 / 4096 + 8 * (r2 / 4096)) 0 ^^^ (1 <<< (r3 / 4096))) := by
    unfold randomToggle
    simp only [Nat.mod_eq_of_lt hx]
  refine ⟨he, ?_, ?_, ?_⟩
  · rw [he, List.length_set, hlen]
  · intro v hm
    rw [he] at hm
    rcases List.mem_or_eq_of_mem_set hm with h | h
    · exact hb v h
    · rw [h]; exact hx
  · rw [he]
    have hs := setBits_set b _ (b.getD (r1 / 4096 + 8 * (r2 / 4096)) 0 ^^^ (1 <<< (r3 / 4096))) hi
    have hp := byte_toggle_parity (b.getD (r1 / 4096 + 8 * (r2 / 4096)) 0) _ hz
    omega

theorem toggles_parity : ∀ (cycles : List (Nat × Nat × Nat)) (b : List Nat),
    b.length = 64 → (∀ v ∈ b, v < 256) →
    (∀ c ∈ cycles, c.1 ≤ 32767 ∧ c.2.1 ≤ 32767 ∧ c.2.2 ≤ 32767) →
    (toggles b cycles).length = 64 ∧ (∀ v ∈ toggles b cycles, v < 256) ∧
      setBits (toggles b cycles) % 2 = (setBits b + cycles.length) % 2 := by
  intro cycles
  induction cycles with
  | nil => intro b hlen hb _; exact ⟨hlen, hb, rfl⟩
  | cons c cs ih =>
    intro b hlen hb hr
    obtain ⟨r1, r2, r3⟩ := hr c (List.mem_cons_self _ _)
    obtain ⟨_, k1, k2, k3⟩ := randomToggle_step b c.1 c.2.1 c.2.2 hlen hb r1 r2 r3
    obtain ⟨j1, j2, j3⟩ := ih _ k1 k2 (fun c' hc' => hr c' (List.mem_cons_of_mem _ hc'))
    refine ⟨j1, j2, ?_⟩
    simp only [toggles, List.length_cons] at j3 ⊢
    omega

theorem shownBuffers_append : ∀ (xs ys : List Event),
    shownBuffers (xs ++ ys) = shownBuffers xs ++ shownBuffers ys := by
  intro xs ys
  induction xs with
  | nil => rfl
  | cons e es ih =>
    cases e with
    | setImage img => cases img <;> simp [shownBuffers, ih]
    | _ => simp [shownBuffers, ih]

theorem shownBuffers_isFinished (k : Nat) :
    shownBuffers (List.replicate k Event.isFinished) = [] := by
  induction k with
  | zero => rfl
  | succ k ih => rw [List.replicate_succ]; exact ih

/-- The buffers that the loop of `randomAnimation` hands to `setImage` are
the successive toggles of its starting buffer, by results of `rand()` that
lie in 0..32767, one per cycle, until a byte of input ends the loop. -/
theorem randomLoop_shows (P : Platform) (handler : Int → State → Outcome State) :
    ∀ (fuel : Nat) (b : List Nat) (s r : State),
      randomLoop P handler fuel b s = Outcome.ok r →
        ∃ (cycles : List (Nat × Nat × Nat)) (c : Int) (s2 : State),
          (∀ t ∈ cycles, t.1 ≤ 32767 ∧ t.2.1 ≤ 32767 ∧ t.2.2 ≤ 32767) ∧
          handler c s2 = Outcome.ok r ∧
          shownBuffers s2.trace = shownBuffers s.trace ++ toggleSeq b cycles := by
  intro fuel
  induction fuel with
  | zero => intro b s r h; simp [randomLoop] at h
  | succ n ih =>
    intro b s r h
    simp only [randomLoop] at h
    split at h
    · rename_i s1 hw
      obtain ⟨k, hk⟩ := randomWait_trace n _ _ hw
      have hr1 : (rand s1).1 ≤ 32767 := by
        have : (rand s1).1 < 32768 := Nat.mod_lt _ (by decide)
        omega
      have hr2 : (rand (rand s1).2).1 ≤ 32767 := by
        have : (rand (rand s1).2).1 < 32768 := Nat.mod_lt _ (by decide)
        omega
      have hr3 : (rand (rand (rand s1).2).2).1 ≤ 32767 := by
        have : (rand (rand (rand s1).2).2).1 < 32768 := Nat.mod_lt _ (by decide)
        omega
      have ht : shownBuffers (serialHasChar (rand (rand (rand s1).2).2).2).2.trace
          = shownBuffers s.trace ++ [b] := by
        simp only [serialHasChar, rand, hk, emit_trace, shownBuffers_append,
          shownBuffers_isFinished, shownBuffers, List.append_nil]
      split at h
      · refine ⟨[((rand s1).1, (rand (rand s1).2).1, (rand (rand (rand s1).2).2).1)], _, _,
          ?_, h, ?_⟩
        · intro t ht'
          rw [List.mem_singleton] at ht'
          subst ht'
          exact ⟨hr1, hr2, hr3⟩
        · simp only [emit_trace, serialGet, shownBuffers_append, shownBuffers, ht,
            List.append_nil, toggleSeq]
      · obtain ⟨cs, c, s2, j1, j2, j3⟩ := ih _ _ _ h
        refine ⟨((rand s1).1, (rand (rand s1).2).1, (rand (rand (rand s1).2).2).1) :: cs,
          c, s2, ?_, j2, ?_⟩
        · intro t ht'
          rcases List.mem_cons.mp ht' with h' | h'
          · subst h'; exact ⟨hr1, hr2, hr3⟩
          · exact j1 t h'
        · rw [j3, ht]
          simp only [toggleSeq, List.append_assoc, List.singleton_append]
    · simp at h
    · simp at h

theorem toggleSeq_parity : ∀ (cycles : List (Nat × Nat × Nat)) (b : List Nat),
    b.length = 64 → (∀ v ∈ b, v < 256) →
    (∀ c ∈ cycles, c.1 ≤ 32767 ∧ c.2.1 ≤ 32767 ∧ c.2.2 ≤ 32767) →
    ∀ (j : Nat) (shown : List Nat), (toggleSeq b cycles)[j]? = some shown →
      shown.length = 64 ∧ setBits shown % 2 = (setBits b + j) % 2 := by
  intro cycles
  induction cycles with
  | nil => intro b _ _ _ j shown h; simp [toggleSeq] at h
  | cons c cs ih =>
    intro b hlen hb hr j shown h
    cases j with
    | zero =>
      simp only [toggleSeq, List.getElem?_cons_zero, Option.some.injEq] at h
      subst h
      exact ⟨hlen, rfl⟩
    | succ j =>
      simp only [toggleSeq, List.getElem?_cons_succ] at h
      obtain ⟨r1, r2, r3⟩ := hr c (List.mem_cons_self _ _)
      obtain ⟨_, k1, k2, k3⟩ := randomToggle_step b c.1 c.2.1 c.2.2 hlen hb r1 r2 r3
      obtain ⟨j1, j2⟩ := ih _ k1 k2 (fun c' hc' => hr c' (List.mem_cons_of_mem _ hc')) j shown h
      refine ⟨j1, ?_⟩
      omega

/-- C19: in `randomAnimation`, for results of `rand()` in 0..32767 and a
buffer of 64 bytes, the byte index `x + 8 * y` is at most 63 and the bit number
`z` at most 7; the cycle leaves the buffer 64 bytes long and toggles exactly
bit `z` of byte `x + 8 * y`, every other bit of the buffer keeping its value;
from the zeroed buffer the number of set bits after the listed cycles has the
parity of their number; and in every run of the command that returns, the
buffers handed to `setImage` are these successive toggles, the one shown in
cycle `j` (counted from 0) having `j mod 2` as the parity of its set bits. -/
theorem random_toggle_one_bit (b : List Nat) (r1 r2 r3 : Nat)
    (hlen : b.length = 64) (hb : ∀ v ∈ b, v < 256)
    (h1 : r1 ≤ 32767) (h2 : r2 ≤ 32767) (h3 : r3 ≤ 32767) :
    r1 / 4096 + 8 * (r2 / 4096) ≤ 63 ∧ r3 / 4096 ≤ 7 ∧
    (randomToggle b r1 r2 r3).length = 64 ∧
    (∀ j bit, ((randomToggle b r1 r2 r3).getD j 0).testBit bit
        = xor ((b.getD j 0).testBit bit)
            (decide (j = r1 / 4096 + 8 * (r2 / 4096) ∧ bit = r3 / 4096))) ∧
    (∀ cycles : List (Nat × Nat × Nat),
        (∀ c ∈ cycles, c.1 ≤ 32767 ∧ c.2.1 ≤ 32767 ∧ c.2.2 ≤ 32767) →
        setBits (toggles (List.replicate 64 0) cycles) % 2 = cycles.length % 2) ∧
    (∀ (P : Platform) (handler : Int → State → Outcome State) (fuel : Nat) (s r : State),
        randomAnimation P handler fuel s = Outcome.ok r →
        r = (malloc 64 s).2.emit (Event.serialWriteString (Str.getString 24)) ∨
        ∃ (cycles : List (Nat × Nat × Nat)) (c : Int) (s2 : State),
          handler c s2 = Outcome.ok r ∧
          shownBuffers s2.trace
            = shownBuffers s.trace ++ toggleSeq (List.replicate 64 0) cycles ∧
          ∀ (j : Nat) (shown : List Nat),
            (toggleSeq (List.replicate 64 0) cycles)[j]? = some shown →
              shown.length = 64 ∧ setBits shown % 2 = j % 2) := by
  have hzl : (List.replicate 64 0).length = 64 := List.length_replicate _ _
  have hzb : ∀ v ∈ List.replicate 64 0, v < 256 := by
    intro v hv
    rw [List.eq_of_mem_replicate hv]
    decide
  have hz0 : setBits (List.replicate 64 0) = 0 := by decide
  obtain ⟨he, k1, _, _⟩ := randomToggle_step b r1 r2 r3 hlen hb h1 h2 h3
  have hi : r1 / 4096 + 8 * (r2 / 4096) < b.length := by omega
  refine ⟨by omega, by omega, k1, ?_, ?_, ?_⟩
  · intro j bit
    rw [he, List.getD_eq_getElem?_getD, List.getD_eq_getElem?_getD, List.getElem?_set]
    by_cases hj : r1 / 4096 + 8 * (r2 / 4096) = j
    · subst hj
      simp only [if_true, hi, Option.getD_some, Nat.testBit_xor, Nat.one_shiftLeft,
        Nat.testBit_two_pow, true_and, List.getD_eq_getElem?_getD]
      by_cases hb' : r3 / 4096 = bit
      · simp [hb']
      · have : ¬ bit = r3 / 4096 := fun h => hb' h.symm
        simp [hb', this]
    · have : ¬ j = r1 / 4096 + 8 * (r2 / 4096) := fun h => hj h.symm
      simp [hj, this]
  · intro cycles hr
    have := (toggles_parity cycles _ hzl hzb hr).2.2
    rw [hz0, Nat.zero_add] at this
    exact this
  · intro P handler fuel s r h
    simp only [randomAnimation] at h
    split at h
    · injection h with h; exact Or.inl h.symm
    · obtain ⟨cycles, c, s2, j1, j2, j3⟩ := randomLoop_shows P handler _ _ _ _ h
      refine Or.inr ⟨cycles, c, s2, j2, ?_, ?_⟩
      · rw [j3]
        simp only [malloc, shownBuffers_append, shownBuffers, List.append_nil]
      · intro j shown hs
        have := toggleSeq_parity cycles _ hzl hzb j1 j shown hs
        rw [hz0, Nat.zero_add] at this
        exact this

/-- C19, example: from the zeroed buffer the results 4096, 8192, 12288 give
`x = 1`, `y = 2`, `z = 3`, so the cycle sets bit 3 of byte 17 and one bit is
set after it. -/
theorem random_toggle_one_bit_witness :
    ((randomToggle (List.replicate 64 0) 4096 8192 12288).getD 17 0).testBit 3 = true ∧
    setBits (toggles (List.replicate 64 0) [(4096, 8192, 12288)]) % 2 = 1 :=
  have h := random_toggle_one_bit (List.replicate 64 0) 4096 8192 12288 (by decide)
    (by decide) (by decide) (by decide) (by decide)
  ⟨(h.2.2.2.1 17 3).trans (by decide), h.2.2.2.2.1 [(4096, 8192, 12288)] (by decide)⟩

/-! ## The idle machine (C16) -/

theorem or_and_bits (d a b : Nat) : (d ||| a) &&& b = (d &&& b) ||| (a &&& b) :=
  Nat.and_distrib_right _ _ _

theorem or_and_self_bits (d b : Nat) : (d ||| b) &&& b = b := by
  apply Nat.eq_of_testBit_eq
  intro i
  rw [Nat.testBit_and, Nat.testBit_or]
  cases d.testBit i <;> cases b.testBit i <;> rfl

theorem modeActions_append (a b : List Event) :
    modeActions (a ++ b) = modeActions a ++ modeActions b := by
  unfold modeActions
  exact List.filter_append _ _

theorem watchdogStep_idleView (s : State) :
    idleView (watchdogStep s) = idleView s ∧ (watchdogStep s).env = s.env := by
  unfold watchdogStep
  split <;> simp [idleView, State.emit, modeActions_append, modeActions, isModeAction]

theorem heartbeatStep_idleView (s : State) :
    idleView (heartbeatStep s) = idleView s ∧
    (heartbeatStep s).env.serialHasChar = s.env.serialHasChar ∧
    (heartbeatStep s).env.PINB = s.env.PINB := by
  have h2 : (s.g.DebugDone ||| 1) &&& 2 = s.g.DebugDone &&& 2 := by
    rw [or_and_bits]; exact Nat.or_zero _
  have h4 : (s.g.DebugDone ||| 1) &&& 4 = s.g.DebugDone &&& 4 := by
    rw [or_and_bits]; exact Nat.or_zero _
  unfold heartbeatStep
  simp only [getSystemTime, getTriggerCount, writeBufferString, ltoaBuffer, State.emit]
  split <;> simp [idleView, modeActions_append, modeActions, isModeAction, h2, h4]

theorem buttonStep_idleView (s : State) (hb : ∀ p ∈ s.env.PINB, p % 2 = 1) :
    idleView (buttonStep s) = idleView s ∧
    (buttonStep s).env.serialHasChar = s.env.serialHasChar ∧
    (∀ p ∈ (buttonStep s).env.PINB, p % 2 = 1) := by
  unfold buttonStep
  have hodd : ¬ (s.env.PINB.headD 255 % 256) % 2 = 0 := by
    cases hP : s.env.PINB with
    | nil => decide
    | cons p ps =>
      have := hb p (by simp [hP])
      simp only [List.headD_cons]
      omega
  have htail : ∀ p ∈ s.env.PINB.tail, p % 2 = 1 := fun p hp => hb p (List.mem_of_mem_tail hp)
  simp only [getSystemTime, audioModeSelected, readPINB, hodd, if_false]
  split
  · refine ⟨?_, rfl, htail⟩
    simp [idleView, modeActions, isModeAction]
  · refine ⟨?_, rfl, hb⟩
    simp [idleView, modeActions, isModeAction]

theorem serialStep_silent (P : Platform) (fuel : Nat) (s : State)
    (hq : ∀ b ∈ s.env.serialHasChar, b = false) :
    serialStep P fuel s = Outcome.ok (serialHasChar s).2 ∧
      (∀ b ∈ (serialHasChar s).2.env.serialHasChar, b = false) := by
  have hhead : s.env.serialHasChar.headD false = false := by
    cases hS : s.env.serialHasChar with
    | nil => rfl
    | cons b bs => simpa using hq b (by simp [hS])
  have htail : ∀ b ∈ s.env.serialHasChar.tail, b = false :=
    fun b hb => hq b (List.mem_of_mem_tail hb)
  refine ⟨?_, htail⟩
  unfold serialStep
  simp only [serialHasChar, hhead, Bool.false_eq_true, if_false]

theorem serialHasChar_idleView (s : State) :
    idleView (serialHasChar s).2 = idleView s ∧ (serialHasChar s).2.env.PINB = s.env.PINB := by
  simp [serialHasChar, idleView, modeActions_append, modeActions, isModeAction]

theorem refreshStep_idleView (s : State) (hc : (refreshStep s).m.count = 0) :
    idleView (refreshStep s) = (idleView s).settled ∧
    (refreshStep s).env.serialHasChar = s.env.serialHasChar ∧
    (refreshStep s).env.PINB = s.env.PINB := by
  unfold refreshStep at hc ⊢
  simp only [getAnimationCount] at hc ⊢
  split
  · rename_i hr
    rw [if_pos hr] at hc
    have hc : s.env.getAnimationCount.head?.getD 0 % 65536 = 0 := by simpa using hc
    simp [idleView, IdleView.settled, modeActions_append, modeActions, isModeAction, hc]
  · rename_i hr
    rw [if_neg hr] at hc
    have hr0 : s.g.refreshAnimationCount = 0 := by
      by_contra h; exact hr h
    simp [idleView, IdleView.settled, hc, hr0]

theorem idleStep_idleView (P : Platform) (s : State) :
    idleView (idleStep P s) = idleNext P (idleView s) ∧
    (idleStep P s).env.serialHasChar = s.env.serialHasChar ∧
    (idleStep P s).env.PINB = s.env.PINB := by
  have a2 : (s.g.DebugDone &&& 253) &&& 2 = 0 := by
    rw [Nat.and_assoc]; exact Nat.and_zero _
  have a4 : (s.g.DebugDone &&& 253) &&& 4 = s.g.DebugDone &&& 4 := by
    rw [Nat.and_assoc]; rfl
  have o2 : (s.g.DebugDone ||| 2) &&& 2 = 2 := by
    exact or_and_self_bits _ _
  have o4 : (s.g.DebugDone ||| 2) &&& 4 = s.g.DebugDone &&& 4 := by
    rw [or_and_bits]; exact Nat.or_zero _
  unfold idleStep idleNext
  simp only [isFinished, idleView]
  by_cases h4 : s.g.DebugDone &&& 4 = 0
  · simp only [h4, if_true]
    by_cases h2 : s.g.DebugDone &&& 2 ≠ 0
    · simp only [h2, if_true, ne_eq, not_false_eq_true]
      by_cases hn : s.m.idleCounter < P.numOfAnimations
      · simp [hn, h2, h4, modeActions, isModeAction]
      · simp [hn, h2, h4, modeActions, isModeAction, a2, a4]
    · have h2' : s.g.DebugDone &&& 2 = 0 := by
        by_contra h; exact h2 h
      simp only [h2', ne_eq, not_true_eq_false, if_false]
      by_cases hd : s.env.isFinished.headD 0 % 256 ≥ IDLELENGTH
      · simp only [hd, if_true]
        by_cases hk : s.m.idleCounter < P.IDLEANIMATIONCOUNT
        · simp [hk, h2', h4, modeActions, isModeAction]
        · simp [hk, h2', h4, modeActions, isModeAction, o2, o4]
      · simp only [hd, if_false]
        simp [h2', h4, modeActions, isModeAction]
  · simp [h4]

theorem watchdogStep_refresh (s : State) :
    (refreshStep (watchdogStep s)).m.count = (refreshStep s).m.count := by
  unfold watchdogStep
  split
  · unfold refreshStep
    simp only [getAnimationCount, emit_g, emit_m, emit_env]
    by_cases h : s.g.refreshAnimationCount ≠ 0
    · rw [if_pos h, if_pos h]
    · rw [if_neg h, if_neg h]; rfl
  · rfl

theorem mainLoopBody_idle (P : Platform) (fuel : Nat) (s : State)
    (hb : s.g.lastButtonState = 0) (hc : (refreshStep s).m.count = 0) (hu : Undisturbed s) :
    ∃ s', mainLoopBody P fuel s = Outcome.ok s' ∧
      idleView s' = idleNext P (idleView s).settled ∧ Undisturbed s' := by
  obtain ⟨hw, hwe⟩ := watchdogStep_idleView s
  have hcw : (refreshStep (watchdogStep s)).m.count = 0 := by
    rw [watchdogStep_refresh]; exact hc
  obtain ⟨r1, r2, r3⟩ := refreshStep_idleView (watchdogStep s) hcw
  obtain ⟨i1, i2, i3⟩ := idleStep_idleView P (refreshStep (watchdogStep s))
  have hm : modeStep P (watchdogStep s)
      = Outcome.ok (idleStep P (refreshStep (watchdogStep s))) := by
    have hbw : (watchdogStep s).g.lastButtonState = 0 := by
      rw [watchdogStep_g]; exact hb
    unfold modeStep
    have h1 : ¬ (watchdogStep s).g.lastButtonState ≥ 1 := by omega
    have h2 : ¬ (refreshStep (watchdogStep s)).m.count > 0 := by omega
    simp only [h1, h2, if_false]
  obtain ⟨q1, q2⟩ := serialStep_silent P fuel (idleStep P (refreshStep (watchdogStep s)))
    (by rw [i2, r2, hwe]; exact hu.1)
  obtain ⟨c1, c2⟩ := serialHasChar_idleView (idleStep P (refreshStep (watchdogStep s)))
  obtain ⟨v3, q3, p3⟩ := heartbeatStep_idleView
    (serialHasChar (idleStep P (refreshStep (watchdogStep s)))).2
  obtain ⟨v4, q4, p4⟩ := buttonStep_idleView
    (heartbeatStep (serialHasChar (idleStep P (refreshStep (watchdogStep s)))).2)
    (by rw [p3, c2, i3, r3, hwe]; exact hu.2)
  refine ⟨_, ?_, ?_, ?_, p4⟩
  · unfold mainLoopBody
    simp only [hm, q1]
  · rw [v4, v3, c1, i1, r1, hw]
  · rw [q4, q3]; exact q2

theorem idleNext_keeps (P : Platform) (v : IdleView) :
    (idleNext P v).lastButtonState = v.lastButtonState ∧
    (idleNext P v).refreshAnimationCount = v.refreshAnimationCount ∧
    (idleNext P v).count = v.count ∧ (idleNext P v).suppressed = v.suppressed := by
  unfold idleNext
  repeat' split
  all_goals exact ⟨rfl, rfl, rfl, rfl⟩

theorem settled_of_zero (v : IdleView) (h1 : v.refreshAnimationCount = 0) (h2 : v.count = 0) :
    v.settled = v := by
  cases v
  simp only [IdleView.settled] at h1 h2 ⊢
  subst h1; subst h2; rfl

theorem mainLoop_idle (P : Platform) (fuel : Nat) : ∀ (k : Nat) (s : State),
    s.g.lastButtonState = 0 → (refreshStep s).m.count = 0 → Undisturbed s →
    ∃ s', mainLoop P fuel k s = Outcome.ok s' ∧
      (idleView s').settled = (idleNext P)^[k] (idleView s).settled ∧ Undisturbed s' ∧
      s'.g.lastButtonState = 0 ∧ (refreshStep s').m.count = 0 := by
  intro k
  induction k with
  | zero => intro s hb hc hu; exact ⟨s, rfl, rfl, hu, hb, hc⟩
  | succ k ih =>
    intro s hb hc hu
    obtain ⟨s1, h1, v1, u1⟩ := mainLoopBody_idle P fuel s hb hc hu
    obtain ⟨k1, k2, k3, _⟩ := idleNext_keeps P (idleView s).settled
    rw [← v1] at k1 k2 k3
    have hb1 : s1.g.lastButtonState = 0 := k1.trans hb
    have hr1 : s1.g.refreshAnimationCount = 0 := k2
    have hc1 : s1.m.count = 0 := k3
    have hc1' : (refreshStep s1).m.count = 0 := by
      unfold refreshStep
      have : ¬ s1.g.refreshAnimationCount ≠ 0 := fun h => h hr1
      rw [if_neg this]; exact hc1
    obtain ⟨s', h2, v2, u2, b2, c2⟩ := ih s1 hb1 hc1' u1
    refine ⟨s', ?_, ?_, u2, b2, c2⟩
    · simp only [mainLoop, h1, h2]
    · rw [v2, settled_of_zero (idleView s1) hr1 hc1, v1, Function.iterate_succ_apply]

theorem idleNext_procedural (P : Platform) (hN : P.numOfAnimations ≤ 255) :
    ∀ (n : Nat) (v : IdleView), v.suppressed = 0 → v.selector ≠ 0 →
      v.idleCounter + n ≤ P.numOfAnimations →
      (idleNext P)^[n] v = { v with
        idleCounter := v.idleCounter + n,
        actions := v.actions ++ (List.range' v.idleCounter n).map Event.executeAnimation } := by
  intro n
  induction n with
  | zero => intro v _ _ _; simp
  | succ n ih =>
    intro v h4 h2 hle
    have hlt : v.idleCounter < P.numOfAnimations := by omega
    have hm : (v.idleCounter + 1) % 256 = v.idleCounter + 1 := Nat.mod_eq_of_lt (by omega)
    have hstep : idleNext P v = { v with
        idleCounter := v.idleCounter + 1,
        actions := v.actions ++ [Event.executeAnimation v.idleCounter] } := by
      unfold idleNext
      simp only [h4, h2, hlt, hm, if_true, ne_eq, not_false_eq_true]
    have key := ih { v with
        idleCounter := v.idleCounter + 1,
        actions := v.actions ++ [Event.executeAnimation v.idleCounter] } h4 h2
      (by simp only []; omega)
    rw [Function.iterate_succ_apply, hstep, key]
    simp only [List.range'_succ, List.map_cons, List.append_assoc, List.singleton_append,
      Nat.add_assoc, Nat.add_comm 1 n]

theorem idleNext_canned (P : Platform) (hK : P.IDLEANIMATIONCOUNT ≤ 255) :
    ∀ (n : Nat) (v : IdleView), v.suppressed = 0 → v.selector = 0 →
      v.idleCounter + n ≤ P.IDLEANIMATIONCOUNT → AllDue n v.isFinished →
      (idleNext P)^[n] v = { v with
        idleCounter := v.idleCounter + n,
        isFinished := v.isFinished.drop n,
        actions := v.actions ++
          (List.range' v.idleCounter n).map (fun j => Event.setImage (Img.idleAnimation j)) } := by
  intro n
  induction n with
  | zero => intro v _ _ _ _; simp
  | succ n ih =>
    intro v h4 h2 hle hd
    cases hT : v.isFinished with
    | nil => rw [hT] at hd; exact absurd hd (by simp [AllDue])
    | cons t ts =>
      rw [hT] at hd
      simp only [AllDue] at hd
      have hlt : v.idleCounter < P.IDLEANIMATIONCOUNT := by omega
      have hm : (v.idleCounter + 1) % 256 = v.idleCounter + 1 := Nat.mod_eq_of_lt (by omega)
      have hdue : t % 256 ≥ IDLELENGTH := hd.1
      have hstep : idleNext P v = { v with
          idleCounter := v.idleCounter + 1, isFinished := ts,
          actions := v.actions ++ [Event.setImage (Img.idleAnimation v.idleCounter)] } := by
        unfold idleNext
        simp only [h4, h2, hlt, hm, hT, List.headD_cons, hdue, List.tail_cons, if_true, ne_eq,
          not_true_eq_false, if_false]
      have key := ih { v with
          idleCounter := v.idleCounter + 1, isFinished := ts,
          actions := v.actions ++ [Event.setImage (Img.idleAnimation v.idleCounter)] } h4 h2
        (by simp only []; omega) hd.2
      rw [Function.iterate_succ_apply, hstep, key]
      simp only [List.range'_succ, List.map_cons, List.append_assoc, List.singleton_append,
        Nat.add_assoc, Nat.add_comm 1 n, List.drop_succ_cons]

theorem AllDue.pred : ∀ (n : Nat) (ts : List Nat), AllDue (n + 1) ts → AllDue n ts := by
  intro n
  induction n with
  | zero => intro ts _; trivial
  | succ n ih =>
    intro ts h
    cases ts with
    | nil => exact absurd h (by simp [AllDue])
    | cons t ts =>
      simp only [AllDue] at h ⊢
      exact ⟨h.1, ih ts h.2⟩

theorem AllDue.last : ∀ (n : Nat) (ts : List Nat), AllDue (n + 1) ts →
    IDLELENGTH ≤ (ts.drop n).headD 0 % 256 := by
  intro n
  induction n with
  | zero =>
    intro ts h
    cases ts with
    | nil => exact absurd h (by simp [AllDue])
    | cons t ts => exact h.1
  | succ n ih =>
    intro ts h
    cases ts with
    | nil => exact absurd h (by simp [AllDue])
    | cons t ts =>
      simp only [AllDue] at h
      exact ih ts h.2

/-- C16: with button state 0, an animation count in use of 0, bit 2 of
`DebugDone` clear, the idle counter at 0, no serial input and no button
press, and with `numOfAnimations()` and `IDLEANIMATIONCOUNT` in the range of
the 8-bit idle counter, the main loop alternates the two idle phases and its
mode actions are idle actions only.  From the procedural phase (bit 1 set)
with `N = numOfAnimations()`: for every `n ≤ N` the first `n` iterations call
`executeAnimation` with 0, ..., n-1 in that order and nothing else, and after
`N + 1` iterations the calls are still those for 0, ..., N-1, bit 1 is clear
and the counter is 0.  From the canned phase (bit 1 clear) with every tick
due: after `IDLEANIMATIONCOUNT + 1` iterations bit 1 is set and the counter is
0.  In both cases the conditions on button state, count and bit 2 hold again
at the end, so the alternation goes on. -/
theorem idle_alternation (P : Platform) (fuel : Nat) (s : State)
    (hN : P.numOfAnimations ≤ 255) (hK : P.IDLEANIMATIONCOUNT ≤ 255)
    (hb : s.g.lastButtonState = 0) (hc : (refreshStep s).m.count = 0)
    (h4 : s.g.DebugDone &&& 4 = 0) (hi : s.m.idleCounter = 0) (hu : Undisturbed s) :
    (s.g.DebugDone &&& 2 ≠ 0 →
      (∀ n ≤ P.numOfAnimations, ∃ sn, mainLoop P fuel n s = Outcome.ok sn ∧
        modeActions sn.trace
          = modeActions s.trace ++ (List.range n).map Event.executeAnimation) ∧
      ∃ s', mainLoop P fuel (P.numOfAnimations + 1) s = Outcome.ok s' ∧
        modeActions s'.trace
          = modeActions s.trace ++ (List.range P.numOfAnimations).map Event.executeAnimation ∧
        s'.g.DebugDone &&& 2 = 0 ∧ s'.m.idleCounter = 0 ∧
        s'.g.lastButtonState = 0 ∧ (refreshStep s').m.count = 0 ∧
        s'.g.DebugDone &&& 4 = 0 ∧ Undisturbed s') ∧
    (s.g.DebugDone &&& 2 = 0 → AllDue (P.IDLEANIMATIONCOUNT + 1) s.env.isFinished →
      ∃ s', mainLoop P fuel (P.IDLEANIMATIONCOUNT + 1) s = Outcome.ok s' ∧
        modeActions s'.trace
          = modeActions s.trace ++ (List.range (P.IDLEANIMATIONCOUNT + 1)).map
              (fun j => Event.setImage (Img.idleAnimation j)) ∧
        s'.g.DebugDone &&& 2 = 2 ∧ s'.m.idleCounter = 0 ∧
        s'.g.lastButtonState = 0 ∧ (refreshStep s').m.count = 0 ∧
        s'.g.DebugDone &&& 4 = 0 ∧ Undisturbed s') := by
  have v4 : (idleView s).settled.suppressed = 0 := h4
  have vi : (idleView s).settled.idleCounter = 0 := hi
  constructor
  · intro h2
    have v2 : (idleView s).settled.selector ≠ 0 := h2
    have run : ∀ n ≤ P.numOfAnimations, ∃ sn, mainLoop P fuel n s = Outcome.ok sn ∧
        (idleView sn).settled = { (idleView s).settled with
          idleCounter := n,
          actions := modeActions s.trace ++ (List.range n).map Event.executeAnimation } ∧
        Undisturbed sn ∧ sn.g.lastButtonState = 0 ∧ (refreshStep sn).m.count = 0 := by
      intro n hn
      obtain ⟨sn, r1, r2, r3, r4, r5⟩ := mainLoop_idle P fuel n s hb hc hu
      refine ⟨sn, r1, ?_, r3, r4, r5⟩
      rw [r2, idleNext_procedural P hN n _ v4 v2 (by rw [vi]; omega), vi, Nat.zero_add,
        List.range_eq_range']
      rfl
    refine ⟨fun n hn => ?_, ?_⟩
    · obtain ⟨sn, r1, r2, _⟩ := run n hn
      exact ⟨sn, r1, congrArg IdleView.actions r2⟩
    · obtain ⟨s', r1, r2, r3, r4, r5⟩ :=
        mainLoop_idle P fuel (P.numOfAnimations + 1) s hb hc hu
      have hv : (idleView s').settled = { (idleView s).settled with
          idleCounter := 0, selector := 0,
          actions := modeActions s.trace
            ++ (List.range P.numOfAnimations).map Event.executeAnimation } := by
        rw [r2, Function.iterate_succ_apply',
          idleNext_procedural P hN _ _ v4 v2 (by rw [vi]; omega), vi, Nat.zero_add,
          ← List.range_eq_range']
        unfold idleNext
        simp only [v4, v2, Nat.lt_irrefl, if_true, if_false, ne_eq, not_false_eq_true]
        rfl
      exact ⟨s', r1, congrArg IdleView.actions hv, congrArg IdleView.selector hv,
        congrArg IdleView.idleCounter hv, r4, r5,
        (congrArg IdleView.suppressed hv).trans h4, r3⟩
  · intro h2 hd
    have v2 : (idleView s).settled.selector = 0 := h2
    have hd0 : AllDue P.IDLEANIMATIONCOUNT (idleView s).settled.isFinished :=
      AllDue.pred _ _ hd
    have hlast : IDLELENGTH ≤
        ((idleView s).settled.isFinished.drop P.IDLEANIMATIONCOUNT).headD 0 % 256 :=
      AllDue.last _ _ hd
    obtain ⟨s', r1, r2, r3, r4, r5⟩ :=
      mainLoop_idle P fuel (P.IDLEANIMATIONCOUNT + 1) s hb hc hu
    have hv : (idleView s').settled = { (idleView s).settled with
        idleCounter := 0, selector := 2,
        isFinished := (s.env.isFinished.drop P.IDLEANIMATIONCOUNT).tail,
        actions := modeActions s.trace
          ++ (List.range (P.IDLEANIMATIONCOUNT + 1)).map
              (fun j => Event.setImage (Img.idleAnimation j)) } := by
      rw [r2, Function.iterate_succ_apply',
        idleNext_canned P hK _ _ v4 v2 (by rw [vi]; omega) hd0, vi, Nat.zero_add,
        ← List.range_eq_range']
      unfold idleNext
      have hge : ((idleView s).settled.isFinished.drop P.IDLEANIMATIONCOUNT).headD 0 % 256
          ≥ IDLELENGTH := hlast
      simp only [v4, v2, hge, Nat.lt_irrefl, if_true, if_false, ne_eq, not_true_eq_false,
        List.range_succ, List.map_append, List.map_cons, List.map_nil, List.append_assoc]
      rfl
    exact ⟨s', r1, congrArg IdleView.actions hv, congrArg IdleView.selector hv,
      congrArg IdleView.idleCounter hv, r4, r5,
      (congrArg IdleView.suppressed hv).trans h4, r3⟩

/-- C16, example: with five procedural animations, six iterations from the
procedural phase call `executeAnimation` with 0, 1, 2, 3, 4 and end in the
canned phase with the counter at 0; with three canned idle frames, four due
ticks from the canned phase end in the procedural phase with the counter at
0. -/
theorem idle_alternation_witness :
    (∃ s', mainLoop examplePlatform 0 6 idleProceduralState = Outcome.ok s' ∧
      modeActions s'.trace = [Event.executeAnimation 0, Event.executeAnimation 1,
        Event.executeAnimation 2, Event.executeAnimation 3, Event.executeAnimation 4] ∧
      s'.g.DebugDone &&& 2 = 0 ∧ s'.m.idleCounter = 0) ∧
    (∃ s', mainLoop examplePlatform 0 4 idleCannedStart = Outcome.ok s' ∧
      s'.g.DebugDone &&& 2 = 2 ∧ s'.m.idleCounter = 0) := by
  have hu1 : Undisturbed idleProceduralState := by
    constructor <;> intro _ h <;> cases h
  have hu2 : Undisturbed idleCannedStart := by
    constructor <;> intro _ h <;> cases h
  obtain ⟨s1, a1, a2, a3, a4, _⟩ :=
    ((idle_alternation examplePlatform 0 idleProceduralState (by decide) (by decide)
      rfl rfl (by decide) rfl hu1).1 (by decide)).2
  obtain ⟨s2, b1, _, b3, b4, _⟩ :=
    (idle_alternation examplePlatform 0 idleCannedStart (by decide) (by decide)
      rfl rfl (by decide) rfl hu2).2 (by decide)
      ⟨by decide, by decide, by decide, by decide, trivial⟩
  exact ⟨⟨s1, a1, a2, a3, a4⟩, ⟨s2, b1, b3, b4⟩⟩

/-! ## The heartbeat line (C11) -/

theorem heartbeats_append (a b : List Event) :
    heartbeats (a ++ b) = heartbeats a + heartbeats b :=
  List.countP_append _ _ _

theorem silent_refl (s : State) : Silent s s := rfl

theorem silent_trans {a b c : State} (h1 : Silent a b) (h2 : Silent b c) : Silent a c :=
  Eq.trans h2 h1

theorem silent_of_trace {s s' : State} (h : s'.trace = s.trace) : Silent s s' := by
  unfold Silent; rw [h]

theorem silent_step {a b c : State} (h : Silent b c) (ht : b.trace = a.trace) : Silent a c :=
  silent_trans (silent_of_trace ht) h

theorem silent_emit (s : State) (e : Event) (h : isHeartbeat e = false) :
    Silent s (s.emit e) := by
  unfold Silent
  rw [emit_trace, heartbeats_append]
  simp [heartbeats, h]

theorem silent_setDefaultImageA (idx v : Nat) (s : State) :
    Silent s (setDefaultImageA idx v s) := rfl

theorem waitChar_silent : ∀ (fuel : Nat) (s s' : State),
    waitChar fuel s = Outcome.ok s' → Silent s s' := by
  intro fuel
  induction fuel with
  | zero => intro s s' h; simp [waitChar] at h
  | succ n ih =>
    intro s s' h
    simp only [waitChar] at h
    have h0 : Silent s (serialHasChar s).2 := by
      simp [Silent, serialHasChar, heartbeats_append, heartbeats, isHeartbeat]
    split at h
    · injection h with h; subst h; exact h0
    · exact silent_trans h0 (ih _ _ h)

theorem heartbeats_isFinished (k : Nat) :
    heartbeats (List.replicate k Event.isFinished) = 0 := by
  induction k with
  | zero => rfl
  | succ k ih => rw [List.replicate_succ]; exact ih

theorem randomWait_silent : ∀ (fuel : Nat) (s s' : State),
    randomWait fuel s = Outcome.ok s' → Silent s s' := by
  intro fuel s s' h
  obtain ⟨k, hk⟩ := randomWait_trace fuel s s' h
  unfold Silent
  rw [hk, heartbeats_append, heartbeats_isFinished]
  rfl

theorem sweepWait_silent : ∀ (fuel : Nat) (s s' : State) (b : Bool),
    sweepWait fuel s = Outcome.ok (b, s') → Silent s s' := by
  intro fuel
  induction fuel with
  | zero => intro s s' b h; simp [sweepWait] at h
  | succ n ih =>
    intro s s' b h
    simp only [sweepWait] at h
    have h0 : Silent s (isFinished s).2 := by
      simp [Silent, isFinished, heartbeats_append, heartbeats, isHeartbeat]
    have h1 : Silent s (serialHasChar ((isFinished s).2.emit Event.wdt_reset)).2 := by
      simp [Silent, isFinished, serialHasChar, State.emit, heartbeats_append, heartbeats,
        isHeartbeat]
    split at h
    · split at h
      · injection h with h; injection h with h1' h2; subst h2; exact h1
      · exact silent_trans h1 (ih _ _ _ h)
    · injection h with h; injection h with h1' h2; subst h2; exact h0

theorem sweep_silent : ∀ (fuel i y z : Nat) (s s' : State),
    sweep fuel i y z s = Outcome.ok s' → Silent s s' := by
  intro fuel
  induction fuel with
  | zero => intro i y z s s' h; simp [sweep] at h
  | succ n ih =>
    intro i y z s s' h
    simp only [sweep] at h
    have h0 : Silent s ((setDefaultImageA (y + i * 8)
        ((s.g.defaultImageA.getD (y + i * 8) 0 ||| 1 <<< z) % 256) s).emit
          (Event.setImage (Img.ram (setDefaultImageA (y + i * 8)
            ((s.g.defaultImageA.getD (y + i * 8) 0 ||| 1 <<< z) % 256) s).g.defaultImageA))) :=
      silent_trans (silent_setDefaultImageA _ _ _) (silent_emit _ _ rfl)
    split at h
    · rename_i s1 hw
      injection h with h; subst h
      exact silent_trans h0 (sweepWait_silent _ _ _ _ hw)
    · rename_i s1 hw
      have h1 := silent_trans h0 (sweepWait_silent _ _ _ _ hw)
      split at h
      · exact silent_trans h1 (ih _ _ _ _ _ h)
      · split at h
        · exact silent_trans h1 (silent_step (ih _ _ _ _ _ h) rfl)
        · split at h
          · exact silent_trans h1 (silent_step (ih _ _ _ _ _ h) rfl)
          · exact silent_trans h1 (silent_step (ih _ _ _ _ _ h) rfl)
    · simp at h
    · simp at h

theorem printTimeMinutes_silent (s : State) : Silent s (printTimeMinutes s) := by
  unfold printTimeMinutes
  simp only [getSystemTime]
  split <;>
    simp [Silent, writeBufferString, itoaBuffer, State.emit, heartbeats_append, heartbeats,
      isHeartbeat]

theorem printTimeFraction_silent (s : State) : Silent s (printTimeFraction s) := by
  unfold printTimeFraction
  simp only []
  repeat' split
  all_goals
    simp [Silent, writeBufferString, State.emit, heartbeats_append, heartbeats, isHeartbeat]

theorem printTimeSeconds_silent (s : State) : Silent s (printTimeSeconds s) := by
  unfold printTimeSeconds
  simp only [getSystemTime]
  split
  · refine silent_trans ?_ (silent_emit _ _ rfl)
    refine silent_trans ?_ (printTimeFraction_silent _)
    simp [Silent, writeBufferString, itoaBuffer, State.emit, heartbeats_append, heartbeats,
      isHeartbeat]
  · simp [Silent, State.emit, heartbeats_append, heartbeats, isHeartbeat]

theorem printTime_silent (s : State) : Silent s (printTime s) := by
  unfold printTime
  simp only [getSystemTime]
  refine silent_trans ?_ (printTimeSeconds_silent _)
  refine silent_trans ?_ (printTimeMinutes_silent _)
  simp [Silent, writeBufferString, ltoaBuffer, State.emit, heartbeats_append, heartbeats,
    isHeartbeat]

theorem selfTest_silent (s : State) : Silent s (selfTest s).2 := by
  unfold selfTest
  simp only [getAudioData, memGetBytes, getGeneralPurposeByte]
  split <;> split <;>
    simp [Silent, State.emit, heartbeats_append, heartbeats, isHeartbeat]

theorem printErrors_silent (e : Nat) (s : State) : Silent s (printErrors e s) := by
  unfold printErrors
  simp only []
  repeat' split
  all_goals simp [Silent, State.emit, heartbeats_append, heartbeats, isHeartbeat]

theorem randomLoop_silent (P : Platform) (handler : Int → State → Outcome State)
    (hh : ∀ c s s', handler c s = Outcome.ok s' → Silent s s') :
    ∀ (fuel : Nat) (b : List Nat) (s s' : State),
      randomLoop P handler fuel b s = Outcome.ok s' → Silent s s' := by
  intro fuel
  induction fuel with
  | zero => intro b s s' h; simp [randomLoop] at h
  | succ n ih =>
    intro b s s' h
    simp only [randomLoop] at h
    split at h
    · rename_i s1 hw
      have h1 : Silent s s1 :=
        silent_trans (silent_emit s (Event.setImage (Img.ram b)) rfl)
          (randomWait_silent _ _ _ hw)
      have h2 : Silent s1 (serialHasChar (rand (rand (rand s1).2).2).2).2 := by
        simp [Silent, rand, serialHasChar, heartbeats_append, heartbeats, isHeartbeat]
      split at h
      · refine silent_trans h1 (silent_trans h2 (silent_trans ?_ (hh _ _ _ h)))
        simp [Silent, serialGet, State.emit, heartbeats_append, heartbeats, isHeartbeat]
      · exact silent_trans h1 (silent_trans h2 (ih _ _ _ h))
    · simp at h
    · simp at h

theorem randomAnimation_silent (P : Platform) (handler : Int → State → Outcome State)
    (hh : ∀ c s s', handler c s = Outcome.ok s' → Silent s s')
    (fuel : Nat) (s s' : State) (h : randomAnimation P handler fuel s = Outcome.ok s') :
    Silent s s' := by
  unfold randomAnimation at h
  have h0 : Silent s (malloc 64 s).2 := by
    simp [Silent, malloc, heartbeats_append, heartbeats, isHeartbeat]
  simp only [] at h
  split at h
  · injection h with h; subst h
    exact silent_trans h0 (silent_emit _ _ rfl)
  · exact silent_trans h0 (randomLoop_silent P handler hh _ _ _ _ h)

theorem foldl_setDefaultImageA_silent (l : List Nat) : ∀ (s : State),
    Silent s (l.foldl (fun s i => setDefaultImageA i 0 s) s) := by
  induction l with
  | nil => intro s; exact silent_refl s
  | cons a l ih => intro s; exact silent_trans (silent_setDefaultImageA a 0 s) (ih _)

theorem dispatch_silent (P : Platform) (handler : Int → State → Outcome State)
    (hh : ∀ c s s', handler c s = Outcome.ok s' → Silent s s') (fuel : Nat) (cmd : Cmd)
    (s s' : State) (h : dispatch P handler fuel cmd s = Outcome.ok s') : Silent s s' := by
    cases cmd <;> simp only [dispatch] at h
    case randomAnimation => exact randomAnimation_silent P _ hh _ _ _ h
    case printTime => injection h with h; subst h; exact printTime_silent s
    case toggleMode =>
      split at h <;>
      · injection h with h; subst h
        simp [Silent, State.emit, heartbeats_append, heartbeats, isHeartbeat]
    case setAnimationCount =>
      split at h
      · rename_i s1 hw
        simp only [serialGet] at h
        injection h with h; subst h
        refine silent_trans (silent_trans
          (silent_emit s (Event.serialWriteString (Str.getString 16)) rfl)
          (waitChar_silent _ _ _ hw)) ?_
        simp [Silent, writeBufferString, itoaBuffer, State.emit, heartbeats_append, heartbeats,
          isHeartbeat]
      · simp at h
      · simp at h
    case selfTest =>
      injection h with h; subst h
      refine silent_trans ?_ (printErrors_silent _ _)
      refine silent_trans (selfTest_silent s) ?_
      simp [Silent, writeBufferString, itoaBuffer, State.emit, heartbeats_append, heartbeats,
        isHeartbeat]
    case sweepDiagnostic =>
      split at h
      · rename_i s1 hw
        simp only [serialGet] at h
        injection h with h; subst h
        have h1 : Silent s ({ s with g := { s.g with DebugDone := s.g.DebugDone ||| 4 } }.emit
            (Event.fillBuffer 0)) := by
          simp [Silent, State.emit, heartbeats_append, heartbeats, isHeartbeat]
        refine silent_trans (silent_trans h1 (silent_trans (foldl_setDefaultImageA_silent _ _)
          (silent_trans (silent_setDefaultImageA _ _ _) (sweep_silent _ _ _ _ _ _ hw)))) ?_
        simp [Silent, State.emit, heartbeats_append, heartbeats, isHeartbeat]
      · simp at h
      · simp at h
    all_goals
      injection h with h; subst h
      simp [Silent, writeBufferString, itoaBuffer, ltoaBuffer, getAnimationCount,
        getTriggerCount, State.emit, heartbeats_append, heartbeats, isHeartbeat]

theorem serialHandler_silent (P : Platform) : ∀ (fuel : Nat) (c : Int) (s s' : State),
    serialHandler P fuel c s = Outcome.ok s' → Silent s s' := by
  intro fuel
  induction fuel with
  | zero => intro c s s' h; simp [serialHandler] at h
  | succ n ih =>
    intro c s s' h
    rw [serialHandler] at h
    exact dispatch_silent P _ ih _ _ _ _ h

theorem GStep.bit0 {g g' : Globals} (h : GStep g g') :
    g'.DebugDone &&& 1 = g.DebugDone &&& 1 := by
  induction h with
  | refl g => rfl
  | trans _ _ ih1 ih2 => exact ih2.trans ih1
  | buffer g b o => rfl
  | defaultImageA g a => rfl
  | debugDone g => exact (Nat.and_distrib_right _ _ _).trans (Nat.or_zero _)
  | restart g => rfl
  | toggle g => rfl

theorem serialStep_latch (P : Platform) (fuel : Nat) (s s' : State)
    (h : serialStep P fuel s = Outcome.ok s') :
    s'.g.DebugDone &&& 1 = s.g.DebugDone &&& 1 ∧ Silent s s' := by
  have h0 : Silent s (serialGet (serialHasChar s).2).2 := by
    simp [Silent, serialHasChar, serialGet, heartbeats_append, heartbeats, isHeartbeat]
  have h1 : Silent s (serialHasChar s).2 := by
    simp [Silent, serialHasChar, heartbeats_append, heartbeats, isHeartbeat]
  unfold serialStep at h
  simp only [] at h
  split at h
  · exact ⟨(serialHandler_frame P _ _ _ _ h).1.bit0,
      silent_trans h0 (serialHandler_silent P _ _ _ _ h)⟩
  · injection h with h; subst h
    exact ⟨rfl, h1⟩

theorem audioStep_silent (s : State) : Silent s (audioStep s) := by
  unfold audioStep
  simp only [isFinished, getAudioData]
  split
  · split <;> simp [Silent, State.emit, heartbeats_append, heartbeats, isHeartbeat]
  · simp [Silent, heartbeats_append, heartbeats, isHeartbeat]

theorem refreshStep_latch (s : State) :
    (refreshStep s).g.DebugDone = s.g.DebugDone ∧ Silent s (refreshStep s) := by
  unfold refreshStep
  simp only [getAnimationCount]
  split
  · exact ⟨rfl, by simp [Silent, heartbeats_append, heartbeats, isHeartbeat]⟩
  · exact ⟨rfl, rfl⟩

theorem playbackStep_silent (s s' : State) (h : playbackStep s = Outcome.ok s') :
    Silent s s' := by
  unfold playbackStep at h
  simp only [isFinished, getFrame] at h
  split at h
  · split at h
    · simp at h
    · injection h with h; subst h
      unfold Silent
      simp only [emit_trace, apply_ite State.trace, ite_self, heartbeats_append]
      simp [heartbeats, isHeartbeat]
  · injection h with h; subst h
    simp [Silent, heartbeats_append, heartbeats, isHeartbeat]

theorem idleStep_latch (P : Platform) (s : State) :
    (idleStep P s).g.DebugDone &&& 1 = s.g.DebugDone &&& 1 ∧ Silent s (idleStep P s) := by
  have a1 : (s.g.DebugDone &&& 253) &&& 1 = s.g.DebugDone &&& 1 := by
    rw [Nat.and_assoc]; rfl
  have o1 : (s.g.DebugDone ||| 2) &&& 1 = s.g.DebugDone &&& 1 :=
    (Nat.and_distrib_right _ _ _).trans (Nat.or_zero _)
  unfold idleStep
  simp only [isFinished]
  repeat' split
  all_goals
    refine ⟨?_, ?_⟩
    · first | rfl | exact a1 | exact o1
    · simp [Silent, State.emit, heartbeats_append, heartbeats, isHeartbeat]

theorem modeStep_latch (P : Platform) (s s' : State) (h : modeStep P s = Outcome.ok s') :
    s'.g.DebugDone &&& 1 = s.g.DebugDone &&& 1 ∧ Silent s s' := by
  unfold modeStep at h
  split at h
  · injection h with h; subst h
    rw [audioStep_g]
    exact ⟨rfl, audioStep_silent s⟩
  · simp only [] at h
    split at h
    · rw [playbackStep_g _ _ h, (refreshStep_latch s).1]
      exact ⟨rfl, silent_trans (refreshStep_latch s).2 (playbackStep_silent _ _ h)⟩
    · injection h with h; subst h
      rw [(idleStep_latch P _).1, (refreshStep_latch s).1]
      exact ⟨rfl, silent_trans (refreshStep_latch s).2 (idleStep_latch P _).2⟩

theorem watchdogStep_silent (s : State) : Silent s (watchdogStep s) := by
  unfold watchdogStep
  split
  · exact silent_emit s Event.wdt_reset rfl
  · rfl

theorem buttonStep_latch (s : State) :
    (buttonStep s).g.DebugDone = s.g.DebugDone ∧ Silent s (buttonStep s) := by
  unfold buttonStep
  simp only [getSystemTime, audioModeSelected, readPINB]
  repeat' split
  all_goals
    refine ⟨rfl, ?_⟩
    simp [Silent, heartbeats_append, heartbeats, isHeartbeat]

theorem preHeartbeat_latch (P : Platform) (fuel : Nat) (s s2 : State)
    (h : preHeartbeat P fuel s = Outcome.ok s2) :
    s2.g.DebugDone &&& 1 = s.g.DebugDone &&& 1 ∧ Silent s s2 := by
  unfold preHeartbeat at h
  split at h
  · rename_i s1 hm
    obtain ⟨m1, m2⟩ := modeStep_latch P _ _ hm
    obtain ⟨q1, q2⟩ := serialStep_latch P fuel _ _ h
    rw [watchdogStep_g] at m1
    exact ⟨q1.trans m1, silent_trans (watchdogStep_silent s) (silent_trans m2 q2)⟩
  · simp at h
  · simp at h

theorem mainLoopBody_eq (P : Platform) (fuel : Nat) (s : State) :
    mainLoopBody P fuel s =
      match preHeartbeat P fuel s with
      | Outcome.ok s2 => Outcome.ok (buttonStep (heartbeatStep s2))
      | Outcome.outOfFuel => Outcome.outOfFuel
      | Outcome.nullDeref => Outcome.nullDeref := by
  unfold mainLoopBody preHeartbeat
  cases modeStep P (watchdogStep s) <;> rfl

theorem digitChar_ne_zero (d : Nat) : digitChar d ≠ 0 := by
  unfold digitChar
  split <;> omega

theorem toDigits_ne_zero (radix : Nat) : ∀ (fuel n : Nat) (acc : List Nat),
    (∀ b ∈ acc, b ≠ 0) → ∀ b ∈ toDigits radix fuel n acc, b ≠ 0 := by
  intro fuel
  induction fuel with
  | zero => intro n acc h b hb; exact h b hb
  | succ f ih =>
    intro n acc h b hb
    have hacc : ∀ c ∈ digitChar (n % radix) :: acc, c ≠ 0 := by
      intro c hc
      rcases List.mem_cons.mp hc with rfl | hc
      · exact digitChar_ne_zero _
      · exact h c hc
    simp only [toDigits] at hb
    split at hb
    · exact hacc b hb
    · exact ih _ _ hacc b hb

theorem ltoa_ne_zero (v : Int) (radix : Nat) : ∀ b ∈ ltoa v radix, b ≠ 0 := by
  intro b hb
  unfold ltoa at hb
  simp only [] at hb
  split at hb
  · rcases List.mem_cons.mp hb with rfl | hb
    · decide
    · exact toDigits_ne_zero _ _ _ _ (fun _ h => by cases h) b hb
  · exact toDigits_ne_zero _ _ _ _ (fun _ h => by cases h) b hb

theorem takeWhile_text (rest : List Nat) : ∀ (txt : List Nat), (∀ b ∈ txt, b ≠ 0) →
    (txt ++ 0 :: rest).takeWhile (fun b => b != 0) = txt := by
  intro txt
  induction txt with
  | nil => intro _; rfl
  | cons a t ih =>
    intro h
    have ha : (a != 0) = true := by
      have := h a (List.mem_cons_self _ _)
      simpa using this
    rw [List.cons_append, List.takeWhile_cons, ha]
    simp only [if_true]
    rw [ih (fun b hb => h b (List.mem_cons_of_mem _ hb))]

/-- A text without zero byte that fits into `buffer` is read back as it was
written. -/
theorem cstr_writeBuf (old txt : List Nat) (h0 : ∀ b ∈ txt, b ≠ 0)
    (hfit : overruns txt = false) : cstr (writeBuf txt old) = txt := by
  have hlen : txt.length + 1 ≤ BUFFERSIZE := by
    unfold overruns at hfit
    simpa using hfit
  unfold cstr writeBuf
  rw [List.take_append_eq_append_take, List.take_of_length_le (by omega)]
  have hpos : BUFFERSIZE - txt.length = (BUFFERSIZE - txt.length - 1) + 1 := by omega
  rw [hpos, List.take_succ_cons]
  exact takeWhile_text _ txt h0

/-- The heartbeat statement writes the line exactly when its read of the
uptime is at least 1000 and bit 0 of `DebugDone` is clear. -/
theorem heartbeatStep_count (s : State) :
    heartbeats (heartbeatStep s).trace = heartbeats s.trace +
      (if 1000 ≤ (getSystemTime s).1 ∧ s.g.DebugDone &&& 1 = 0 then 1 else 0) := by
  unfold heartbeatStep
  simp only [ge_iff_le]
  by_cases hc : 1000 ≤ (getSystemTime s).1 ∧ (getSystemTime s).2.g.DebugDone &&& 1 = 0
  · have hc' : 1000 ≤ (getSystemTime s).1 ∧ s.g.DebugDone &&& 1 = 0 := hc
    rw [if_pos hc, if_pos hc']
    simp only [writeBufferString_trace, emit_trace, ltoaBuffer_trace, getTriggerCount,
      getSystemTime, heartbeats_append]
    simp [heartbeats, isHeartbeat]
  · have hc' : ¬ (1000 ≤ (getSystemTime s).1 ∧ s.g.DebugDone &&& 1 = 0) := hc
    rw [if_neg hc, if_neg hc']
    simp [getSystemTime, heartbeats_append, heartbeats, isHeartbeat]

/-- The heartbeat statement sets bit 0 of `DebugDone` exactly when it writes
the line. -/
theorem heartbeatStep_debug (s : State) :
    (heartbeatStep s).g.DebugDone
      = (if 1000 ≤ (getSystemTime s).1 ∧ s.g.DebugDone &&& 1 = 0
          then s.g.DebugDone ||| 1 else s.g.DebugDone) := by
  unfold heartbeatStep
  simp only [ge_iff_le]
  by_cases hc : 1000 ≤ (getSystemTime s).1 ∧ (getSystemTime s).2.g.DebugDone &&& 1 = 0
  · have hc' : 1000 ≤ (getSystemTime s).1 ∧ s.g.DebugDone &&& 1 = 0 := hc
    rw [if_pos hc, if_pos hc']
    rfl
  · have hc' : ¬ (1000 ≤ (getSystemTime s).1 ∧ s.g.DebugDone &&& 1 = 0) := hc
    rw [if_neg hc, if_neg hc']
    rfl

/-- The calls of the heartbeat statement when no text is written past the
end of `buffer`: after the read of the uptime, the line for the trigger count
or nothing. -/
theorem heartbeatStep_line (s : State) (hfit : (heartbeatStep s).g.overrun = false) :
    (heartbeatStep s).trace = s.trace ++ Event.getSystemTime ::
      (if 1000 ≤ (getSystemTime s).1 ∧ s.g.DebugDone &&& 1 = 0
        then heartbeatLine (getTriggerCount (getSystemTime s).2).1 else []) := by
  unfold heartbeatStep at hfit ⊢
  simp only [ge_iff_le] at hfit ⊢
  by_cases hc : 1000 ≤ (getSystemTime s).1 ∧ (getSystemTime s).2.g.DebugDone &&& 1 = 0
  · have hc' : 1000 ≤ (getSystemTime s).1 ∧ s.g.DebugDone &&& 1 = 0 := hc
    rw [if_pos hc] at hfit
    rw [if_pos hc, if_pos hc']
    simp only [emit_g, writeBufferString_g, ltoaBuffer_g, Bool.or_eq_false_iff] at hfit
    obtain ⟨⟨_, f1⟩, f2⟩ := hfit
    simp only [getTriggerCount, getSystemTime] at f1 f2
    simp only [writeBufferString, emit_trace, emit_g, ltoaBuffer, heartbeatLine,
      getTriggerCount, getSystemTime,
      List.append_assoc, List.singleton_append, List.cons_append, List.nil_append]
    rw [cstr_writeBuf _ _ (ltoa_ne_zero _ _) f1, cstr_writeBuf _ _ (ltoa_ne_zero _ _) f2]
  · have hc' : ¬ (1000 ≤ (getSystemTime s).1 ∧ s.g.DebugDone &&& 1 = 0) := hc
    rw [if_neg hc, if_neg hc']
    rfl

theorem heartbeats_line (t : Nat) : heartbeats (heartbeatLine t) = 1 := by
  simp [heartbeats, heartbeatLine, isHeartbeat]

theorem bit0_le (d : Nat) : d &&& 1 ≤ 1 := Nat.and_le_right

/-- One iteration keeps bit 0 of `DebugDone` equal to the number of
heartbeat lines written so far, and writes the line exactly when none was
written before and its read of the uptime is at least 1000. -/
theorem iteration_latch (P : Platform) (fuel : Nat) (s s2 : State)
    (hp : preHeartbeat P fuel s = Outcome.ok s2)
    (hI : s.g.DebugDone &&& 1 = heartbeats s.trace) :
    (buttonStep (heartbeatStep s2)).g.DebugDone &&& 1
      = heartbeats (buttonStep (heartbeatStep s2)).trace ∧
    heartbeats (buttonStep (heartbeatStep s2)).trace
      = (if heartbeats s.trace = 1 ∨ 1000 ≤ (getSystemTime s2).1 then 1 else 0) := by
  obtain ⟨p1, p2⟩ := preHeartbeat_latch P fuel s s2 hp
  have e2 := heartbeatStep_debug s2
  obtain ⟨b1, b2⟩ := buttonStep_latch (heartbeatStep s2)
  have hle := bit0_le s.g.DebugDone
  have hs : heartbeats s2.trace = heartbeats s.trace := p2
  rw [b1, b2, e2]
  have ht : heartbeats (heartbeatStep s2).trace = heartbeats s.trace +
      (if 1000 ≤ (getSystemTime s2).1 ∧ s2.g.DebugDone &&& 1 = 0 then 1 else 0) := by
    rw [heartbeatStep_count, hs]
  rw [ht]
  by_cases hc : 1000 ≤ (getSystemTime s2).1 ∧ s2.g.DebugDone &&& 1 = 0
  · rw [if_pos hc, if_pos hc, or_and_self_bits]
    have h0 : heartbeats s.trace = 0 := by rw [← hI, ← p1]; exact hc.2
    rw [h0, if_pos (Or.inr hc.1)]
    exact ⟨rfl, rfl⟩
  · rw [if_neg hc, if_neg hc, p1, hI]
    refine ⟨by omega, ?_⟩
    by_cases ht1 : heartbeats s.trace = 1
    · rw [if_pos (Or.inl ht1)]; omega
    · have hr : ¬ 1000 ≤ (getSystemTime s2).1 := by
        intro hr
        apply hc
        refine ⟨hr, ?_⟩
        rw [p1, hI]; omega
      have hn : ¬ (heartbeats s.trace = 1 ∨ 1000 ≤ (getSystemTime s2).1) := by
        rintro (h | h)
        · exact ht1 h
        · exact hr h
      rw [if_neg hn]; omega

theorem mainLoop_latch (P : Platform) (fuel : Nat) : ∀ (k : Nat) (s s' : State),
    s.g.DebugDone &&& 1 = heartbeats s.trace → mainLoop P fuel k s = Outcome.ok s' →
    s'.g.DebugDone &&& 1 = heartbeats s'.trace ∧
    heartbeats s'.trace
      = (if heartbeats s.trace = 1 ∨ ∃ t ∈ uptimeReads P fuel k s, 1000 ≤ t then 1 else 0) := by
  intro k
  induction k with
  | zero =>
    intro s s' hI h
    injection h with h; subst h
    refine ⟨hI, ?_⟩
    have hle := bit0_le s.g.DebugDone
    simp only [uptimeReads, List.not_mem_nil, false_and, exists_false, or_false]
    split <;> omega
  | succ k ih =>
    intro s s' hI h
    simp only [mainLoop] at h
    rw [mainLoopBody_eq] at h
    cases hp : preHeartbeat P fuel s with
    | ok s2 =>
      rw [hp] at h
      simp only [] at h
      obtain ⟨i1, i2⟩ := iteration_latch P fuel s s2 hp hI
      obtain ⟨j1, j2⟩ := ih _ _ i1 h
      refine ⟨j1, ?_⟩
      rw [j2, i2]
      simp only [uptimeReads, hp, List.mem_cons, exists_eq_or_imp]
      by_cases a : heartbeats s.trace = 1 <;> by_cases b : 1000 ≤ (getSystemTime s2).1 <;>
        simp [a, b]
    | outOfFuel => rw [hp] at h; simp at h
    | nullDeref => rw [hp] at h; simp at h

theorem audioModeSelected_latch (s : State) :
    (audioModeSelected s).2.g.DebugDone = s.g.DebugDone ∧
    heartbeats (audioModeSelected s).2.trace = heartbeats s.trace := by
  unfold audioModeSelected
  simp only [readPINB]
  repeat' split
  all_goals
    refine ⟨rfl, ?_⟩
    simp [heartbeats_append, heartbeats, isHeartbeat]

/-- At the start of the main loop bit 0 of `DebugDone` is clear and no
heartbeat line has been written. -/
theorem startup_latch (P : Platform) (env : Env) :
    (startup P env).g.DebugDone &&& 1 = 0 ∧ heartbeats (startup P env).trace = 0 := by
  have hs : heartbeats (selfTest ((initialState P env).emit
      (Event.setImage Img.defaultImageCube) |>.emit
        (Event.serialWriteString (Str.getString 2)))).2.trace = 0 := by
    rw [selfTest_silent]
    simp [State.emit, initialState, heartbeats, isHeartbeat]
  have hg : (selfTest ((initialState P env).emit
      (Event.setImage Img.defaultImageCube) |>.emit
        (Event.serialWriteString (Str.getString 2)))).2.g.DebugDone = 0 := by
    rw [selfTest_g]; rfl
  have pe : ∀ (e : Nat) (t : State),
      heartbeats (printErrors e t).trace = heartbeats t.trace := printErrors_silent
  unfold startup
  simp only [getSystemTime, getAnimationCount]
  split
  · constructor
    · simp only [(audioModeSelected_latch _).1, emit_g, printErrors_g, writeBufferString_g,
        itoaBuffer_g, hg]
      rfl
    · simp only [heartbeats_append, (audioModeSelected_latch _).2, emit_trace, pe,
        writeBufferString_trace, itoaBuffer_trace, hs]
      simp [heartbeats, isHeartbeat]
  · constructor
    · simp only [(audioModeSelected_latch _).1, emit_g, hg]
      rfl
    · simp only [heartbeats_append, (audioModeSelected_latch _).2, emit_trace, hs]
      simp [heartbeats, isHeartbeat]

theorem toDigits_value : ∀ (fuel n : Nat) (acc : List Nat), n < 10 ^ fuel →
    (toDigits 10 fuel n acc).foldl (fun a c => 10 * a + (c - 48)) 0
      = acc.foldl (fun a c => 10 * a + (c - 48)) n := by
  intro fuel
  induction fuel with
  | zero =>
    intro n acc h
    have : n = 0 := by simpa using h
    subst this
    rfl
  | succ f ih =>
    intro n acc h
    have hd : digitChar (n % 10) = 48 + n % 10 := by
      unfold digitChar
      rw [if_pos (Nat.mod_lt _ (by decide))]
    simp only [toDigits]
    split
    · rename_i h0
      rw [hd, List.foldl_cons]
      congr 1
      omega
    · have hlt : n / 10 < 10 ^ f := by
        rw [Nat.pow_succ] at h
        omega
      rw [ih _ _ hlt, hd, List.foldl_cons]
      congr 1
      omega

theorem toDigits_decimal : ∀ (fuel n : Nat) (acc : List Nat), isDecimal acc →
    isDecimal (toDigits 10 fuel n acc) := by
  intro fuel
  induction fuel with
  | zero => intro n acc h; exact h
  | succ f ih =>
    intro n acc h
    have hd : digitChar (n % 10) = 48 + n % 10 := by
      unfold digitChar
      rw [if_pos (Nat.mod_lt _ (by decide))]
    have hacc : isDecimal (digitChar (n % 10) :: acc) := by
      intro c hc
      rcases List.mem_cons.mp hc with rfl | hc
      · rw [hd]; omega
      · exact h c hc
    simp only [toDigits]
    split
    · exact hacc
    · exact ih _ _ hacc

/-- For a value below 2^31, the range of the `long` that `ltoa` takes, the
text of `ltoa` in radix 10 is the value in decimal digits. -/
theorem ltoa_decimal (t : Nat) (ht : t < 2147483648) :
    isDecimal (ltoa (t : Nat) 10) ∧ decimalValue (ltoa (t : Nat) 10) = t := by
  have h1 : ((t : Int) % 4294967296).toNat = t := by omega
  have h2 : toInt32 (t : Nat) = (t : Int) := by
    unfold toInt32
    rw [h1, if_pos ht]
  unfold ltoa
  simp only [h2]
  have hn : ¬ (True ∧ (t : Int) < 0) := by omega
  rw [if_neg hn, h1]
  exact ⟨toDigits_decimal 32 t [] (fun _ h => by cases h),
    toDigits_value 32 t [] (by omega)⟩

/-- For a value from 2^31 on, `ltoa` takes it as the negative `long` of the
same 32 bits: the text is a minus sign and 2^32 minus the value in decimal
digits. -/
theorem ltoa_negative (t : Nat) (h1 : 2147483648 ≤ t) (h2 : t < 4294967296) :
    ∃ d, ltoa (t : Nat) 10 = 45 :: d ∧ isDecimal d ∧ decimalValue d = 4294967296 - t := by
  have e1 : ((t : Int) % 4294967296).toNat = t := by omega
  have e2 : toInt32 (t : Nat) = (t : Int) - 4294967296 := by
    unfold toInt32
    rw [e1, if_neg (by omega)]
  have e3 : (-((t : Int) - 4294967296)).toNat = 4294967296 - t := by omega
  refine ⟨toDigits 10 32 (4294967296 - t) [], ?_,
    toDigits_decimal 32 _ [] (fun _ h => by cases h), toDigits_value 32 _ [] (by omega)⟩
  unfold ltoa
  simp only [e2]
  have hn : True ∧ (t : Int) - 4294967296 < 0 := ⟨trivial, by omega⟩
  rw [if_pos hn, e3]

theorem mainLoop_add (P : Platform) (fuel : Nat) (r : Nat) : ∀ (j : Nat) (s sj : State),
    mainLoop P fuel j s = Outcome.ok sj →
    mainLoop P fuel (j + r) s = mainLoop P fuel r sj := by
  intro j
  induction j with
  | zero =>
    intro s sj h
    injection h with h; subst h
    rw [Nat.zero_add]
  | succ j ih =>
    intro s sj h
    rw [Nat.succ_add]
    simp only [mainLoop] at h ⊢
    split at h
    · exact ih _ _ h
    · simp at h
    · simp at h

/-- C11, as amended: from a state in which bit 0 of `DebugDone` is clear and
no heartbeat line has been written (as at the start of the main loop), after
any number of iterations of a run that wrote no text past the end of `buffer`
(`overrun` is false at the end, and so it was after every iteration), the
heartbeat line has been written at most once, and exactly once if the
heartbeat statement of some iteration read an uptime of at least 1000; bit 0
is set exactly when the line has been written.  In every such iteration the
line is written iff the uptime read is at least 1000 and bit 0 is clear, it is
`ltoa` of the trigger count `t`, `getString(27)`, `ltoa` of `t / 8` and
`getString(28)`, and that iteration sets bit 0; the steps in front of the
heartbeat statement (watchdog, mode state machine, dispatched command) and the
button step behind it leave bit 0 as it is and write no heartbeat line, and so
does every dispatched command that writes no text past the end of `buffer`.
The text for `t / 8` is that number in decimal digits; the text for `t` is `t`
in decimal digits when `t` is below 2^31, and a minus sign with `2^32 - t`
from 2^31 on, because `ltoa` takes a signed `long`. -/
theorem heartbeat_once (P : Platform) (fuel k : Nat) (s s' : State)
    (h0 : s.g.DebugDone &&& 1 = 0) (ht : heartbeats s.trace = 0)
    (hrun : mainLoop P fuel k s = Outcome.ok s') (hfit : s'.g.overrun = false) :
    heartbeats s'.trace ≤ 1 ∧
    heartbeats s'.trace = (if ∃ t ∈ uptimeReads P fuel k s, 1000 ≤ t then 1 else 0) ∧
    s'.g.DebugDone &&& 1 = heartbeats s'.trace ∧
    (∀ (j : Nat) (sj : State), j ≤ k → mainLoop P fuel j s = Outcome.ok sj →
      sj.g.overrun = false) ∧
    (∀ a b : State, preHeartbeat P fuel a = Outcome.ok b →
      (heartbeatStep b).g.overrun = false →
      mainLoopBody P fuel a = Outcome.ok (buttonStep (heartbeatStep b)) ∧
      b.g.DebugDone &&& 1 = a.g.DebugDone &&& 1 ∧
      heartbeats b.trace = heartbeats a.trace ∧
      (heartbeatStep b).trace = b.trace ++ Event.getSystemTime ::
        (if 1000 ≤ (getSystemTime b).1 ∧ a.g.DebugDone &&& 1 = 0
          then heartbeatLine (getTriggerCount (getSystemTime b).2).1 else []) ∧
      (heartbeatStep b).g.DebugDone
        = (if 1000 ≤ (getSystemTime b).1 ∧ a.g.DebugDone &&& 1 = 0
            then b.g.DebugDone ||| 1 else b.g.DebugDone) ∧
      (buttonStep (heartbeatStep b)).g.DebugDone = (heartbeatStep b).g.DebugDone ∧
      heartbeats (buttonStep (heartbeatStep b)).trace
        = heartbeats (heartbeatStep b).trace) ∧
    (∀ (n : Nat) (c : Int) (a b : State), serialHandler P n c a = Outcome.ok b →
      b.g.overrun = false →
      b.g.DebugDone &&& 1 = a.g.DebugDone &&& 1 ∧ heartbeats b.trace = heartbeats a.trace ∧
      a.g.overrun = false) ∧
    (∀ env : Env, (startup P env).g.DebugDone &&& 1 = 0 ∧
      heartbeats (startup P env).trace = 0) ∧
    (∀ t : Nat, t < 4294967296 →
      isDecimal (ltoa (t / 8 : Nat) 10) ∧ decimalValue (ltoa (t / 8 : Nat) 10) = t / 8 ∧
      (t < 2147483648 →
        isDecimal (ltoa (t : Nat) 10) ∧ decimalValue (ltoa (t : Nat) 10) = t) ∧
      (2147483648 ≤ t →
        ∃ d, ltoa (t : Nat) 10 = 45 :: d ∧ isDecimal d ∧
          decimalValue d = 4294967296 - t)) := by
  obtain ⟨l1, l2⟩ := mainLoop_latch P fuel k s s' (h0.trans ht.symm) hrun
  have hne : ¬ heartbeats s.trace = 1 := by omega
  simp only [hne, false_or] at l2
  refine ⟨?_, l2, l1, ?_, ?_, ?_, startup_latch P, ?_⟩
  · rw [l2]; split <;> omega
  · intro j sj hj hsj
    have hk : k = j + (k - j) := by omega
    rw [hk, mainLoop_add P fuel (k - j) j s sj hsj] at hrun
    exact clean_before (mainLoop_overrun P fuel _ _ _ hrun) hfit
  · intro a b hp hf
    obtain ⟨p1, p2⟩ := preHeartbeat_latch P fuel a b hp
    have e1 := heartbeatStep_line b hf
    have e2 := heartbeatStep_debug b
    obtain ⟨b1, b2⟩ := buttonStep_latch (heartbeatStep b)
    refine ⟨?_, p1, p2, ?_, ?_, b1, b2⟩
    · rw [mainLoopBody_eq, hp]
    · rw [e1, p1]
    · rw [e2, p1]
  · intro n c a b h hf
    exact ⟨(serialHandler_frame P _ _ _ _ h).1.bit0, serialHandler_silent P _ _ _ _ h,
      clean_before (serialHandler_overrun P _ _ _ _ h) hf⟩
  · intro t ht
    have h8 := ltoa_decimal (t / 8) (by omega)
    exact ⟨h8.1, h8.2, fun h => ltoa_decimal t h, fun h => ltoa_negative t h ht⟩

/-- C11, example of the amended claim: start-up followed by three
iterations whose heartbeat statements read the uptimes 500, 1200 and 2000,
with the trigger count 4000; nothing is written past the end of `buffer` and
the line is written once. -/
theorem heartbeat_once_witness :
    uptimeReads examplePlatform 0 3 (startup examplePlatform heartbeatEnv) = [500, 1200, 2000] ∧
    ∃ s', mainLoop examplePlatform 0 3 (startup examplePlatform heartbeatEnv) = Outcome.ok s' ∧
      s'.g.overrun = false ∧ heartbeats s'.trace = 1 ∧ s'.g.DebugDone &&& 1 = 1 := by
  have hr : uptimeReads examplePlatform 0 3 (startup examplePlatform heartbeatEnv)
      = [500, 1200, 2000] := by decide
  refine ⟨hr, _, rfl, by decide, ?_⟩
  have h := heartbeat_once examplePlatform 0 3 (startup examplePlatform heartbeatEnv) _
    (by decide) (by decide) rfl (by decide)
  have h1 : heartbeats _ = 1 := h.2.1.trans (by rw [hr]; decide)
  exact ⟨h1, h.2.2.1.trans h1⟩

/-- C11, counterexample: the first iteration after start-up reads the uptime
1000 and the trigger count 4294967295; the heartbeat line it writes reports
"-1" and, for the count divided by 8, "536870911", so the line does not report
the trigger count.  Nothing is written past the end of `buffer` here. -/
theorem heartbeat_once_counterexample :
    ∃ s1, mainLoopBody examplePlatform 0 (startup examplePlatform wrapCountEnv)
        = Outcome.ok s1 ∧
      s1.trace = (startup examplePlatform wrapCountEnv).trace ++
        [Event.wdt_reset, Event.getAnimationCount, Event.isFinished, Event.serialHasChar,
         Event.getSystemTime, Event.getTriggerCount,
         Event.serialWriteString (Str.text [45, 49]),
         Event.serialWriteString (Str.getString 27),
         Event.serialWriteString (Str.text [53, 51, 54, 56, 55, 48, 57, 49, 49]),
         Event.serialWriteString (Str.getString 28),
         Event.getSystemTime, Event.readPINB, Event.getSystemTime] ∧
      s1.g.overrun = false ∧
      (getTriggerCount (initialState examplePlatform wrapCountEnv)).1 = 4294967295 ∧
      decimalValue [53, 51, 54, 56, 55, 48, 57, 49, 49] = 4294967295 / 8 :=
  ⟨_, rfl, by decide, by decide, by decide, by decide⟩

/-! ## The watchdog after a restart request (C4, amended) -/

theorem services_append (a b : List Event) :
    services (a ++ b) = services a + services b :=
  List.countP_append _ _ _

theorem starved_refl (P : Platform) (s : State) : Starved P s s := ⟨rfl, id⟩

theorem starved_trans {P : Platform} {a b c : State} (h1 : Starved P a b) (h2 : Starved P b c) :
    Starved P a c :=
  ⟨h2.1.trans h1.1, fun h => h2.2 (h1.2 h)⟩

/-- A step that adds no watchdog service and leaves the serial input or
takes its first byte. -/
theorem starved_of {P : Platform} {s s' : State} (ht : services s'.trace = services s.trace)
    (he : s'.env.serialGet = s.env.serialGet ∨ s'.env.serialGet = s.env.serialGet.tail) :
    Starved P s s' := by
  refine ⟨ht, ?_⟩
  intro h b hb
  rcases he with he | he
  · rw [he] at hb; exact h b hb
  · rw [he] at hb; exact h b (List.mem_of_mem_tail hb)

theorem starved_emit (P : Platform) (s : State) (e : Event) (h : isWatchdog e = false) :
    Starved P s (s.emit e) := by
  refine starved_of ?_ (Or.inl rfl)
  rw [emit_trace, services_append]
  simp [services, h]

theorem noSweep_head (P : Platform) (s : State) (h : NoSweepBytes P s) :
    decode (toChar P (s.env.serialGet.headD 0 % 256)) ≠ Cmd.sweepDiagnostic := by
  cases hl : s.env.serialGet with
  | nil =>
    have h0 : toChar P (([] : List Nat).headD 0 % 256) = 0 := by
      unfold toChar
      cases P.charSigned <;> rfl
    rw [h0]
    decide
  | cons b bs =>
    have := h b (by rw [hl]; exact List.mem_cons_self _ _)
    have ht : toChar P (b % 256) = toChar P ((b :: bs).headD 0 % 256) := rfl
    rw [← ht]
    exact this

theorem waitChar_unserviced (P : Platform) : ∀ (fuel : Nat) (s s' : State),
    waitChar fuel s = Outcome.ok s' → Starved P s s' := by
  intro fuel
  induction fuel with
  | zero => intro s s' h; simp [waitChar] at h
  | succ n ih =>
    intro s s' h
    simp only [waitChar] at h
    have h0 : Starved P s (serialHasChar s).2 :=
      starved_of (by simp [serialHasChar, services_append, services, isWatchdog]) (Or.inl rfl)
    split at h
    · injection h with h; subst h; exact h0
    · exact starved_trans h0 (ih _ _ h)

theorem services_isFinished (k : Nat) :
    services (List.replicate k Event.isFinished) = 0 := by
  induction k with
  | zero => rfl
  | succ k ih => rw [List.replicate_succ]; exact ih

theorem randomWait_unserviced (P : Platform) (fuel : Nat) (s s' : State)
    (h : randomWait fuel s = Outcome.ok s') : Starved P s s' := by
  obtain ⟨k, hk⟩ := randomWait_trace fuel s s' h
  refine starved_of ?_ (Or.inl (randomWait_keeps fuel s s' h).2.2)
  rw [hk, services_append, services_isFinished]
  rfl

theorem printTimeMinutes_unserviced (P : Platform) (s : State) :
    Starved P s (printTimeMinutes s) := by
  unfold printTimeMinutes
  simp only [getSystemTime]
  split
  · exact starved_of (by simp [writeBufferString, itoaBuffer, State.emit, services_append,
      services, isWatchdog]) (Or.inl rfl)
  · exact starved_of (by simp [services_append, services, isWatchdog]) (Or.inl rfl)

theorem printTimeFraction_unserviced (P : Platform) (s : State) :
    Starved P s (printTimeFraction s) := by
  unfold printTimeFraction
  simp only []
  repeat' split
  all_goals
    exact starved_of (by simp [writeBufferString, State.emit, services_append, services,
      isWatchdog]) (Or.inl rfl)

theorem printTimeSeconds_unserviced (P : Platform) (s : State) :
    Starved P s (printTimeSeconds s) := by
  unfold printTimeSeconds
  simp only [getSystemTime]
  split
  · refine starved_trans ?_ (starved_emit P _ (Event.serialWriteString (Str.text [115, 41, 10])) rfl)
    refine starved_trans ?_ (printTimeFraction_unserviced P _)
    exact starved_of (by simp [writeBufferString, itoaBuffer, State.emit, services_append,
      services, isWatchdog]) (Or.inl rfl)
  · exact starved_of (by simp [State.emit, services_append, services, isWatchdog]) (Or.inl rfl)

theorem printTime_unserviced (P : Platform) (s : State) : Starved P s (printTime s) := by
  unfold printTime
  simp only [getSystemTime]
  refine starved_trans ?_ (printTimeSeconds_unserviced P _)
  refine starved_trans ?_ (printTimeMinutes_unserviced P _)
  exact starved_of (by simp [writeBufferString, ltoaBuffer, State.emit, services_append,
    services, isWatchdog]) (Or.inl rfl)

theorem selfTest_unserviced (P : Platform) (s : State) : Starved P s (selfTest s).2 := by
  unfold selfTest
  simp only [getAudioData, memGetBytes, getGeneralPurposeByte]
  split <;> split <;>
    exact starved_of (by simp [State.emit, services_append, services, isWatchdog]) (Or.inl rfl)

theorem printErrors_unserviced (P : Platform) (e : Nat) (s : State) :
    Starved P s (printErrors e s) := by
  unfold printErrors
  simp only []
  repeat' split
  all_goals
    exact starved_of (by simp [State.emit, services_append, services, isWatchdog]) (Or.inl rfl)

theorem randomLoop_unserviced (P : Platform) (handler : Int → State → Outcome State)
    (hh : ∀ c s s', decode c ≠ Cmd.sweepDiagnostic → NoSweepBytes P s →
      handler c s = Outcome.ok s' → Starved P s s') :
    ∀ (fuel : Nat) (b : List Nat) (s s' : State), NoSweepBytes P s →
      randomLoop P handler fuel b s = Outcome.ok s' → Starved P s s' := by
  intro fuel
  induction fuel with
  | zero => intro b s s' _ h; simp [randomLoop] at h
  | succ n ih =>
    intro b s s' hn h
    simp only [randomLoop] at h
    split at h
    · rename_i s1 hw
      have h1 : Starved P s s1 :=
        starved_trans (starved_emit P s (Event.setImage (Img.ram b)) rfl)
          (randomWait_unserviced P _ _ _ hw)
      have h2 : Starved P s1 (serialHasChar (rand (rand (rand s1).2).2).2).2 :=
        starved_of (by simp [rand, serialHasChar, services_append, services, isWatchdog])
          (Or.inl rfl)
      have h12 := starved_trans h1 h2
      split at h
      · have hn2 := h12.2 hn
        have h3 : Starved P (serialHasChar (rand (rand (rand s1).2).2).2).2
            (serialGet (((serialHasChar (rand (rand (rand s1).2).2).2).2.emit
              (Event.serialWriteString (Str.getString 25))).emit
                (Event.free Ptr.randomBuffer))).2 :=
          starved_of (by simp [serialGet, State.emit, services_append, services, isWatchdog])
            (Or.inr rfl)
        refine starved_trans h12 (starved_trans h3 (hh _ _ _ ?_ (h3.2 hn2) h))
        exact noSweep_head P _ hn2
      · exact starved_trans h12 (ih _ _ _ (h12.2 hn) h)
    · simp at h
    · simp at h

theorem randomAnimation_unserviced (P : Platform) (handler : Int → State → Outcome State)
    (hh : ∀ c s s', decode c ≠ Cmd.sweepDiagnostic → NoSweepBytes P s →
      handler c s = Outcome.ok s' → Starved P s s')
    (fuel : Nat) (s s' : State) (hn : NoSweepBytes P s)
    (h : randomAnimation P handler fuel s = Outcome.ok s') : Starved P s s' := by
  unfold randomAnimation at h
  have h0 : Starved P s (malloc 64 s).2 :=
    starved_of (by simp [malloc, services_append, services, isWatchdog]) (Or.inl rfl)
  simp only [] at h
  split at h
  · injection h with h; subst h
    exact starved_trans h0 (starved_emit P _ (Event.serialWriteString (Str.getString 24)) rfl)
  · exact starved_trans h0 (randomLoop_unserviced P handler hh _ _ _ _ (h0.2 hn) h)

theorem dispatch_unserviced (P : Platform) (handler : Int → State → Outcome State)
    (hh : ∀ c s s', decode c ≠ Cmd.sweepDiagnostic → NoSweepBytes P s →
      handler c s = Outcome.ok s' → Starved P s s') (fuel : Nat) (cmd : Cmd)
    (hcmd : cmd ≠ Cmd.sweepDiagnostic)
    (s s' : State) (hn : NoSweepBytes P s)
    (h : dispatch P handler fuel cmd s = Outcome.ok s') : Starved P s s' := by
    cases cmd <;> simp only [dispatch] at h
    case sweepDiagnostic => exact absurd rfl hcmd
    case randomAnimation => exact randomAnimation_unserviced P _ hh _ _ _ hn h
    case printTime => injection h with h; subst h; exact printTime_unserviced P s
    case toggleMode =>
      split at h <;>
      · injection h with h; subst h
        exact starved_of (by simp [State.emit, services_append, services, isWatchdog])
          (Or.inl rfl)
    case setAnimationCount =>
      split at h
      · rename_i s1 hw
        simp only [serialGet] at h
        injection h with h; subst h
        refine starved_trans (starved_trans
          (starved_emit P s (Event.serialWriteString (Str.getString 16)) rfl)
          (waitChar_unserviced P _ _ _ hw)) ?_
        exact starved_of (by simp [writeBufferString, itoaBuffer, State.emit, services_append,
          services, isWatchdog]) (Or.inr rfl)
      · simp at h
      · simp at h
    case selfTest =>
      injection h with h; subst h
      refine starved_trans ?_ (printErrors_unserviced P _ _)
      refine starved_trans (selfTest_unserviced P s) ?_
      exact starved_of (by simp [writeBufferString, itoaBuffer, State.emit, services_append,
        services, isWatchdog]) (Or.inl rfl)
    all_goals
      injection h with h; subst h
      exact starved_of (by simp [writeBufferString, itoaBuffer, ltoaBuffer, getAnimationCount,
        getTriggerCount, State.emit, services_append, services, isWatchdog]) (Or.inl rfl)

/-- A dispatched command that is not the sweep diagnostic, with no byte for
the sweep diagnostic in the serial input, does not service the watchdog. -/
theorem serialHandler_unserviced (P : Platform) : ∀ (fuel : Nat) (c : Int) (s s' : State),
    decode c ≠ Cmd.sweepDiagnostic → NoSweepBytes P s →
    serialHandler P fuel c s = Outcome.ok s' → Starved P s s' := by
  intro fuel
  induction fuel with
  | zero => intro c s s' _ _ h; simp [serialHandler] at h
  | succ n ih =>
    intro c s s' hc hn h
    rw [serialHandler] at h
    exact dispatch_unserviced P _ ih _ _ hc _ _ hn h

/-- No write of the dispatcher clears `shouldRestart`. -/
theorem GStep.restart_kept {g g' : Globals} (h : GStep g g') :
    g.shouldRestart ≠ 0 → g'.shouldRestart ≠ 0 := by
  induction h with
  | refl g => exact id
  | trans _ _ ih1 ih2 => exact fun h => ih2 (ih1 h)
  | buffer g b o => exact id
  | defaultImageA g a => exact id
  | debugDone g => exact id
  | restart g => intro _; show (1 : Nat) ≠ 0; decide
  | toggle g => exact id

theorem modeStep_restart (P : Platform) (s s' : State) (h : modeStep P s = Outcome.ok s') :
    s'.g.shouldRestart = s.g.shouldRestart := by
  have hr : (refreshStep s).g.shouldRestart = s.g.shouldRestart := by
    unfold refreshStep
    simp only [getAnimationCount]
    split <;> rfl
  have hi : ∀ t : State, (idleStep P t).g.shouldRestart = t.g.shouldRestart := by
    intro t
    unfold idleStep
    simp only [isFinished]
    repeat' split
    all_goals rfl
  unfold modeStep at h
  split at h
  · injection h with h; subst h; rw [audioStep_g]
  · simp only [] at h
    split at h
    · rw [playbackStep_g _ _ h]; exact hr
    · injection h with h; subst h
      rw [hi]; exact hr

theorem modeStep_unserviced (P : Platform) (s s' : State) (h : modeStep P s = Outcome.ok s') :
    Starved P s s' := by
  have hr : Starved P s (refreshStep s) := by
    unfold refreshStep
    simp only [getAnimationCount]
    split
    · exact starved_of (by simp [services_append, services, isWatchdog]) (Or.inl rfl)
    · exact starved_refl P s
  have hi : ∀ t : State, Starved P t (idleStep P t) := by
    intro t
    unfold idleStep
    simp only [isFinished]
    repeat' split
    all_goals
      exact starved_of (by simp [State.emit, services_append, services, isWatchdog])
        (Or.inl rfl)
  have ha : Starved P s (audioStep s) := by
    unfold audioStep
    simp only [isFinished, getAudioData]
    split
    · split <;>
        exact starved_of (by simp [State.emit, services_append, services, isWatchdog])
          (Or.inl rfl)
    · exact starved_of (by simp [services_append, services, isWatchdog]) (Or.inl rfl)
  have hp : ∀ t t' : State, playbackStep t = Outcome.ok t' → Starved P t t' := by
    intro t t' h
    unfold playbackStep at h
    simp only [isFinished, getFrame] at h
    split at h
    · split at h
      · simp at h
      · injection h with h; subst h
        refine starved_of ?_ (Or.inl ?_)
        · simp only [emit_trace, apply_ite State.trace, ite_self, services_append]
          simp [services, isWatchdog]
        · simp only [emit_env, apply_ite State.env, ite_self]
    · injection h with h; subst h
      exact starved_of (by simp [services_append, services, isWatchdog]) (Or.inl rfl)
  unfold modeStep at h
  split at h
  · injection h with h; subst h; exact ha
  · simp only [] at h
    split at h
    · exact starved_trans hr (hp _ _ h)
    · injection h with h; subst h
      exact starved_trans hr (hi _)

theorem heartbeatStep_unserviced (P : Platform) (s : State) :
    (heartbeatStep s).g.shouldRestart = s.g.shouldRestart ∧ Starved P s (heartbeatStep s) := by
  unfold heartbeatStep
  simp only [getSystemTime, getTriggerCount]
  split
  · refine ⟨rfl, starved_of ?_ (Or.inl rfl)⟩
    simp only [writeBufferString_trace, emit_trace, ltoaBuffer_trace, services_append]
    simp [services, isWatchdog]
  · exact ⟨rfl, starved_of (by simp [services_append, services, isWatchdog]) (Or.inl rfl)⟩

theorem buttonStep_unserviced (P : Platform) (s : State) :
    (buttonStep s).g.shouldRestart = s.g.shouldRestart ∧ Starved P s (buttonStep s) := by
  unfold buttonStep
  simp only [getSystemTime, audioModeSelected, readPINB]
  repeat' split
  all_goals
    exact ⟨rfl, starved_of (by simp [services_append, services, isWatchdog]) (Or.inl rfl)⟩

theorem serialStep_unserviced (P : Platform) (fuel : Nat) (s s' : State)
    (h : serialStep P fuel s = Outcome.ok s') :
    (s.g.shouldRestart ≠ 0 → s'.g.shouldRestart ≠ 0) ∧
    (NoSweepBytes P s → Starved P s s') := by
  have h1 : Starved P s (serialHasChar s).2 :=
    starved_of (by simp [serialHasChar, services_append, services, isWatchdog]) (Or.inl rfl)
  have h0 : Starved P (serialHasChar s).2 (serialGet (serialHasChar s).2).2 :=
    starved_of (by simp [serialHasChar, serialGet, services_append, services, isWatchdog])
      (Or.inr rfl)
  unfold serialStep at h
  simp only [] at h
  split at h
  · refine ⟨(serialHandler_frame P _ _ _ _ h).1.restart_kept, fun hn => ?_⟩
    have hn1 := h1.2 hn
    exact starved_trans h1 (starved_trans h0
      (serialHandler_unserviced P _ _ _ _ (noSweep_head P _ hn1) (h0.2 hn1) h))
  · injection h with h; subst h
    exact ⟨id, fun _ => h1⟩

/-- One iteration after a restart request: `shouldRestart` stays set, and
unless a byte for the sweep diagnostic is in the serial input the watchdog is
not serviced. -/
theorem mainLoopBody_unserviced (P : Platform) (fuel : Nat) (s s' : State)
    (hq : s.g.shouldRestart ≠ 0) (h : mainLoopBody P fuel s = Outcome.ok s') :
    s'.g.shouldRestart ≠ 0 ∧ (NoSweepBytes P s → Starved P s s') := by
  have hw : watchdogStep s = s := by
    unfold watchdogStep
    rw [if_neg hq]
  unfold mainLoopBody at h
  rw [hw] at h
  split at h
  · rename_i s1 h1
    split at h
    · rename_i s2 h2
      injection h with h; subst h
      obtain ⟨q2, n2⟩ := serialStep_unserviced P fuel s1 s2 h2
      obtain ⟨r3, u3⟩ := heartbeatStep_unserviced P s2
      obtain ⟨r4, u4⟩ := buttonStep_unserviced P (heartbeatStep s2)
      have u1 := modeStep_unserviced P s s1 h1
      refine ⟨?_, fun hn => ?_⟩
      · rw [r4, r3]
        apply q2
        rw [modeStep_restart P s s1 h1]
        exact hq
      · exact starved_trans u1 (starved_trans (n2 (u1.2 hn)) (starved_trans u3 u4))
    · simp at h
    · simp at h
  · simp at h
  · simp at h

theorem mainLoop_unserviced (P : Platform) (fuel : Nat) : ∀ (k : Nat) (s s' : State),
    s.g.shouldRestart ≠ 0 → mainLoop P fuel k s = Outcome.ok s' →
    s'.g.shouldRestart ≠ 0 ∧ (NoSweepBytes P s → Starved P s s') := by
  intro k
  induction k with
  | zero =>
    intro s s' hq h
    injection h with h; subst h
    exact ⟨hq, fun _ => starved_refl P s⟩
  | succ k ih =>
    intro s s' hq h
    simp only [mainLoop] at h
    split at h
    · rename_i s1 h1
      obtain ⟨q1, u1⟩ := mainLoopBody_unserviced P fuel s s1 hq h1
      obtain ⟨q2, u2⟩ := ih s1 s' q1 h
      exact ⟨q2, fun hn => starved_trans (u1 hn) (u2 ((u1 hn).2 hn))⟩
    · simp at h
    · simp at h

/-- C4, as amended: once `shouldRestart` is set, as request-restart ('q',
'Q') sets it, it stays set through every later main-loop iteration and every
dispatched command, and no later iteration services the watchdog at its
start.  The dispatcher does not look at `shouldRestart`: the only later
services are those of the busy wait of the sweep diagnostic, so a dispatched
command that is not the sweep diagnostic, with no byte for the sweep
diagnostic in the serial input, calls `wdt_reset` not at all, and neither does
a run of iterations with no such byte.  All this for runs that wrote no text
past the end of `buffer` (`overrun` is false at the end, and so it was after
every iteration). -/
theorem restart_starves_watchdog (P : Platform) (fuel k : Nat) (s s' : State)
    (hq : s.g.shouldRestart ≠ 0) (hrun : mainLoop P fuel k s = Outcome.ok s')
    (hfit : s'.g.overrun = false) :
    s'.g.shouldRestart ≠ 0 ∧
    watchdogStep s' = s' ∧
    (NoSweepBytes P s → services s'.trace = services s.trace) ∧
    (∀ (j : Nat) (sj : State), j ≤ k → mainLoop P fuel j s = Outcome.ok sj →
      sj.g.shouldRestart ≠ 0 ∧ watchdogStep sj = sj ∧ sj.g.overrun = false) ∧
    (∀ (n : Nat) (c : Int) (a b : State), serialHandler P n c a = Outcome.ok b →
      b.g.overrun = false →
      (a.g.shouldRestart ≠ 0 → b.g.shouldRestart ≠ 0) ∧
      (decode c ≠ Cmd.sweepDiagnostic → NoSweepBytes P a →
        services b.trace = services a.trace)) ∧
    (∀ (n : Nat) (c : Int) (a : State), decode c = Cmd.requestRestart →
      ∃ b, serialHandler P (n + 1) c a = Outcome.ok b ∧ b.g.shouldRestart = 1 ∧
        services b.trace = services a.trace) ∧
    decode 113 = Cmd.requestRestart ∧ decode 81 = Cmd.requestRestart := by
  have hw : ∀ t : State, t.g.shouldRestart ≠ 0 → watchdogStep t = t := by
    intro t ht
    unfold watchdogStep
    rw [if_neg ht]
  obtain ⟨q1, u1⟩ := mainLoop_unserviced P fuel k s s' hq hrun
  refine ⟨q1, hw s' q1, fun hn => (u1 hn).1, ?_, ?_, ?_, by decide, by decide⟩
  · intro j sj hj hsj
    have hk : k = j + (k - j) := by omega
    have hrest := hrun
    rw [hk, mainLoop_add P fuel (k - j) j s sj hsj] at hrest
    have qj := (mainLoop_unserviced P fuel j s sj hq hsj).1
    exact ⟨qj, hw sj qj, clean_before (mainLoop_overrun P fuel _ _ _ hrest) hfit⟩
  · intro n c a b h _
    exact ⟨(serialHandler_frame P _ _ _ _ h).1.restart_kept,
      fun hc hn => (serialHandler_unserviced P _ _ _ _ hc hn h).1⟩
  · intro n c a hc
    refine ⟨_, by rw [serialHandler, hc]; rfl, rfl, ?_⟩
    simp [State.emit, services_append, services, isWatchdog]

/-- C4, example of the amended claim: after a restart request, an iteration
that dispatches the byte 'v' and a second one without input end with
`shouldRestart` still set and without any service of the watchdog. -/
theorem restart_starves_watchdog_witness :
    ∃ s', mainLoop examplePlatform 1 2 restartedState = Outcome.ok s' ∧
      s'.g.overrun = false ∧ s'.g.shouldRestart ≠ 0 ∧ services s'.trace = 0 := by
  have hn : NoSweepBytes examplePlatform restartedState := by
    unfold NoSweepBytes
    decide
  have h := restart_starves_watchdog examplePlatform 1 2 restartedState _ (by decide) rfl
    (by decide)
  exact ⟨_, rfl, by decide, h.1, h.2.2.1 hn⟩

end LEDCube
